import Mathlib

/-!
# Transaction decoding: `x/tx/decode/decode.go`

A shallow embedding of the transaction decoder of the Cosmos SDK and of the
lazily cached accessors of `DecodedTx`.

Conventions of the embedding.

* A Go `[]byte` and the `string(...)` conversion of one are both the list of
  their bytes (`Bytes`); the conversion copies byte for byte, so equality of
  map keys `string(s)` is equality of the byte lists.
* A Go slice on which the source tests `== nil` is a `Slice`: `none` is the
  nil slice, `some l` a non-nil slice with elements `l`.
* A Go pointer that may be nil is an `Option`.
* A Go function returning `(value, error)` is embedded with its pair of
  results where the source builds the pair itself (`Decode`, `NewDecoder`),
  and as an `Except` where the source only consumes it (the value is ignored
  whenever the error is non-nil).
* A Go panic is an explicit outcome.
* Functions of other packages (protobuf runtime, SHA-256, the unknown-field
  scanner, the ADR-027 validator, the signing context) are parameters,
  collected in `Env` and `Decoder`; every call to one of them (the getter
  `FileResolver()` apart) is recorded, in program order, in the `calls` of
  the result.
* The ADR-027 validator and the unknown-field scanner, whose files are not
  among the sources, also have a model written from the spec
  (`rejectNonADR027TxRaw`, `RejectUnknownFields`, `RejectUnknownFieldsStrict`);
  a statement about what they accept ties an `Env` to the model by a
  hypothesis, and every other statement holds for all collaborators.

The file also embeds `PreBlocker` of `x/upgrade/keeper/abci.go` (namespace
`UpgradeKeeper`), the transient store of `store/transient/store.go` (namespace
`TransientStore`) and `Config.Clone` of `types/simulation/config.go`
(namespace `Simulation`). The definitions of all four come first, the lemmas
and claims after them.
-/

namespace TxDecode

/-! ## Go values -/

/-- Byte strings: a Go `[]byte`, or a Go `string` used as a map key. -/
abbrev Bytes := List UInt8

/-- A Go slice whose nil-ness is observable: `none` is `nil`. -/
abbrev Slice (α : Type) := Option (List α)

/-- The elements of a slice; a nil slice has none. -/
def Slice.toList {α : Type} (s : Slice α) : List α :=
  match s with
  | none => []
  | some l => l

/-- Go `append(s, x)`: the result is never nil. -/
def goAppend {α : Type} (s : Slice α) (x : α) : Slice α :=
  some (Slice.toList s ++ [x])

/-- Go `error` values. `new` is an error made by `errors.New` or returned by a
collaborator; `wrap` is `errorsmod.Wrap(cause, description)`; `errorf` is
`fmt.Errorf` with a `%w` verb, `text` being the whole formatted message. -/
inductive GoError where
  | new (text : String)
  | wrap (cause : GoError) (description : String)
  | errorf (text : String) (cause : GoError)
  deriving DecidableEq, Repr

/-- The `Error()` method. -/
def GoError.Error : GoError → String
  | .new text => text
  | .wrap cause description => description ++ ": " ++ cause.Error
  | .errorf text _ => text

/-- Go `errors.Is(e, target)`: `target` occurs in the chain of `e`. -/
def GoError.Is : GoError → GoError → Bool
  | .new text, target => decide (GoError.new text = target)
  | .wrap cause description, target =>
      decide (GoError.wrap cause description = target) || cause.Is target
  | .errorf text cause, target =>
      decide (GoError.errorf text cause = target) || cause.Is target

/-- The function `errorsmod.Wrap(err, description)` for a non-nil `err`. -/
def Wrap (err : GoError) (description : String) : GoError :=
  GoError.wrap err description

/-- What a Go call that returns `(*α, error)` did: it returned a pair, or it
panicked. -/
inductive Outcome (α : Type) where
  | returned (val : Option α) (err : Option GoError)
  | panicked (reason : String)

/-- Go `strings.TrimPrefix(s, "/")`: one leading slash is removed, if there is
one. -/
def TrimPrefix (s : String) : String :=
  match s.data with
  | '/' :: rest => String.mk rest
  | _ => s

/-! ## Data model -/

/-- The array type `[32]byte`. -/
abbrev Hash32 := { l : Bytes // l.length = 32 }

/-- The zero value of `[32]byte`. -/
def Hash32.zero : Hash32 := ⟨List.replicate 32 0, by simp⟩

/-- The message `google.protobuf.Any`: a type identifier and a payload. -/
structure AnyMsg where
  TypeUrl : String
  Value : Bytes
  deriving DecidableEq, Repr

/-- The message `v1beta1.TxRaw`. -/
structure TxRaw where
  BodyBytes : Bytes
  AuthInfoBytes : Bytes
  Signatures : List Bytes
  deriving DecidableEq, Repr

/-- The message `v1beta1.TxBody`. -/
structure TxBody where
  Messages : List AnyMsg
  Memo : String
  TimeoutHeight : Nat
  ExtensionOptions : List AnyMsg
  deriving DecidableEq, Repr

/-- The message `v1beta1.Fee`; `GasLimit` is a `uint64`. -/
structure Fee where
  GasLimit : Nat
  Payer : String
  deriving DecidableEq, Repr

/-- The message `v1beta1.SignerInfo`. -/
structure SignerInfo where
  Mode : Nat
  Sequence : Nat
  deriving DecidableEq, Repr

/-- The message `v1beta1.AuthInfo`. -/
structure AuthInfo where
  SignerInfos : List SignerInfo
  Fee : Option Fee
  deriving DecidableEq, Repr

/-- The message `v1beta1.Tx`. -/
structure Tx where
  Body : Option TxBody
  AuthInfo : Option AuthInfo
  Signatures : List Bytes
  deriving DecidableEq, Repr

/-- The struct `DecodedTx`. `RM` is `protoreflect.Message`, `GM` is
`gogoproto.Message`. -/
structure DecodedTx (RM GM : Type) where
  Messages : Slice GM
  ReflectMessages : Slice RM
  Tx : Option Tx
  TxRaw : Option TxRaw
  Signers : Slice Bytes
  TxBodyHasUnknownNonCriticals : Bool
  cachedHash : Hash32
  cachedBytes : Bytes
  cachedHashed : Bool

/-! ## Collaborators -/

/-- A call from `decode.go` into another package or file: validation,
scanning, parsing, descriptor lookup, resolution, signer extraction,
serialization or hashing. -/
inductive Call where
  | rejectNonADR027TxRaw (txBytes : Bytes)
  | RejectUnknownFieldsStrict (bz : Bytes)
  | RejectUnknownFields (bz : Bytes) (allowUnknownNonCriticals : Bool)
  | protoUnmarshal (bz : Bytes)
  | FindDescriptorByName (name : String)
  | NewMessageType
  | UnmarshalTo (anyMsg : AnyMsg)
  | Resolve (typeURL : String)
  | codecUnmarshal (bz : Bytes)
  | GetSigners
  | protoMarshal (raw : Option TxRaw)
  | sha256Sum256 (bz : Bytes)
  deriving DecidableEq, Repr

/-- A result together with the calls made on the way, in program order. -/
structure Traced (α : Type) where
  calls : List Call
  result : α

/-- A `protoreflect.Descriptor`: either it implements
`protoreflect.MessageDescriptor` (`MD`), or it describes something else (an
enum, a service, a field, ...). -/
inductive Descriptor (MD : Type) where
  | message (md : MD)
  | other (fullName : String)

/-- The file resolver of the signing context. -/
structure FileResolver (MD : Type) where
  FindDescriptorByName : String → Except GoError (Descriptor MD)

/-- The type `signing.Context`. -/
structure SigningContext (MD RM : Type) where
  FileResolver : FileResolver MD
  GetSigners : RM → Except GoError (List Bytes)

/-- The interface `gogoProtoCodec`: `Unmarshal(bz, msg)` fills `msg`. -/
structure gogoProtoCodec (GM : Type) where
  Unmarshal : Bytes → GM → Except GoError GM

/-- The interface `anyResolver`. -/
structure anyResolver (GM : Type) where
  Resolve : String → Except GoError GM

/-- The struct `Decoder`, as `NewDecoder` builds it: its three dependencies are
present. -/
structure Decoder (MD RM GM : Type) where
  signingCtx : SigningContext MD RM
  codec : gogoProtoCodec GM
  resolver : anyResolver GM

/-- The struct `Options`; each dependency may be nil. -/
structure Options (MD RM GM : Type) where
  SigningContext : Option (SigningContext MD RM)
  ProtoCodec : Option (gogoProtoCodec GM)
  AnyResolver : Option (anyResolver GM)

/-- Package-level functions and values that `decode.go` uses and does not
define: the registered error `ErrTxDecode`, the ADR-027 validator, the
unknown-field scanner, the descriptors of the three envelope messages, the
protobuf runtime (`proto.Unmarshal`, `proto.Marshal`, `dynamicpb`,
`Any.UnmarshalTo`) and `sha256.Sum256`. -/
structure Env (MD RM GM : Type) where
  ErrTxDecode : GoError
  rejectNonADR027TxRaw : Bytes → Option GoError
  RejectUnknownFieldsStrict : Bytes → MD → FileResolver MD → Option GoError
  RejectUnknownFields : Bytes → MD → Bool → FileResolver MD → Bool × Option GoError
  TxRawDescriptor : MD
  TxBodyDescriptor : MD
  AuthInfoDescriptor : MD
  unmarshalTxRaw : Bytes → Except GoError TxRaw
  unmarshalTxBody : Bytes → Except GoError TxBody
  unmarshalAuthInfo : Bytes → Except GoError AuthInfo
  marshalTxRaw : Option TxRaw → Except GoError Bytes
  newDynamicMessage : MD → RM
  anyUnmarshalTo : AnyMsg → RM → Except GoError RM
  sha256Sum256 : Bytes → Hash32

/-! ## `NewDecoder` -/

/-- The function `NewDecoder`. -/
def NewDecoder {MD RM GM : Type} (options : Options MD RM GM) :
    Option (Decoder MD RM GM) × Option GoError :=
  match options.SigningContext with
  | none => (none, some (GoError.new "signing context is required"))
  | some signingCtx =>
  match options.ProtoCodec with
  | none => (none, some (GoError.new
      "proto codec is required for unmarshalling gogoproto messages"))
  | some codec =>
  match options.AnyResolver with
  | none => (none, some (GoError.new
      "any resolver is required for resolving Any messages"))
  | some resolver =>
  (some { signingCtx := signingCtx, codec := codec, resolver := resolver }, none)

/-! ## `Decode` -/

/-- The variables of the loop over `body.Messages`; `seenSigners` is the key
set of the map `map[string]struct{}`. -/
structure LoopVars (RM GM : Type) where
  signers : Slice Bytes
  reflectMsgs : Slice RM
  msgs : Slice GM
  seenSigners : List Bytes

/-- What one iteration of a loop body did: it fell through to the next
iteration, it returned from the enclosing function, or it panicked. -/
inductive Step (σ α : Type) where
  | next (vars : σ)
  | ret (val : Option α) (err : Option GoError)
  | panic (reason : String)

/-- The inner loop `for _, s := range ss` of `Decode`: `s` is appended unless
its key is in the map, and its key is then added. -/
def appendSigners : List Bytes → Slice Bytes × List Bytes → Slice Bytes × List Bytes
  | [], acc => acc
  | s :: ss, (signers, seenSigners) =>
    if s ∈ seenSigners then
      appendSigners ss (signers, seenSigners)
    else
      appendSigners ss (goAppend signers s, s :: seenSigners)

/-- The body of the loop `for _, anyMsg := range body.Messages` of `Decode`. -/
def decodeMsg {MD RM GM : Type} (env : Env MD RM GM) (d : Decoder MD RM GM)
    (fileResolver : FileResolver MD) (vars : LoopVars RM GM) (anyMsg : AnyMsg) :
    Traced (Step (LoopVars RM GM) (DecodedTx RM GM)) :=
  let typeURL := TrimPrefix anyMsg.TypeUrl
  let log := [Call.FindDescriptorByName typeURL]
  match fileResolver.FindDescriptorByName typeURL with
  | .error err =>
    ⟨log, .ret none (some (GoError.errorf
      ("protoFiles does not have descriptor " ++ anyMsg.TypeUrl ++ ": " ++ err.Error) err))⟩
  | .ok (.other _) =>
    ⟨log, .panic "interface conversion: not a protoreflect.MessageDescriptor"⟩
  | .ok (.message msgDesc) =>
  let log := log ++ [Call.NewMessageType, Call.UnmarshalTo anyMsg]
  match env.anyUnmarshalTo anyMsg (env.newDynamicMessage msgDesc) with
  | .error err => ⟨log, .ret none (some err)⟩
  | .ok dynamicMsg =>
  let reflectMsgs := goAppend vars.reflectMsgs dynamicMsg
  let log := log ++ [Call.Resolve typeURL]
  match d.resolver.Resolve typeURL with
  | .error err => ⟨log, .ret none (some err)⟩
  | .ok msg0 =>
  let log := log ++ [Call.codecUnmarshal anyMsg.Value]
  match d.codec.Unmarshal anyMsg.Value msg0 with
  | .error err => ⟨log, .ret none (some err)⟩
  | .ok msg =>
  let msgs := goAppend vars.msgs msg
  let log := log ++ [Call.GetSigners]
  match d.signingCtx.GetSigners dynamicMsg with
  | .error signerErr => ⟨log, .ret none (some (Wrap env.ErrTxDecode signerErr.Error))⟩
  | .ok ss =>
  let acc := appendSigners ss (vars.signers, vars.seenSigners)
  ⟨log, .next { signers := acc.1, reflectMsgs := reflectMsgs, msgs := msgs,
                seenSigners := acc.2 }⟩

/-- The loop `for _, anyMsg := range body.Messages` of `Decode`. -/
def decodeMsgs {MD RM GM : Type} (env : Env MD RM GM) (d : Decoder MD RM GM)
    (fileResolver : FileResolver MD) :
    List AnyMsg → LoopVars RM GM → Traced (Step (LoopVars RM GM) (DecodedTx RM GM))
  | [], vars => ⟨[], .next vars⟩
  | anyMsg :: rest, vars =>
    let r := decodeMsg env d fileResolver vars anyMsg
    match r.result with
    | .next vars1 =>
      let r1 := decodeMsgs env d fileResolver rest vars1
      ⟨r.calls ++ r1.calls, r1.result⟩
    | .ret val err => ⟨r.calls, .ret val err⟩
    | .panic reason => ⟨r.calls, .panic reason⟩

/-- The method `Decoder.Decode`. -/
def Decode {MD RM GM : Type} (env : Env MD RM GM) (d : Decoder MD RM GM)
    (txBytes : Bytes) : Traced (Outcome (DecodedTx RM GM)) :=
  let log := [Call.rejectNonADR027TxRaw txBytes]
  match env.rejectNonADR027TxRaw txBytes with
  | some err => ⟨log, .returned none (some (Wrap env.ErrTxDecode err.Error))⟩
  | none =>
  let fileResolver := d.signingCtx.FileResolver
  let log := log ++ [Call.RejectUnknownFieldsStrict txBytes]
  match env.RejectUnknownFieldsStrict txBytes env.TxRawDescriptor fileResolver with
  | some err => ⟨log, .returned none (some (Wrap env.ErrTxDecode err.Error))⟩
  | none =>
  let log := log ++ [Call.protoUnmarshal txBytes]
  match env.unmarshalTxRaw txBytes with
  | .error err => ⟨log, .returned none (some err)⟩
  | .ok raw =>
  let log := log ++ [Call.RejectUnknownFields raw.BodyBytes true]
  match env.RejectUnknownFields raw.BodyBytes env.TxBodyDescriptor true fileResolver with
  | (_, some err) => ⟨log, .returned none (some (Wrap env.ErrTxDecode err.Error))⟩
  | (txBodyHasUnknownNonCriticals, none) =>
  let log := log ++ [Call.protoUnmarshal raw.BodyBytes]
  match env.unmarshalTxBody raw.BodyBytes with
  | .error err => ⟨log, .returned none (some (Wrap env.ErrTxDecode err.Error))⟩
  | .ok body =>
  let log := log ++ [Call.RejectUnknownFieldsStrict raw.AuthInfoBytes]
  match env.RejectUnknownFieldsStrict raw.AuthInfoBytes env.AuthInfoDescriptor fileResolver with
  | some err => ⟨log, .returned none (some (Wrap env.ErrTxDecode err.Error))⟩
  | none =>
  let log := log ++ [Call.protoUnmarshal raw.AuthInfoBytes]
  match env.unmarshalAuthInfo raw.AuthInfoBytes with
  | .error err => ⟨log, .returned none (some (Wrap env.ErrTxDecode err.Error))⟩
  | .ok authInfo =>
  let theTx : Tx :=
    { Body := some body, AuthInfo := some authInfo, Signatures := raw.Signatures }
  let loop := decodeMsgs env d fileResolver body.Messages
      { signers := none, reflectMsgs := none, msgs := none, seenSigners := [] }
  match loop.result with
  | .ret val err => ⟨log ++ loop.calls, .returned val err⟩
  | .panic reason => ⟨log ++ loop.calls, .panicked reason⟩
  | .next vars =>
    ⟨log ++ loop.calls, .returned (some
      { Messages := vars.msgs,
        ReflectMessages := vars.reflectMsgs,
        Tx := some theTx,
        TxRaw := some raw,
        TxBodyHasUnknownNonCriticals := txBodyHasUnknownNonCriticals,
        Signers := vars.signers,
        cachedHash := Hash32.zero,
        cachedBytes := [],
        cachedHashed := false }) none⟩

/-! ## The cache of `DecodedTx` -/

/-- The method `DecodedTx.computeHashAndBytes`; `.error err` is `panic(err)`. -/
def DecodedTx.computeHashAndBytes {MD RM GM : Type} (env : Env MD RM GM)
    (dtx : DecodedTx RM GM) : Traced (Except GoError (DecodedTx RM GM)) :=
  match env.marshalTxRaw dtx.TxRaw with
  | .error err => ⟨[Call.protoMarshal dtx.TxRaw], .error err⟩
  | .ok bz =>
    ⟨[Call.protoMarshal dtx.TxRaw, Call.sha256Sum256 bz],
      .ok { dtx with cachedBytes := bz, cachedHash := env.sha256Sum256 bz,
                     cachedHashed := true }⟩

/-- The method `DecodedTx.Hash`: the value returned and the receiver after the
call; `.error err` is a panic. -/
def DecodedTx.Hash {MD RM GM : Type} (env : Env MD RM GM) (dtx : DecodedTx RM GM) :
    Traced (Except GoError (Hash32 × DecodedTx RM GM)) :=
  if !dtx.cachedHashed then
    let r := dtx.computeHashAndBytes env
    match r.result with
    | .error err => ⟨r.calls, .error err⟩
    | .ok dtx1 => ⟨r.calls, .ok (dtx1.cachedHash, dtx1)⟩
  else
    ⟨[], .ok (dtx.cachedHash, dtx)⟩

/-- The method `DecodedTx.Bytes`: the value returned and the receiver after the
call; `.error err` is a panic. -/
def DecodedTx.Bytes {MD RM GM : Type} (env : Env MD RM GM) (dtx : DecodedTx RM GM) :
    Traced (Except GoError (Bytes × DecodedTx RM GM)) :=
  if !dtx.cachedHashed then
    let r := dtx.computeHashAndBytes env
    match r.result with
    | .error err => ⟨r.calls, .error err⟩
    | .ok dtx1 => ⟨r.calls, .ok (dtx1.cachedBytes, dtx1)⟩
  else
    ⟨[], .ok (dtx.cachedBytes, dtx)⟩

/-- What a client does with a `DecodedTx` during its life: it calls `Hash()`,
it calls `Bytes()`, or it assigns the exported field `TxRaw`. -/
inductive CacheOp where
  | callHash
  | callBytes
  | assignTxRaw (raw : Option TxRaw)

/-- What a client observes: a value returned by `Hash()` or by `Bytes()`. -/
inductive Observed where
  | hash (h : Hash32)
  | bytes (b : Bytes)
  deriving DecidableEq

/-- A life of a `DecodedTx`: the operations are run in order on the same
receiver; the result lists what the calls returned and gives the receiver at
the end, or is the first panic. -/
def runOps {MD RM GM : Type} (env : Env MD RM GM) :
    List CacheOp → DecodedTx RM GM → Traced (Except GoError (List Observed × DecodedTx RM GM))
  | [], dtx => ⟨[], .ok ([], dtx)⟩
  | .callHash :: ops, dtx =>
    let r := dtx.Hash env
    match r.result with
    | .error err => ⟨r.calls, .error err⟩
    | .ok (h, dtx1) =>
      let r1 := runOps env ops dtx1
      match r1.result with
      | .error err => ⟨r.calls ++ r1.calls, .error err⟩
      | .ok (obs, dtx2) => ⟨r.calls ++ r1.calls, .ok (Observed.hash h :: obs, dtx2)⟩
  | .callBytes :: ops, dtx =>
    let r := dtx.Bytes env
    match r.result with
    | .error err => ⟨r.calls, .error err⟩
    | .ok (b, dtx1) =>
      let r1 := runOps env ops dtx1
      match r1.result with
      | .error err => ⟨r.calls ++ r1.calls, .error err⟩
      | .ok (obs, dtx2) => ⟨r.calls ++ r1.calls, .ok (Observed.bytes b :: obs, dtx2)⟩
  | .assignTxRaw raw :: ops, dtx => runOps env ops { dtx with TxRaw := raw }

/-! ## Reference definitions for the statements -/

/-- Order-preserving first-occurrence deduplication, by exact equality of the
bytes: the head is kept and its later copies are dropped. -/
def dedupFirst : List Bytes → List Bytes
  | [] => []
  | x :: xs => x :: (dedupFirst xs).filter (fun y => decide (y ≠ x))

/-- Go `append(s, l...)`, as the loop performs it one element at a time. -/
def goAppendAll {α : Type} (s : Slice α) (l : List α) : Slice α :=
  l.foldl goAppend s

/-- The dynamic message that `Decode` builds for a body entry: the descriptor
found for the trimmed type identifier, instantiated and filled from the entry. -/
def dynamicMsgOf {MD RM GM : Type} (env : Env MD RM GM) (d : Decoder MD RM GM)
    (anyMsg : AnyMsg) : Option RM :=
  match d.signingCtx.FileResolver.FindDescriptorByName (TrimPrefix anyMsg.TypeUrl) with
  | .ok (.message msgDesc) =>
    match env.anyUnmarshalTo anyMsg (env.newDynamicMessage msgDesc) with
    | .ok dynamicMsg => some dynamicMsg
    | .error _ => none
  | _ => none

/-- The signer list that the signing context returns for a body message. -/
def signersOfMsg {MD RM GM : Type} (env : Env MD RM GM) (d : Decoder MD RM GM)
    (anyMsg : AnyMsg) : Option (List Bytes) :=
  match dynamicMsgOf env d anyMsg with
  | some dynamicMsg =>
    match d.signingCtx.GetSigners dynamicMsg with
    | .ok ss => some ss
    | .error _ => none
  | none => none

/-- The concrete message that `Decode` builds for a body entry. -/
def concreteMsgOf {MD RM GM : Type} (d : Decoder MD RM GM) (anyMsg : AnyMsg) : Option GM :=
  match d.resolver.Resolve (TrimPrefix anyMsg.TypeUrl) with
  | .ok msg0 =>
    match d.codec.Unmarshal anyMsg.Value msg0 with
    | .ok msg => some msg
    | .error _ => none
  | .error _ => none

/-- Modelled from the spec: the validator `rejectNonADR027TxRaw` of
`x/tx/decode/adr027.go`, a file that is not part of the sources at hand. The
spec (section 4.1): "the bytes must equal the unique canonical serialization of
their logical content"; it "rejects any byte string for which an alternate
encoding exists that would decode to the same logical value". The logical
content of the bytes is the envelope that `proto.Unmarshal` reads from them,
and the canonical serialization of an envelope is what `proto.Marshal` writes
for it (section 4.5: "canonically re-serialize the outer envelope"). -/
def rejectNonADR027TxRaw (unmarshalTxRaw : Bytes → Except GoError TxRaw)
    (marshalTxRaw : Option TxRaw → Except GoError Bytes) (txBytes : Bytes) : Option GoError :=
  match unmarshalTxRaw txBytes with
  | .error err => some err
  | .ok raw =>
    match marshalTxRaw (some raw) with
    | .error err => some err
    | .ok bz =>
      if bz = txBytes then none
      else some (GoError.new "txRaw must follow ADR-027")

/-- The values that a life of a `DecodedTx` whose cache holds `bz` must return:
every `Hash()` the digest of `bz`, every `Bytes()` the bytes `bz`. -/
def observedFromCache {MD RM GM : Type} (env : Env MD RM GM) (bz : Bytes) :
    List CacheOp → List Observed
  | [] => []
  | .callHash :: ops => Observed.hash (env.sha256Sum256 bz) :: observedFromCache env bz ops
  | .callBytes :: ops => Observed.bytes bz :: observedFromCache env bz ops
  | .assignTxRaw _ :: ops => observedFromCache env bz ops

/-! ## A small concrete world

Used to evaluate the definitions on concrete inputs. The body bytes of a
transaction are its non-zero bytes, and an envelope is serialized as its body
bytes, so that the bytes without a zero are the canonical ones. Every byte of
the body is one message, of type `/M`, whose payload is the two hexadecimal
digits of the byte; the signers of a message are its two digits. The byte
`0xEE` is a message whose type names an enum, the byte `0xFF` one whose type
is not registered. -/

/-- The file resolver of the small world. -/
def toyFileResolver : FileResolver String :=
  { FindDescriptorByName := fun name =>
      if name = "M" then .ok (.message "M")
      else if name = "E" then .ok (.other "E")
      else .error (GoError.new "not found") }

/-- The decoder of the small world. -/
def toyDecoder : Decoder String AnyMsg AnyMsg :=
  { signingCtx :=
      { FileResolver := toyFileResolver,
        GetSigners := fun m => .ok (m.Value.map fun b => [b]) },
    codec := { Unmarshal := fun bz m => .ok { m with Value := bz } },
    resolver := { Resolve := fun typeURL => .ok { TypeUrl := typeURL, Value := [] } } }

/-- The digest of the small world: the input cut or padded to 32 bytes. -/
def toySum256 (bz : Bytes) : Hash32 :=
  ⟨(bz ++ List.replicate 32 0).take 32, by simp⟩

/-- The deserialization of the envelope in the small world. -/
def toyUnmarshalTxRaw (bz : Bytes) : Except GoError TxRaw :=
  .ok { BodyBytes := bz.filter fun b => b != 0, AuthInfoBytes := [], Signatures := [] }

/-- The serialization of the envelope in the small world. -/
def toyMarshalTxRaw (raw : Option TxRaw) : Except GoError Bytes :=
  match raw with
  | none => .ok []
  | some r => .ok r.BodyBytes

/-- The environment of the small world. -/
def toyEnv : Env String AnyMsg AnyMsg :=
  { ErrTxDecode := GoError.new "tx parse error",
    rejectNonADR027TxRaw := rejectNonADR027TxRaw toyUnmarshalTxRaw toyMarshalTxRaw,
    RejectUnknownFieldsStrict := fun _ _ _ => none,
    RejectUnknownFields := fun _ _ _ _ => (false, none),
    TxRawDescriptor := "TxRaw",
    TxBodyDescriptor := "TxBody",
    AuthInfoDescriptor := "AuthInfo",
    unmarshalTxRaw := toyUnmarshalTxRaw,
    unmarshalTxBody := fun bz =>
      .ok { Messages := bz.map fun b =>
              { TypeUrl := if b = 0xEE then "/E" else if b = 0xFF then "/X" else "/M",
                Value := [b / 16, b % 16] },
            Memo := "", TimeoutHeight := 0, ExtensionOptions := [] },
    unmarshalAuthInfo := fun _ => .ok { SignerInfos := [], Fee := none },
    marshalTxRaw := toyMarshalTxRaw,
    newDynamicMessage := fun md => { TypeUrl := md, Value := [] },
    anyUnmarshalTo := fun a m => .ok { m with Value := a.Value },
    sha256Sum256 := toySum256 }

/-- The envelope of the transaction `[0x12, 0x23]` of the small world. -/
def toyRaw : TxRaw :=
  { BodyBytes := [0x12, 0x23], AuthInfoBytes := [], Signatures := [] }

/-- The body of the transaction `[0x12, 0x23]` of the small world: a message
with signers `1, 2` and a message with signers `2, 3`. -/
def toyBody : TxBody :=
  { Messages := [{ TypeUrl := "/M", Value := [1, 2] }, { TypeUrl := "/M", Value := [2, 3] }],
    Memo := "", TimeoutHeight := 0, ExtensionOptions := [] }

/-- The result of decoding the transaction `[0x12, 0x23]` of the small world. -/
def toyDtx : DecodedTx AnyMsg AnyMsg :=
  { Messages := some [{ TypeUrl := "M", Value := [1, 2] }, { TypeUrl := "M", Value := [2, 3] }],
    ReflectMessages :=
      some [{ TypeUrl := "M", Value := [1, 2] }, { TypeUrl := "M", Value := [2, 3] }],
    Tx := some { Body := some toyBody, AuthInfo := some { SignerInfos := [], Fee := none },
                 Signatures := [] },
    TxRaw := some toyRaw,
    Signers := some [[1], [2], [3]],
    TxBodyHasUnknownNonCriticals := false,
    cachedHash := Hash32.zero,
    cachedBytes := [],
    cachedHashed := false }

/-- The same `DecodedTx` once its cache is filled. -/
def toyDtxCached : DecodedTx AnyMsg AnyMsg :=
  { toyDtx with cachedHash := toySum256 [0x12, 0x23], cachedBytes := [0x12, 0x23],
                cachedHashed := true }

/-! ## Accessors of `DecodedTx` -/

/-- The method `DecodedTx.GetGasLimit`; the receiver may be nil. The first
result is a `uint64`. -/
def DecodedTx.GetGasLimit {RM GM : Type} (dtx : Option (DecodedTx RM GM)) :
    Nat × Option GoError :=
  match dtx with
  | none => (0, some (GoError.new
      "gas limit not available or one or more required fields are nil"))
  | some dtx =>
  match dtx.Tx with
  | none => (0, some (GoError.new
      "gas limit not available or one or more required fields are nil"))
  | some tx =>
  match tx.AuthInfo with
  | none => (0, some (GoError.new
      "gas limit not available or one or more required fields are nil"))
  | some authInfo =>
  match authInfo.Fee with
  | none => (0, some (GoError.new
      "gas limit not available or one or more required fields are nil"))
  | some fee => (fee.GasLimit, none)

/-! ## Reference definitions for the stages of `Decode` -/

/-- The envelope stages of `Decode`, lines 79 to 122: the validator, the strict
scan of the root, the deserialization of the envelope, the lenient scan and the
deserialization of the body, the strict scan and the deserialization of the
auth info. The result is what the stages produce when all of them pass. -/
def envelopeStages {MD RM GM : Type} (env : Env MD RM GM) (d : Decoder MD RM GM)
    (txBytes : Bytes) : Option (TxRaw × Bool × TxBody × AuthInfo) :=
  match env.rejectNonADR027TxRaw txBytes with
  | some _ => none
  | none =>
  match env.RejectUnknownFieldsStrict txBytes env.TxRawDescriptor d.signingCtx.FileResolver with
  | some _ => none
  | none =>
  match env.unmarshalTxRaw txBytes with
  | .error _ => none
  | .ok raw =>
  match env.RejectUnknownFields raw.BodyBytes env.TxBodyDescriptor true
      d.signingCtx.FileResolver with
  | (_, some _) => none
  | (flag, none) =>
  match env.unmarshalTxBody raw.BodyBytes with
  | .error _ => none
  | .ok body =>
  match env.RejectUnknownFieldsStrict raw.AuthInfoBytes env.AuthInfoDescriptor
      d.signingCtx.FileResolver with
  | some _ => none
  | none =>
  match env.unmarshalAuthInfo raw.AuthInfoBytes with
  | .error _ => none
  | .ok authInfo => some (raw, flag, body, authInfo)

/-- A body entry is decoded without failure: the dynamic message, the
concrete message and the signer list are all obtained. -/
def msgDecodes {MD RM GM : Type} (env : Env MD RM GM) (d : Decoder MD RM GM)
    (anyMsg : AnyMsg) : Bool :=
  (dynamicMsgOf env d anyMsg).isSome && (concreteMsgOf d anyMsg).isSome &&
    (signersOfMsg env d anyMsg).isSome

/-- The `DecodedTx` that `Decode` builds at lines 176 to 183. -/
def newDecodedTx {RM GM : Type} (raw : TxRaw) (flag : Bool) (body : TxBody)
    (authInfo : AuthInfo) (vars : LoopVars RM GM) : DecodedTx RM GM :=
  { Messages := vars.msgs,
    ReflectMessages := vars.reflectMsgs,
    Tx := some { Body := some body, AuthInfo := some authInfo, Signatures := raw.Signatures },
    TxRaw := some raw,
    TxBodyHasUnknownNonCriticals := flag,
    Signers := vars.signers,
    cachedHash := Hash32.zero,
    cachedBytes := [],
    cachedHashed := false }

/-- The normalization of a type identifier in the words of the spec: "strip
any path prefix", that is, keep what follows the last `/`. -/
def bareSchemaName (typeUrl : String) : String :=
  String.mk ((typeUrl.data.splitOn '/').getLastD [])

/-! ## The unknown-field scanner, from the spec -/

/-- A field record of the wire format: a field number, a wire type and the
bytes of the value. -/
structure FieldRecord where
  number : Nat
  wireType : Nat
  value : Bytes
  deriving DecidableEq, Repr

/-- What a descriptor says of a field number that it declares: a field that is
not message-typed, or a message-typed field with the name of its descriptor. -/
inductive FieldKind where
  | scalar
  | message (typeName : String)
  deriving DecidableEq, Repr

/-- What the scanner reads of the wire format and of the schema: the field
records of a byte string, the declared fields of a descriptor, the
"extension-safe" range of field numbers, and the maximum nesting depth. -/
structure ScanModel (MD : Type) where
  records : Bytes → Except GoError (List FieldRecord)
  field : MD → Nat → Option FieldKind
  nonCritical : Nat → Bool
  maxDepth : Nat

/-- Modelled from the spec: the walk of the scanner over the field records of
one message (section 4.2). "For each field number, check membership in the
descriptor. Recurse into nested message-typed fields using their own
descriptors. STRICT: any field number not declared by the descriptor is a hard
failure, independent of wire-type validity. LENIENT: undeclared field numbers
are accepted only if they fall inside a schema-declared extension-safe numeric
range; any such occurrence sets an output flag but does not fail decode;
numbers outside both the declared set and the safe range still fail." `nested`
scans the value of a message-typed field; `flag` is the output flag so far. -/
def scanFields {MD : Type} (m : ScanModel MD) (resolver : FileResolver MD)
    (allowUnknownNonCriticals : Bool) (desc : MD)
    (nested : Bytes → MD → Bool × Option GoError) :
    List FieldRecord → Bool → Bool × Option GoError
  | [], flag => (flag, none)
  | r :: rs, flag =>
    match m.field desc r.number with
    | none =>
      if allowUnknownNonCriticals && m.nonCritical r.number then
        scanFields m resolver allowUnknownNonCriticals desc nested rs true
      else
        (flag, some (GoError.new "unknown field"))
    | some .scalar =>
      scanFields m resolver allowUnknownNonCriticals desc nested rs flag
    | some (.message typeName) =>
      match resolver.FindDescriptorByName typeName with
      | .error err => (flag, some err)
      | .ok (.other _) => (flag, some (GoError.new "not a message descriptor"))
      | .ok (.message md) =>
        match nested r.value md with
        | (child, some err) => (flag || child, some err)
        | (child, none) =>
          scanFields m resolver allowUnknownNonCriticals desc nested rs (flag || child)

/-- Modelled from the spec: the scanner at a given remaining nesting depth
(section 5: the walk "must enforce an explicit maximum nesting depth" and
"decode fails closed" beyond it). -/
def scanAtDepth {MD : Type} (m : ScanModel MD) (resolver : FileResolver MD)
    (allowUnknownNonCriticals : Bool) : Nat → Bytes → MD → Bool × Option GoError
  | 0, _, _ => (false, some (GoError.new "maximum nesting depth exceeded"))
  | depth + 1, bz, desc =>
    match m.records bz with
    | .error err => (false, some err)
    | .ok recs =>
      scanFields m resolver allowUnknownNonCriticals desc
        (scanAtDepth m resolver allowUnknownNonCriticals depth) recs false

/-- Modelled from the spec: the scanner `RejectUnknownFields` of
`x/tx/decode/unknown.go`, a file that is not part of the sources at hand
(section 4.2). `allowUnknownNonCriticals` is the tolerance mode: `true` is
LENIENT, `false` is STRICT. The results are the output flag and the error. -/
def RejectUnknownFields {MD : Type} (m : ScanModel MD) (bz : Bytes) (desc : MD)
    (allowUnknownNonCriticals : Bool) (resolver : FileResolver MD) : Bool × Option GoError :=
  scanAtDepth m resolver allowUnknownNonCriticals m.maxDepth bz desc

/-- Modelled from the spec: the scanner `RejectUnknownFieldsStrict` of
`x/tx/decode/unknown.go`, a file that is not part of the sources at hand: the
scanner in STRICT mode (section 4.2). -/
def RejectUnknownFieldsStrict {MD : Type} (m : ScanModel MD) (bz : Bytes) (desc : MD)
    (resolver : FileResolver MD) : Option GoError :=
  (RejectUnknownFields m bz desc false resolver).2

/-- The scan of a byte string meets a field number that the descriptor in
force does not declare, at the top level or in a nested message-typed field,
within the given depth. -/
inductive MeetsUndeclared {MD : Type} (m : ScanModel MD) (resolver : FileResolver MD) :
    Nat → Bytes → MD → Prop where
  | here (depth : Nat) (bz : Bytes) (desc : MD) (recs : List FieldRecord) (r : FieldRecord) :
      m.records bz = .ok recs → r ∈ recs → m.field desc r.number = none →
      MeetsUndeclared m resolver (depth + 1) bz desc
  | nested (depth : Nat) (bz : Bytes) (desc : MD) (recs : List FieldRecord) (r : FieldRecord)
      (typeName : String) (md : MD) :
      m.records bz = .ok recs → r ∈ recs →
      m.field desc r.number = some (.message typeName) →
      resolver.FindDescriptorByName typeName = .ok (.message md) →
      MeetsUndeclared m resolver depth r.value md →
      MeetsUndeclared m resolver (depth + 1) bz desc

/-! ## A second concrete world, with a wire format

A field record is written as its number, a wire type, the length of its value
and the value. The descriptors are `TxRaw` (fields 1, 2, 3), `TxBody` (field 1,
of type `Any`, and fields 2, 3), `Any` (fields 1, 2), `AuthInfo` (field 1 and
field 2, of type `Fee`), `Fee` (fields 1 to 4) and the message types `M`, `S`
and `R` (field 1, a signer). Field numbers from 128 on are the non-critical
ones. `E` names an enum; `S` has no signer rule; `R` has no signer rule and
cannot be resolved to a concrete type; any other name is unknown to the file
resolver and to the concrete resolver. Deserialization ignores the fields it
does not know. -/

/-- The bytes of a field record of the second world. -/
def wireEncode (number : UInt8) (value : Bytes) : Bytes :=
  [number, 2, value.length.toUInt8] ++ value

/-- The field records of a byte string of the second world, with fuel. -/
def wireRecordsAux : Nat → Bytes → Except GoError (List FieldRecord)
  | _, [] => .ok []
  | 0, _ :: _ => .error (GoError.new "truncated")
  | fuel + 1, number :: wireType :: len :: rest =>
    if len.toNat ≤ rest.length then
      match wireRecordsAux fuel (rest.drop len.toNat) with
      | .ok rs =>
        .ok ({ number := number.toNat, wireType := wireType.toNat,
               value := rest.take len.toNat } :: rs)
      | .error err => .error err
    else
      .error (GoError.new "truncated")
  | _ + 1, _ => .error (GoError.new "truncated")

/-- The field records of a byte string of the second world. -/
def wireRecords (bz : Bytes) : Except GoError (List FieldRecord) :=
  wireRecordsAux bz.length bz

/-- The values of the records with a given field number. -/
def fieldValues (number : Nat) (recs : List FieldRecord) : List Bytes :=
  (recs.filter fun r => r.number = number).map fun r => r.value

/-- The last value given to a field, or no bytes. -/
def lastValue (number : Nat) (recs : List FieldRecord) : Bytes :=
  (fieldValues number recs).getLastD []

/-- The descriptors of the second world. -/
def wireField (desc : String) (n : Nat) : Option FieldKind :=
  if desc = "TxRaw" then
    if n = 1 ∨ n = 2 ∨ n = 3 then some .scalar else none
  else if desc = "TxBody" then
    if n = 1 then some (.message "Any") else if n = 2 ∨ n = 3 then some .scalar else none
  else if desc = "Any" then
    if n = 1 ∨ n = 2 then some .scalar else none
  else if desc = "AuthInfo" then
    if n = 1 then some .scalar else if n = 2 then some (.message "Fee") else none
  else if desc = "Fee" then
    if n = 1 ∨ n = 2 ∨ n = 3 ∨ n = 4 then some .scalar else none
  else if desc = "M" ∨ desc = "S" ∨ desc = "R" then
    if n = 1 then some .scalar else none
  else none

/-- What the scanner reads in the second world. -/
def wireModel : ScanModel String :=
  { records := wireRecords,
    field := wireField,
    nonCritical := fun n => decide (128 ≤ n),
    maxDepth := 8 }

/-- The file resolver of the second world. -/
def wireFileResolver : FileResolver String :=
  { FindDescriptorByName := fun name =>
      if name = "TxRaw" ∨ name = "TxBody" ∨ name = "Any" ∨ name = "AuthInfo" ∨ name = "Fee"
          ∨ name = "M" ∨ name = "S" ∨ name = "R" then .ok (.message name)
      else if name = "E" then .ok (.other "E")
      else .error (GoError.new "not found") }

/-- A string from its bytes. -/
def bytesToString (bz : Bytes) : String :=
  String.mk (bz.map fun b => Char.ofNat b.toNat)

/-- The deserialization of the envelope in the second world. -/
def wireUnmarshalTxRaw (bz : Bytes) : Except GoError TxRaw :=
  match wireRecords bz with
  | .error err => .error err
  | .ok recs =>
    .ok { BodyBytes := lastValue 1 recs, AuthInfoBytes := lastValue 2 recs,
          Signatures := fieldValues 3 recs }

/-- The serialization of the envelope in the second world. -/
def wireMarshalTxRaw (raw : Option TxRaw) : Except GoError Bytes :=
  match raw with
  | none => .ok []
  | some r =>
    .ok ((if r.BodyBytes = [] then [] else wireEncode 1 r.BodyBytes) ++
         (if r.AuthInfoBytes = [] then [] else wireEncode 2 r.AuthInfoBytes) ++
         (r.Signatures.map (wireEncode 3)).flatten)

/-- The deserialization of a list of `Any` messages in the second world. -/
def wireParseAnys : List Bytes → Except GoError (List AnyMsg)
  | [] => .ok []
  | bz :: rest =>
    match wireRecords bz with
    | .error err => .error err
    | .ok recs =>
      match wireParseAnys rest with
      | .error err => .error err
      | .ok msgs =>
        .ok ({ TypeUrl := bytesToString (lastValue 1 recs), Value := lastValue 2 recs } :: msgs)

/-- The deserialization of the body in the second world. -/
def wireUnmarshalTxBody (bz : Bytes) : Except GoError TxBody :=
  match wireRecords bz with
  | .error err => .error err
  | .ok recs =>
    match wireParseAnys (fieldValues 1 recs) with
    | .error err => .error err
    | .ok msgs =>
      .ok { Messages := msgs, Memo := bytesToString (lastValue 2 recs), TimeoutHeight := 0,
            ExtensionOptions := [] }

/-- The deserialization of the auth info in the second world; the gas limit
is the first byte of field 2 of the fee. -/
def wireUnmarshalAuthInfo (bz : Bytes) : Except GoError AuthInfo :=
  match wireRecords bz with
  | .error err => .error err
  | .ok recs =>
    match fieldValues 2 recs with
    | [] => .ok { SignerInfos := [], Fee := none }
    | feeBytes :: _ =>
      match wireRecords feeBytes with
      | .error err => .error err
      | .ok feeRecs =>
        .ok { SignerInfos := [],
              Fee := some { GasLimit := ((lastValue 2 feeRecs).headD 0).toNat, Payer := "" } }

/-- The decoder of the second world. -/
def wireDecoder : Decoder String AnyMsg AnyMsg :=
  { signingCtx :=
      { FileResolver := wireFileResolver,
        GetSigners := fun m =>
          if m.TypeUrl = "M" then
            match wireRecords m.Value with
            | .error err => .error err
            | .ok recs => .ok (fieldValues 1 recs)
          else .error (GoError.new "no signer rule") },
    codec := { Unmarshal := fun bz m => .ok { m with Value := bz } },
    resolver :=
      { Resolve := fun typeURL =>
          if typeURL = "M" ∨ typeURL = "S" then .ok { TypeUrl := typeURL, Value := [] }
          else .error (GoError.new "unable to resolve type URL") } }

/-- The environment of the second world; the validator and the scanner are
the ones of the spec. -/
def wireEnv : Env String AnyMsg AnyMsg :=
  { ErrTxDecode := GoError.new "tx parse error",
    rejectNonADR027TxRaw := rejectNonADR027TxRaw wireUnmarshalTxRaw wireMarshalTxRaw,
    RejectUnknownFieldsStrict := RejectUnknownFieldsStrict wireModel,
    RejectUnknownFields := RejectUnknownFields wireModel,
    TxRawDescriptor := "TxRaw",
    TxBodyDescriptor := "TxBody",
    AuthInfoDescriptor := "AuthInfo",
    unmarshalTxRaw := wireUnmarshalTxRaw,
    unmarshalTxBody := wireUnmarshalTxBody,
    unmarshalAuthInfo := wireUnmarshalAuthInfo,
    marshalTxRaw := wireMarshalTxRaw,
    newDynamicMessage := fun md => { TypeUrl := md, Value := [] },
    anyUnmarshalTo := fun a m =>
      match wireRecords a.Value with
      | .error err => .error err
      | .ok _ => .ok { m with Value := a.Value },
    sha256Sum256 := toySum256 }

/-- The bytes of an `Any` message of the second world. -/
def wireAny (typeUrl : String) (payload : Bytes) : Bytes :=
  wireEncode 1 (typeUrl.data.map fun c => c.toNat.toUInt8) ++ wireEncode 2 payload

/-- The bytes of a transaction of the second world with a body, an auth info
and no signature. -/
def wireTx (body authInfo : Bytes) : Bytes :=
  wireEncode 1 body ++ wireEncode 2 authInfo

/-- An auth info of the second world: a fee with gas limit 50. -/
def wireAuth : Bytes := wireEncode 2 (wireEncode 2 [50])

/-- A message of type `M` of the second world, with the signer `0xA1`. -/
def wireMsgM : Bytes := wireAny "/M" (wireEncode 1 [0xA1])

/-- The second world with a validator that accepts every input. -/
def wireEnvLax : Env String AnyMsg AnyMsg :=
  { wireEnv with rejectNonADR027TxRaw := fun _ => none }

/-- A body of the second world: one message of type `M`. -/
def wireBody : Bytes := wireEncode 1 wireMsgM

/-- The deserialized body `wireBody`. -/
def wireBodyMsgs : TxBody :=
  { Messages := [{ TypeUrl := "/M", Value := wireEncode 1 [0xA1] }], Memo := "",
    TimeoutHeight := 0, ExtensionOptions := [] }

/-- The deserialized auth info `wireAuth`. -/
def wireAuthInfo : AuthInfo :=
  { SignerInfos := [], Fee := some { GasLimit := 50, Payer := "" } }

/-- A message of type `R` of the second world: its descriptor is found, the
concrete resolver does not know it, and it has no signer rule. -/
def wireMsgR : Bytes := wireAny "/R" (wireEncode 1 [0xA1])

/-- A message of type `S` of the second world: it has no signer rule. -/
def wireMsgS : Bytes := wireAny "/S" (wireEncode 1 [0xA1])

/-- A message of the second world whose type `X` is unknown to the file
resolver and to the concrete resolver. -/
def wireMsgX : Bytes := wireAny "/X" []

/-- The envelope of the transaction with the body `body` and the auth info
`wireAuth` of the second world. -/
def wireRawOf (body : Bytes) : TxRaw :=
  { BodyBytes := body, AuthInfoBytes := wireAuth, Signatures := [] }

/-- A body of the second world with the given entries. -/
def wireBodyOf (msgs : List AnyMsg) : TxBody :=
  { Messages := msgs, Memo := "", TimeoutHeight := 0, ExtensionOptions := [] }

/-- The loop variables after the body `wireBody` of the second world. -/
def wireVars : LoopVars AnyMsg AnyMsg :=
  { signers := some [[0xA1]],
    reflectMsgs := some [{ TypeUrl := "M", Value := wireEncode 1 [0xA1] }],
    msgs := some [{ TypeUrl := "M", Value := wireEncode 1 [0xA1] }],
    seenSigners := [[0xA1]] }

/-- The result of decoding the transaction `wireTx wireBody wireAuth` of the
second world. -/
def wireDtx : DecodedTx AnyMsg AnyMsg :=
  newDecodedTx (wireRawOf wireBody) false wireBodyMsgs wireAuthInfo wireVars

/-- The result of decoding the same transaction with the two signatures `[1]`
and `[2]`. -/
def wireDtxSigned : DecodedTx AnyMsg AnyMsg :=
  newDecodedTx { BodyBytes := wireBody, AuthInfoBytes := wireAuth, Signatures := [[1], [2]] }
    false wireBodyMsgs wireAuthInfo wireVars

/-! ## The other accessors of `DecodedTx` -/

/-- The method `DecodedTx.GetMessages`; the receiver may be nil. -/
def DecodedTx.GetMessages {RM GM : Type} (dtx : Option (DecodedTx RM GM)) :
    Slice GM × Option GoError :=
  match dtx with
  | none => (none, some (GoError.new "messages not available or are nil"))
  | some dtx =>
  match dtx.Messages with
  | none => (none, some (GoError.new "messages not available or are nil"))
  | some msgs => (some msgs, none)

/-- The method `DecodedTx.GetSenders`; the receiver may be nil. -/
def DecodedTx.GetSenders {RM GM : Type} (dtx : Option (DecodedTx RM GM)) :
    Slice (List UInt8) × Option GoError :=
  match dtx with
  | none => (none, some (GoError.new "senders not available or are nil"))
  | some dtx =>
  match dtx.Signers with
  | none => (none, some (GoError.new "senders not available or are nil"))
  | some signers => (some signers, none)

/-- The second world with deserializations that refuse a string field that
is not UTF-8, which the scanner does not look at: the memo of the body (field
2) and the payer of the fee (field 3 of field 2 of the auth info) must not
hold the byte `0xFF`. -/
def wireEnvUtf8 : Env String AnyMsg AnyMsg :=
  { wireEnv with
    unmarshalTxBody := fun bz =>
      match wireRecords bz with
      | .error err => .error err
      | .ok recs =>
        if 0xFF ∈ lastValue 2 recs then
          .error (GoError.new "proto: field TxBody.memo contains invalid UTF-8")
        else wireUnmarshalTxBody bz,
    unmarshalAuthInfo := fun bz =>
      match wireRecords bz with
      | .error err => .error err
      | .ok recs =>
        match wireRecords (lastValue 2 recs) with
        | .error err => .error err
        | .ok feeRecs =>
          if 0xFF ∈ lastValue 3 feeRecs then
            .error (GoError.new "proto: field Fee.payer contains invalid UTF-8")
          else wireUnmarshalAuthInfo bz }

/-! ## Configurations that give the same answers -/

/-- The two configurations give the same answers to the questions that the
loop of `Decode` puts to its collaborators for the entry `anyMsg`: the
descriptor lookup; if it finds a message descriptor, the dynamic decoding; if
that succeeds, the resolution; if that succeeds, the codec; and if that
succeeds, the signer extraction. -/
def SameAnswersMsg {MD RM GM : Type} (env1 env2 : Env MD RM GM) (d1 d2 : Decoder MD RM GM)
    (anyMsg : AnyMsg) : Prop :=
  d1.signingCtx.FileResolver.FindDescriptorByName (TrimPrefix anyMsg.TypeUrl) =
    d2.signingCtx.FileResolver.FindDescriptorByName (TrimPrefix anyMsg.TypeUrl) ∧
  ∀ msgDesc : MD,
    d1.signingCtx.FileResolver.FindDescriptorByName (TrimPrefix anyMsg.TypeUrl) =
      .ok (.message msgDesc) →
    env1.anyUnmarshalTo anyMsg (env1.newDynamicMessage msgDesc) =
      env2.anyUnmarshalTo anyMsg (env2.newDynamicMessage msgDesc) ∧
    ∀ dynamicMsg : RM,
      env1.anyUnmarshalTo anyMsg (env1.newDynamicMessage msgDesc) = .ok dynamicMsg →
      d1.resolver.Resolve (TrimPrefix anyMsg.TypeUrl) =
        d2.resolver.Resolve (TrimPrefix anyMsg.TypeUrl) ∧
      ∀ msg0 : GM, d1.resolver.Resolve (TrimPrefix anyMsg.TypeUrl) = .ok msg0 →
        d1.codec.Unmarshal anyMsg.Value msg0 = d2.codec.Unmarshal anyMsg.Value msg0 ∧
        ∀ msg : GM, d1.codec.Unmarshal anyMsg.Value msg0 = .ok msg →
          d1.signingCtx.GetSigners dynamicMsg = d2.signingCtx.GetSigners dynamicMsg

/-- The two configurations give the same answers to the questions that
`Decode` puts to its collaborators on the bytes `txBytes`, each question being
put only when the stages before it have passed; `ErrTxDecode` is a variable of
the package. This is what a fixed configuration means for collaborators that
are objects with a state. -/
def SameAnswers {MD RM GM : Type} (env1 env2 : Env MD RM GM) (d1 d2 : Decoder MD RM GM)
    (txBytes : Bytes) : Prop :=
  env1.ErrTxDecode = env2.ErrTxDecode ∧
  env1.rejectNonADR027TxRaw txBytes = env2.rejectNonADR027TxRaw txBytes ∧
  (env1.rejectNonADR027TxRaw txBytes = none →
    env1.RejectUnknownFieldsStrict txBytes env1.TxRawDescriptor d1.signingCtx.FileResolver =
      env2.RejectUnknownFieldsStrict txBytes env2.TxRawDescriptor d2.signingCtx.FileResolver ∧
    (env1.RejectUnknownFieldsStrict txBytes env1.TxRawDescriptor d1.signingCtx.FileResolver
        = none →
      env1.unmarshalTxRaw txBytes = env2.unmarshalTxRaw txBytes ∧
      ∀ raw : TxRaw, env1.unmarshalTxRaw txBytes = .ok raw →
        env1.RejectUnknownFields raw.BodyBytes env1.TxBodyDescriptor true
            d1.signingCtx.FileResolver =
          env2.RejectUnknownFields raw.BodyBytes env2.TxBodyDescriptor true
            d2.signingCtx.FileResolver ∧
        ∀ flag : Bool,
          env1.RejectUnknownFields raw.BodyBytes env1.TxBodyDescriptor true
            d1.signingCtx.FileResolver = (flag, none) →
          env1.unmarshalTxBody raw.BodyBytes = env2.unmarshalTxBody raw.BodyBytes ∧
          ∀ body : TxBody, env1.unmarshalTxBody raw.BodyBytes = .ok body →
            env1.RejectUnknownFieldsStrict raw.AuthInfoBytes env1.AuthInfoDescriptor
                d1.signingCtx.FileResolver =
              env2.RejectUnknownFieldsStrict raw.AuthInfoBytes env2.AuthInfoDescriptor
                d2.signingCtx.FileResolver ∧
            (env1.RejectUnknownFieldsStrict raw.AuthInfoBytes env1.AuthInfoDescriptor
                d1.signingCtx.FileResolver = none →
              env1.unmarshalAuthInfo raw.AuthInfoBytes =
                env2.unmarshalAuthInfo raw.AuthInfoBytes ∧
              ∀ authInfo : AuthInfo, env1.unmarshalAuthInfo raw.AuthInfoBytes = .ok authInfo →
                ∀ anyMsg ∈ body.Messages, SameAnswersMsg env1 env2 d1 d2 anyMsg)))

/-- The result of decoding the transaction of the second world that has an
auth info and no body. -/
def wireDtxEmpty : DecodedTx AnyMsg AnyMsg :=
  newDecodedTx { BodyBytes := [], AuthInfoBytes := wireAuth, Signatures := [] } false
    (wireBodyOf []) wireAuthInfo
    { signers := none, reflectMsgs := none, msgs := none, seenSigners := [] }

/-- The result of decoding the transaction of the second world whose only
message, of type `M`, has an empty payload and so no signer. -/
def wireDtxNoSigner : DecodedTx AnyMsg AnyMsg :=
  newDecodedTx (wireRawOf (wireEncode 1 (wireAny "/M" []))) false
    (wireBodyOf [{ TypeUrl := "/M", Value := [] }]) wireAuthInfo
    { signers := none,
      reflectMsgs := some [{ TypeUrl := "M", Value := [] }],
      msgs := some [{ TypeUrl := "M", Value := [] }],
      seenSigners := [] }

end TxDecode

/-! # The upgrade keeper: `x/upgrade/keeper/abci.go`

`PreBlocker` is embedded over the results of the keeper methods that it calls
(they are defined in files that are not among the sources); the calls that
change the state, write to the disk or log are recorded in program order. -/

namespace UpgradeKeeper

open TxDecode (GoError)

/-- The type `types.Plan`: the fields that `PreBlocker` reads. -/
structure Plan where
  Name : String
  Height : Int
  Info : String
  deriving DecidableEq, Repr

/-- A call of `PreBlocker` that changes the state of the keeper, writes to the
disk or logs. -/
inductive Effect where
  | SetDowngradeVerified (v : Bool)
  | logInfo (msg : String)
  | logError (msg : String)
  | ClearUpgradePlan
  | DumpUpgradeInfoToDisk (height : Int) (plan : Plan)
  | ApplyUpgrade (plan : Plan)
  deriving DecidableEq, Repr

/-- What a call of `PreBlocker` did: it returned an `error`, nil or not, or it
panicked. -/
inductive Result where
  | returned (err : Option GoError)
  | panicked (reason : String)
  deriving DecidableEq

/-- The effects of a call, in program order, and its result. -/
structure Run where
  effects : List Effect
  result : Result

/-- The keeper and its context, as `PreBlocker` sees them: the height of the
block and the results of the methods that `PreBlocker` calls. `QueryParams` is
the consensus query: an error, or the response, whose `Params` may be nil and
whose `Params.Version` may be nil. -/
structure Keeper where
  blockHeight : Int
  GetUpgradePlan : Plan × Option GoError
  ErrNoUpgradePlanFound : GoError
  DowngradeVerified : Bool
  ShouldExecute : Plan → Int → Bool
  DueAt : Plan → String
  IsSkipHeight : Int → Bool
  GetLastCompletedUpgrade : String × Int × Option GoError
  HasHandler : String → Bool
  QueryParams : Except GoError (Option (Option Nat))
  ClearUpgradePlan : Option GoError
  DumpUpgradeInfoToDisk : Int → Plan → Option GoError
  ApplyUpgrade : Plan → Option GoError

/-- The function `BuildUpgradeNeededMsg`; `DueAt` is the method `plan.DueAt`. -/
def BuildUpgradeNeededMsg (DueAt : Plan → String) (plan : Plan) : String :=
  "UPGRADE \"" ++ plan.Name ++ "\" NEEDED at " ++ DueAt plan ++ ": " ++ plan.Info

/-- Lines 36 to 63 of `PreBlocker`: the check that the binary is not a
downgrade. The second result is the result of `PreBlocker` when the check
returns from it, and `none` when `PreBlocker` goes on. -/
def verifyDowngrade (k : Keeper) (found : Bool) (plan : Plan) : List Effect × Option Result :=
  if !k.DowngradeVerified then
    if !found || !k.ShouldExecute plan k.blockHeight ||
        (k.ShouldExecute plan k.blockHeight && k.IsSkipHeight k.blockHeight) then
      match k.GetLastCompletedUpgrade with
      | (_, _, some err) => ([Effect.SetDowngradeVerified true], some (.returned (some err)))
      | (lastAppliedPlan, _, none) =>
        if lastAppliedPlan != "" && !k.HasHandler lastAppliedPlan then
          match k.QueryParams with
          | .error _ =>
            ([Effect.SetDowngradeVerified true],
              some (.returned (some (GoError.new "failed to query consensus params"))))
          | .ok none =>
            ([Effect.SetDowngradeVerified true],
              some (.panicked "invalid memory address or nil pointer dereference"))
          | .ok (some version) =>
            let appVersion : Nat :=
              match version with
              | some app => app
              | none => 0
            ([Effect.SetDowngradeVerified true],
              some (.returned (some (GoError.new
                ("wrong app version " ++ toString appVersion ++
                  ", upgrade handler is missing for " ++ lastAppliedPlan ++ " upgrade plan")))))
        else ([Effect.SetDowngradeVerified true], none)
    else ([Effect.SetDowngradeVerified true], none)
  else ([], none)

/-- The method `Keeper.PreBlocker`. -/
def PreBlocker (k : Keeper) : Run :=
  let blockHeight := k.blockHeight
  let plan := k.GetUpgradePlan.1
  let err := k.GetUpgradePlan.2
  if (match err with
      | some e => !(e.Is k.ErrNoUpgradePlanFound)
      | none => false) then
    ⟨[], .returned err⟩
  else
  let found := err.isNone
  match verifyDowngrade k found plan with
  | (effects, some result) => ⟨effects, result⟩
  | (effects, none) =>
  if !found then
    ⟨effects, .returned none⟩
  else
  if k.ShouldExecute plan blockHeight then
    if k.IsSkipHeight blockHeight then
      let skipUpgradeMsg :=
        "UPGRADE \"" ++ plan.Name ++ "\" SKIPPED at " ++ toString plan.Height ++ ": " ++ plan.Info
      match k.ClearUpgradePlan with
      | some err =>
        ⟨effects ++ [Effect.logInfo skipUpgradeMsg, Effect.ClearUpgradePlan],
          .returned (some err)⟩
      | none =>
        ⟨effects ++ [Effect.logInfo skipUpgradeMsg, Effect.ClearUpgradePlan], .returned none⟩
    else if !k.HasHandler plan.Name then
      match k.DumpUpgradeInfoToDisk blockHeight plan with
      | some err =>
        ⟨effects ++ [Effect.DumpUpgradeInfoToDisk blockHeight plan],
          .returned (some (GoError.errorf
            ("unable to write upgrade info to filesystem: " ++ err.Error) err))⟩
      | none =>
        let upgradeMsg := BuildUpgradeNeededMsg k.DueAt plan
        ⟨effects ++ [Effect.DumpUpgradeInfoToDisk blockHeight plan, Effect.logError upgradeMsg],
          .returned (some (GoError.new upgradeMsg))⟩
    else
      match k.ApplyUpgrade plan with
      | some err =>
        ⟨effects ++ [Effect.logInfo ("applying upgrade \"" ++ plan.Name ++ "\" at " ++
            k.DueAt plan), Effect.ApplyUpgrade plan], .returned (some err)⟩
      | none =>
        ⟨effects ++ [Effect.logInfo ("applying upgrade \"" ++ plan.Name ++ "\" at " ++
            k.DueAt plan), Effect.ApplyUpgrade plan], .returned none⟩
  else
    if k.HasHandler plan.Name then
      let downgradeMsg :=
        "BINARY UPDATED BEFORE TRIGGER! UPGRADE \"" ++ plan.Name ++
          "\" - in binary but not executed on chain. Downgrade your binary"
      ⟨effects ++ [Effect.logError downgradeMsg], .returned (some (GoError.new downgradeMsg))⟩
    else
      ⟨effects, .returned none⟩

/-- The downgrade check lets `PreBlocker` go on: the keeper is verified
already, or the last completed upgrade is read without error and is none or
has a handler. -/
def downgradeCheckPasses (k : Keeper) : Bool :=
  k.DowngradeVerified ||
    (k.GetLastCompletedUpgrade.2.2.isNone &&
      (k.GetLastCompletedUpgrade.1 == "" || k.HasHandler k.GetLastCompletedUpgrade.1))

/-- A plan used to evaluate `PreBlocker`: the upgrade `v2` at the height 100. -/
def toyPlan : Plan := { Name := "v2", Height := 100, Info := "notes" }

/-- A keeper used to evaluate `PreBlocker`: the plan `toyPlan` is scheduled, a
plan is due from its height on, the heights 50 and 100 are to be skipped, the
keeper is verified and no method fails. -/
def toyKeeper (height : Int) (hasHandler : Bool) : Keeper :=
  { blockHeight := height,
    GetUpgradePlan := (toyPlan, none),
    ErrNoUpgradePlanFound := GoError.new "upgrade plan not found",
    DowngradeVerified := true,
    ShouldExecute := fun p h => decide (0 < p.Height ∧ p.Height ≤ h),
    DueAt := fun p => "height: " ++ toString p.Height,
    IsSkipHeight := fun h => decide (h = 50 ∨ h = 100),
    GetLastCompletedUpgrade := ("", 0, none),
    HasHandler := fun name => hasHandler && name == "v2",
    QueryParams := .ok (some none),
    ClearUpgradePlan := none,
    DumpUpgradeInfoToDisk := fun _ _ => none,
    ApplyUpgrade := fun _ => none }

/-- The keeper `toyKeeper` on a disk that cannot be written. -/
def toyKeeperDiskFull (height : Int) : Keeper :=
  { toyKeeper height false with
    DumpUpgradeInfoToDisk := fun _ _ => some (GoError.new "no space left on device") }

/-- The keeper `toyKeeper` without a scheduled plan. -/
def toyKeeperNoPlan (height : Int) : Keeper :=
  { toyKeeper height false with
    GetUpgradePlan := ({ Name := "", Height := 0, Info := "" },
      some (GoError.new "upgrade plan not found")) }

/-- The keeper `toyKeeper` at the first block after a start of the binary: the
downgrade check has not been done, and the last completed upgrade is `v1`, for
which the binary has a handler. -/
def toyKeeperFresh (height : Int) (hasHandler : Bool) : Keeper :=
  { toyKeeper height hasHandler with
    DowngradeVerified := false,
    GetLastCompletedUpgrade := ("v1", 10, none),
    HasHandler := fun name => name == "v1" || (hasHandler && name == "v2") }

/-- The keeper `toyKeeperFresh` with a binary that has no handler for the last
completed upgrade `v1`. -/
def toyKeeperDowngraded (height : Int) : Keeper :=
  { toyKeeperFresh height false with HasHandler := fun _ => false }

end UpgradeKeeper

/-! # The transient store: `store/transient/store.go` -/

namespace TransientStore

open TxDecode (Bytes)

/-- The type `types.CommitID`. -/
structure CommitID where
  Version : Int
  Hash : Bytes
  deriving DecidableEq, Repr

/-- The zero value of `types.CommitID`. -/
def CommitID.zero : CommitID := { Version := 0, Hash := [] }

/-- The database library and its adapter, which are not among the sources:
`dbm.NewMemDB()` and the methods `Get`, `Has`, `Set` and `Delete` that `Store`
gets from the embedded `dbadapter.Store`. A `nil` result of `Get` is `none`. -/
structure Database (DB : Type) where
  NewMemDB : DB
  Get : DB → Bytes → Option Bytes
  Has : DB → Bytes → Bool
  Set : DB → Bytes → Bytes → DB
  Delete : DB → Bytes → DB

/-- The struct `Store`: a `dbadapter.Store`, which holds a database. -/
structure Store (DB : Type) where
  DB : DB

/-- The function `NewStore`. -/
def NewStore {DB : Type} (db : Database DB) : Store DB :=
  { DB := db.NewMemDB }

/-- The method `Store.Commit`: the store after the call and the `CommitID`
returned, which is the named result `id`, never assigned. -/
def Store.Commit {DB : Type} (db : Database DB) (_ts : Store DB) : Store DB × CommitID :=
  ({ DB := db.NewMemDB }, CommitID.zero)

/-- The method `Store.LastCommitID`. -/
def Store.LastCommitID {DB : Type} (_ts : Store DB) : CommitID :=
  CommitID.zero

/-- The promoted method `Get` of the store. -/
def Store.Get {DB : Type} (db : Database DB) (ts : Store DB) (key : Bytes) : Option Bytes :=
  db.Get ts.DB key

/-- The promoted method `Has` of the store. -/
def Store.Has {DB : Type} (db : Database DB) (ts : Store DB) (key : Bytes) : Bool :=
  db.Has ts.DB key

/-- A write to the store. -/
inductive Write where
  | set (key value : Bytes)
  | delete (key : Bytes)

/-- The store after a sequence of writes. -/
def applyWrites {DB : Type} (db : Database DB) : List Write → Store DB → Store DB
  | [], ts => ts
  | .set key value :: ws, ts => applyWrites db ws { DB := db.Set ts.DB key value }
  | .delete key :: ws, ts => applyWrites db ws { DB := db.Delete ts.DB key }

/-- A database used to evaluate the store: the list of its pairs, the last
written first. -/
def toyDatabase : Database (List (Bytes × Bytes)) :=
  { NewMemDB := [],
    Get := fun l key => (l.find? fun p => p.1 == key).map Prod.snd,
    Has := fun l key => l.any fun p => p.1 == key,
    Set := fun l key value => (key, value) :: l.filter fun p => p.1 != key,
    Delete := fun l key => l.filter fun p => p.1 != key }

end TransientStore

/-! # The simulation configuration: `types/simulation/config.go` -/

namespace Simulation

open TxDecode (Bytes)

/-- The struct `Config`. `TB` is the interface `testing.TB`; `FuzzSeed` and `T`
may be nil. The field `LeanLog` is the field `Lean` of the source, the lean
output of the simulation log. -/
structure Config (TB : Type) where
  GenesisFile : String
  ParamsFile : String
  ExportParamsPath : String
  ExportParamsHeight : Int
  ExportStatePath : String
  ExportStatsPath : String
  Seed : Int
  InitialBlockHeight : Int
  GenesisTime : Int
  NumBlocks : Int
  BlockSize : Int
  ChainID : String
  LeanLog : Bool
  Commit : Bool
  DBBackend : String
  BlockMaxGas : Int
  FuzzSeed : Option Bytes
  T : Option TB

/-- The method `Config.Clone`: the fields that the composite literal does not
name have their zero value. -/
def Config.Clone {TB : Type} (c : Config TB) : Config TB :=
  { GenesisFile := c.GenesisFile,
    ParamsFile := c.ParamsFile,
    ExportParamsPath := c.ExportParamsPath,
    ExportParamsHeight := c.ExportParamsHeight,
    ExportStatePath := c.ExportStatePath,
    ExportStatsPath := c.ExportStatsPath,
    Seed := c.Seed,
    InitialBlockHeight := c.InitialBlockHeight,
    GenesisTime := c.GenesisTime,
    NumBlocks := c.NumBlocks,
    BlockSize := c.BlockSize,
    ChainID := c.ChainID,
    LeanLog := c.LeanLog,
    Commit := c.Commit,
    DBBackend := c.DBBackend,
    BlockMaxGas := c.BlockMaxGas,
    FuzzSeed := none,
    T := none }

/-- A configuration used to evaluate `Clone`, with a fuzz seed and a test
handle. -/
def toyConfig : Config Nat :=
  { GenesisFile := "genesis.json", ParamsFile := "", ExportParamsPath := "",
    ExportParamsHeight := 0, ExportStatePath := "", ExportStatsPath := "", Seed := 42,
    InitialBlockHeight := 1, GenesisTime := 0, NumBlocks := 500, BlockSize := 200,
    ChainID := "simulation-app", LeanLog := false, Commit := true, DBBackend := "memdb",
    BlockMaxGas := 0, FuzzSeed := some [1, 2, 3], T := some 7 }

end Simulation

namespace TxDecode

/-! ## Lemmas -/

theorem mem_dedupFirst (l : List Bytes) (y : Bytes) : y ∈ dedupFirst l ↔ y ∈ l := by
  induction l with
  | nil => simp [dedupFirst]
  | cons x xs ih =>
    simp only [dedupFirst, List.mem_cons, List.mem_filter, ih, decide_eq_true_eq]
    by_cases h : y = x <;> simp [h]

theorem nodup_dedupFirst (l : List Bytes) : (dedupFirst l).Nodup := by
  induction l with
  | nil => simp [dedupFirst]
  | cons x xs ih =>
    simp only [dedupFirst, List.nodup_cons, List.mem_filter, decide_eq_true_eq]
    exact ⟨fun h => h.2 rfl, ih.filter _⟩

theorem dedupFirst_filter (p : Bytes → Bool) (l : List Bytes) :
    dedupFirst (l.filter p) = (dedupFirst l).filter p := by
  induction l with
  | nil => simp [dedupFirst]
  | cons x xs ih =>
    by_cases hp : p x = true
    · simp only [List.filter_cons, hp, if_true, dedupFirst, ih, List.filter_filter]
      congr 1
      apply List.filter_congr
      intro y _
      exact Bool.and_comm _ _
    · simp only [List.filter_cons, hp, dedupFirst, ih, List.filter_filter]
      simp only [Bool.false_eq_true, if_false]
      rw [ih]
      apply List.filter_congr
      intro y _
      by_cases hy : y = x
      · subst hy; simp [hp]
      · simp [hy]

/-- The inner loop appends, in order, the first occurrences of the signers
that are not yet in the list. -/
theorem appendSigners_eq (ss : List Bytes) (signers : Slice Bytes) (seen : List Bytes)
    (hseen : ∀ s, s ∈ seen ↔ s ∈ Slice.toList signers) :
    Slice.toList (appendSigners ss (signers, seen)).1 =
        Slice.toList signers ++ dedupFirst (ss.filter fun s => decide (s ∉ Slice.toList signers))
      ∧ (∀ s, s ∈ (appendSigners ss (signers, seen)).2 ↔
          s ∈ Slice.toList (appendSigners ss (signers, seen)).1) := by
  induction ss generalizing signers seen with
  | nil => simp [appendSigners, dedupFirst, hseen]
  | cons s ss ih =>
    by_cases hs : s ∈ seen
    · have hs1 : s ∈ Slice.toList signers := (hseen s).1 hs
      simp only [appendSigners, hs, if_true]
      have := ih signers seen hseen
      simp only [List.filter_cons, hs1, not_true_eq_false, decide_False, Bool.false_eq_true, if_false]
      exact this
    · have hs1 : s ∉ Slice.toList signers := fun h => hs ((hseen s).2 h)
      simp only [appendSigners, hs, if_false]
      have hseen1 : ∀ t, t ∈ s :: seen ↔ t ∈ Slice.toList (goAppend signers s) := by
        intro t
        simp [goAppend, Slice.toList, hseen t]
        tauto
      have := ih (goAppend signers s) (s :: seen) hseen1
      refine ⟨?_, this.2⟩
      rw [this.1]
      simp only [List.filter_cons, hs1, not_false_eq_true, decide_True, if_true, dedupFirst]
      simp only [goAppend, Slice.toList, List.append_assoc, List.singleton_append]
      congr 2
      rw [← dedupFirst_filter, List.filter_filter]
      congr 1
      apply List.filter_congr
      intro y _
      simp only [List.mem_append, List.mem_singleton, not_or, Bool.decide_and]
      exact Bool.and_comm _ _


section Lemmas

variable {MD RM GM : Type}

theorem decodeMsg_next (env : Env MD RM GM) (d : Decoder MD RM GM)
    (vars vars1 : LoopVars RM GM) (anyMsg : AnyMsg)
    (h : (decodeMsg env d d.signingCtx.FileResolver vars anyMsg).result = .next vars1) :
    ∃ dynamicMsg msg ss,
      dynamicMsgOf env d anyMsg = some dynamicMsg ∧
      concreteMsgOf d anyMsg = some msg ∧
      signersOfMsg env d anyMsg = some ss ∧
      vars1 = { signers := (appendSigners ss (vars.signers, vars.seenSigners)).1,
                reflectMsgs := goAppend vars.reflectMsgs dynamicMsg,
                msgs := goAppend vars.msgs msg,
                seenSigners := (appendSigners ss (vars.signers, vars.seenSigners)).2 } := by
  unfold decodeMsg at h
  simp only at h
  split at h
  · simp at h
  · simp at h
  · rename_i msgDesc hfind
    split at h
    · simp at h
    · rename_i dynamicMsg hdyn
      split at h
      · simp at h
      · rename_i msg0 hres
        split at h
        · simp at h
        · rename_i msg hmsg
          split at h
          · simp at h
          · rename_i ss hss
            refine ⟨dynamicMsg, msg, ss, ?_, ?_, ?_, ?_⟩
            · simp [dynamicMsgOf, hfind, hdyn]
            · simp [concreteMsgOf, hres, hmsg]
            · simp [signersOfMsg, dynamicMsgOf, hfind, hdyn, hss]
            · simp only [Step.next.injEq] at h
              exact h.symm

theorem decodeMsg_ret (env : Env MD RM GM) (d : Decoder MD RM GM)
    (fileResolver : FileResolver MD) (vars : LoopVars RM GM) (anyMsg : AnyMsg)
    (val : Option (DecodedTx RM GM)) (err : Option GoError)
    (h : (decodeMsg env d fileResolver vars anyMsg).result = .ret val err) :
    val = none ∧ err ≠ none := by
  unfold decodeMsg at h
  simp only at h
  repeat' split at h
  all_goals simp at h
  all_goals simp [← h.1, ← h.2]


theorem appendSigners_append (a b : List Bytes) (acc : Slice Bytes × List Bytes) :
    appendSigners (a ++ b) acc = appendSigners b (appendSigners a acc) := by
  induction a generalizing acc with
  | nil => simp [appendSigners]
  | cons s a ih =>
    obtain ⟨signers, seen⟩ := acc
    by_cases hs : s ∈ seen
    · simp [appendSigners, hs, ih]
    · simp [appendSigners, hs, ih]

theorem goAppendAll_toList {α : Type} (l : List α) (s : Slice α) :
    Slice.toList (goAppendAll s l) = Slice.toList s ++ l := by
  induction l generalizing s with
  | nil => simp [goAppendAll]
  | cons x l ih =>
    have := ih (goAppend s x)
    simp only [goAppendAll, List.foldl_cons] at this ⊢
    rw [this]
    simp [goAppend, Slice.toList]

theorem decodeMsgs_ret (env : Env MD RM GM) (d : Decoder MD RM GM)
    (fileResolver : FileResolver MD) (anyMsgs : List AnyMsg) (vars : LoopVars RM GM)
    (val : Option (DecodedTx RM GM)) (err : Option GoError)
    (h : (decodeMsgs env d fileResolver anyMsgs vars).result = .ret val err) :
    val = none ∧ err ≠ none := by
  induction anyMsgs generalizing vars with
  | nil => simp [decodeMsgs] at h
  | cons anyMsg rest ih =>
    unfold decodeMsgs at h
    simp only at h
    split at h
    · rename_i vars1 hstep
      exact ih vars1 h
    · rename_i val1 err1 hstep
      simp only [Step.ret.injEq] at h
      have := decodeMsg_ret env d fileResolver vars anyMsg val1 err1 hstep
      rw [← h.1, ← h.2]
      exact this
    · simp at h

theorem decodeMsgs_next (env : Env MD RM GM) (d : Decoder MD RM GM)
    (anyMsgs : List AnyMsg) (vars vars1 : LoopVars RM GM)
    (h : (decodeMsgs env d d.signingCtx.FileResolver anyMsgs vars).result = .next vars1) :
    ∃ (dyns : List RM) (gms : List GM) (sss : List (List Bytes)),
      anyMsgs.map (dynamicMsgOf env d) = dyns.map some ∧
      anyMsgs.map (concreteMsgOf d) = gms.map some ∧
      anyMsgs.map (signersOfMsg env d) = sss.map some ∧
      vars1.reflectMsgs = goAppendAll vars.reflectMsgs dyns ∧
      vars1.msgs = goAppendAll vars.msgs gms ∧
      (vars1.signers, vars1.seenSigners) =
        appendSigners sss.flatten (vars.signers, vars.seenSigners) := by
  induction anyMsgs generalizing vars with
  | nil =>
    simp only [decodeMsgs, Step.next.injEq] at h
    subst h
    exact ⟨[], [], [], rfl, rfl, rfl, rfl, rfl, rfl⟩
  | cons anyMsg rest ih =>
    unfold decodeMsgs at h
    simp only at h
    split at h
    · rename_i vars2 hstep
      obtain ⟨dyn, msg, ss, hdyn, hmsg, hss, hvars2⟩ :=
        decodeMsg_next env d vars vars2 anyMsg hstep
      obtain ⟨dyns, gms, sss, h1, h2, h3, h4, h5, h6⟩ := ih vars2 h
      refine ⟨dyn :: dyns, msg :: gms, ss :: sss, ?_, ?_, ?_, ?_, ?_, ?_⟩
      · simp [hdyn, h1]
      · simp [hmsg, h2]
      · simp [hss, h3]
      · rw [h4, hvars2]; rfl
      · rw [h5, hvars2]; rfl
      · rw [h6, hvars2]
        simp only [List.flatten_cons, appendSigners_append]
    · simp at h
    · simp at h

/-- The stages that a successful `Decode` went through. -/
theorem Decode_returned_some (env : Env MD RM GM) (d : Decoder MD RM GM) (txBytes : Bytes)
    (dtx : DecodedTx RM GM) (err : Option GoError)
    (h : (Decode env d txBytes).result = .returned (some dtx) err) :
    ∃ raw flag body authInfo vars,
      env.rejectNonADR027TxRaw txBytes = none ∧
      env.RejectUnknownFieldsStrict txBytes env.TxRawDescriptor d.signingCtx.FileResolver = none ∧
      env.unmarshalTxRaw txBytes = .ok raw ∧
      env.RejectUnknownFields raw.BodyBytes env.TxBodyDescriptor true d.signingCtx.FileResolver
        = (flag, none) ∧
      env.unmarshalTxBody raw.BodyBytes = .ok body ∧
      env.RejectUnknownFieldsStrict raw.AuthInfoBytes env.AuthInfoDescriptor
        d.signingCtx.FileResolver = none ∧
      env.unmarshalAuthInfo raw.AuthInfoBytes = .ok authInfo ∧
      (decodeMsgs env d d.signingCtx.FileResolver body.Messages
        { signers := none, reflectMsgs := none, msgs := none, seenSigners := [] }).result
        = .next vars ∧
      err = none ∧
      dtx = { Messages := vars.msgs,
              ReflectMessages := vars.reflectMsgs,
              Tx := some { Body := some body, AuthInfo := some authInfo,
                           Signatures := raw.Signatures },
              TxRaw := some raw,
              TxBodyHasUnknownNonCriticals := flag,
              Signers := vars.signers,
              cachedHash := Hash32.zero,
              cachedBytes := [],
              cachedHashed := false } := by
  unfold Decode at h
  simp only at h
  split at h
  · simp at h
  · rename_i h1
    split at h
    · simp at h
    · rename_i h2
      split at h
      · simp at h
      · rename_i raw h3
        split at h
        · simp at h
        · rename_i flag h4
          split at h
          · simp at h
          · rename_i body h5
            split at h
            · simp at h
            · rename_i h6
              split at h
              · simp at h
              · rename_i authInfo h7
                split at h
                · rename_i val err1 hloop
                  have := decodeMsgs_ret env d d.signingCtx.FileResolver body.Messages _ val err1
                    hloop
                  simp only [Outcome.returned.injEq] at h
                  rw [h.1] at this
                  simp at this
                · simp at h
                · rename_i vars hloop
                  simp only [Outcome.returned.injEq, Option.some.injEq] at h
                  exact ⟨raw, flag, body, authInfo, vars, h1, h2, h3, h4, h5, h6, h7,
                    hloop, h.2.symm, h.1.symm⟩

/-- The signer list of a successful `Decode`, in terms of the signer lists of
the body messages. -/
theorem Decode_signers (env : Env MD RM GM) (d : Decoder MD RM GM) (txBytes : Bytes)
    (dtx : DecodedTx RM GM) (err : Option GoError)
    (h : (Decode env d txBytes).result = .returned (some dtx) err) :
    ∃ (raw : TxRaw) (body : TxBody) (sss : List (List Bytes)),
      env.unmarshalTxRaw txBytes = .ok raw ∧
      env.unmarshalTxBody raw.BodyBytes = .ok body ∧
      body.Messages.map (signersOfMsg env d) = sss.map some ∧
      Slice.toList dtx.Signers = dedupFirst sss.flatten := by
  obtain ⟨raw, flag, body, authInfo, vars, -, -, h3, -, h5, -, -, hloop, -, hdtx⟩ :=
    Decode_returned_some env d txBytes dtx err h
  obtain ⟨dyns, gms, sss, -, -, hs, -, -, hsig⟩ := decodeMsgs_next env d body.Messages _ vars hloop
  refine ⟨raw, body, sss, h3, h5, hs, ?_⟩
  have key := (appendSigners_eq sss.flatten none [] (by simp [Slice.toList])).1
  simp only at hsig
  rw [← hsig] at key
  have hall : (sss.flatten.filter fun s => decide (s ∉ Slice.toList (none : Slice Bytes)))
      = sss.flatten := by
    apply List.filter_eq_self.2
    intro s _
    simp [Slice.toList]
  rw [hall] at key
  rw [hdtx]
  simpa [Slice.toList] using key

/-! ## Claims about the signer list -/

/-- C1: whenever `Decode` succeeds, the returned `Signers` list is the
order-preserving first-occurrence deduplication, by equality of the bytes, of
the concatenation, in the order of the body messages, of the signer lists that
the signing context returns for the body messages; messages with signers
`[A, B]` and then `[B, C]` give `[A, B, C]`. -/
theorem Decode_signers_dedup_in_order (env : Env MD RM GM) (d : Decoder MD RM GM)
    (txBytes : Bytes) (dtx : DecodedTx RM GM)
    (h : (Decode env d txBytes).result = .returned (some dtx) none) :
    ∃ (raw : TxRaw) (body : TxBody) (sss : List (List Bytes)),
      env.unmarshalTxRaw txBytes = .ok raw ∧
      env.unmarshalTxBody raw.BodyBytes = .ok body ∧
      body.Messages.map (signersOfMsg env d) = sss.map some ∧
      Slice.toList dtx.Signers = dedupFirst sss.flatten ∧
      ∀ A B C : Bytes, A ≠ B → A ≠ C → B ≠ C → sss = [[A, B], [B, C]] →
        Slice.toList dtx.Signers = [A, B, C] := by
  obtain ⟨raw, body, sss, h1, h2, h3, h4⟩ := Decode_signers env d txBytes dtx none h
  refine ⟨raw, body, sss, h1, h2, h3, h4, ?_⟩
  intro A B C hAB hAC hBC hsss
  rw [h4, hsss]
  simp [dedupFirst, hAB, hAC, hBC, Ne.symm hAB, Ne.symm hAC, Ne.symm hBC]

/-- C1, on the small world: messages with signers `[1, 2]` and `[2, 3]` decode
to the signer list `[1, 2, 3]`. -/
theorem Decode_signers_dedup_in_order_witness :
    (Decode toyEnv toyDecoder [0x12, 0x23]).result = .returned (some toyDtx) none ∧
    toyBody.Messages.map (signersOfMsg toyEnv toyDecoder) = [some [[1], [2]], some [[2], [3]]] ∧
    Slice.toList toyDtx.Signers = [[1], [2], [3]] ∧
    ∃ (raw : TxRaw) (body : TxBody) (sss : List (List Bytes)),
      toyEnv.unmarshalTxRaw [0x12, 0x23] = .ok raw ∧
      toyEnv.unmarshalTxBody raw.BodyBytes = .ok body ∧
      body.Messages.map (signersOfMsg toyEnv toyDecoder) = sss.map some ∧
      Slice.toList toyDtx.Signers = dedupFirst sss.flatten ∧
      ∀ A B C : Bytes, A ≠ B → A ≠ C → B ≠ C → sss = [[A, B], [B, C]] →
        Slice.toList toyDtx.Signers = [A, B, C] :=
  ⟨rfl, rfl, rfl, Decode_signers_dedup_in_order toyEnv toyDecoder [0x12, 0x23] toyDtx rfl⟩

/-- C2: whenever `Decode` succeeds, no two entries of the returned `Signers`
list, at different indices, have equal bytes. -/
theorem Decode_signers_no_duplicates (env : Env MD RM GM) (d : Decoder MD RM GM)
    (txBytes : Bytes) (dtx : DecodedTx RM GM)
    (h : (Decode env d txBytes).result = .returned (some dtx) none) :
    ∀ (i j : Nat) (hi : i < (Slice.toList dtx.Signers).length)
      (hj : j < (Slice.toList dtx.Signers).length),
      i ≠ j → (Slice.toList dtx.Signers).get ⟨i, hi⟩ ≠ (Slice.toList dtx.Signers).get ⟨j, hj⟩ := by
  obtain ⟨raw, body, sss, -, -, -, hsig⟩ := Decode_signers env d txBytes dtx none h
  have hnodup : (Slice.toList dtx.Signers).Nodup := hsig ▸ nodup_dedupFirst _
  intro i j hi hj hij heq
  exact hij (Fin.mk.inj ((List.Nodup.get_inj_iff hnodup).1 heq))

/-- C2, on the small world. -/
theorem Decode_signers_no_duplicates_witness :
    (Decode toyEnv toyDecoder [0x12, 0x23]).result = .returned (some toyDtx) none ∧
    ∀ (i j : Nat) (hi : i < (Slice.toList toyDtx.Signers).length)
      (hj : j < (Slice.toList toyDtx.Signers).length),
      i ≠ j →
        (Slice.toList toyDtx.Signers).get ⟨i, hi⟩ ≠ (Slice.toList toyDtx.Signers).get ⟨j, hj⟩ :=
  ⟨rfl, Decode_signers_no_duplicates toyEnv toyDecoder [0x12, 0x23] toyDtx rfl⟩

/-! ## Claims about the cache -/

theorem Hash_of_cached (env : Env MD RM GM) (dtx : DecodedTx RM GM)
    (h : dtx.cachedHashed = true) :
    dtx.Hash env = ⟨[], .ok (dtx.cachedHash, dtx)⟩ := by
  simp [DecodedTx.Hash, h]

theorem Bytes_of_cached (env : Env MD RM GM) (dtx : DecodedTx RM GM)
    (h : dtx.cachedHashed = true) :
    dtx.Bytes env = ⟨[], .ok (dtx.cachedBytes, dtx)⟩ := by
  simp [DecodedTx.Bytes, h]

theorem Hash_of_fresh (env : Env MD RM GM) (dtx : DecodedTx RM GM) (bz : Bytes)
    (h : dtx.cachedHashed = false) (hm : env.marshalTxRaw dtx.TxRaw = .ok bz) :
    dtx.Hash env = ⟨[Call.protoMarshal dtx.TxRaw, Call.sha256Sum256 bz],
      .ok (env.sha256Sum256 bz,
        { dtx with cachedBytes := bz, cachedHash := env.sha256Sum256 bz,
                   cachedHashed := true })⟩ := by
  simp [DecodedTx.Hash, DecodedTx.computeHashAndBytes, h, hm]

theorem Bytes_of_fresh (env : Env MD RM GM) (dtx : DecodedTx RM GM) (bz : Bytes)
    (h : dtx.cachedHashed = false) (hm : env.marshalTxRaw dtx.TxRaw = .ok bz) :
    dtx.Bytes env = ⟨[Call.protoMarshal dtx.TxRaw, Call.sha256Sum256 bz],
      .ok (bz,
        { dtx with cachedBytes := bz, cachedHash := env.sha256Sum256 bz,
                   cachedHashed := true })⟩ := by
  simp [DecodedTx.Bytes, DecodedTx.computeHashAndBytes, h, hm]

theorem Hash_of_fresh_panics (env : Env MD RM GM) (dtx : DecodedTx RM GM) (err : GoError)
    (h : dtx.cachedHashed = false) (hm : env.marshalTxRaw dtx.TxRaw = .error err) :
    dtx.Hash env = ⟨[Call.protoMarshal dtx.TxRaw], .error err⟩ := by
  simp [DecodedTx.Hash, DecodedTx.computeHashAndBytes, h, hm]

theorem Bytes_of_fresh_panics (env : Env MD RM GM) (dtx : DecodedTx RM GM) (err : GoError)
    (h : dtx.cachedHashed = false) (hm : env.marshalTxRaw dtx.TxRaw = .error err) :
    dtx.Bytes env = ⟨[Call.protoMarshal dtx.TxRaw], .error err⟩ := by
  simp [DecodedTx.Bytes, DecodedTx.computeHashAndBytes, h, hm]

/-- A life that starts with a filled cache: nothing is computed, every call
returns the cached values, and the cache is the same at the end. -/
theorem runOps_of_cached (env : Env MD RM GM) (ops : List CacheOp) (dtx : DecodedTx RM GM)
    (bz : Bytes) (h : dtx.cachedHashed = true) (hb : dtx.cachedBytes = bz)
    (hh : dtx.cachedHash = env.sha256Sum256 bz) :
    ∃ dtx2 : DecodedTx RM GM,
      runOps env ops dtx = ⟨[], .ok (observedFromCache env bz ops, dtx2)⟩ ∧
      dtx2.cachedHashed = true ∧ dtx2.cachedBytes = bz ∧
      dtx2.cachedHash = env.sha256Sum256 bz := by
  induction ops generalizing dtx with
  | nil => exact ⟨dtx, rfl, h, hb, hh⟩
  | cons op ops ih =>
    cases op with
    | callHash =>
      obtain ⟨dtx2, hrun, h2⟩ := ih dtx h hb hh
      refine ⟨dtx2, ?_, h2⟩
      simp [runOps, Hash_of_cached env dtx h, hrun, observedFromCache, hh]
    | callBytes =>
      obtain ⟨dtx2, hrun, h2⟩ := ih dtx h hb hh
      refine ⟨dtx2, ?_, h2⟩
      simp [runOps, Bytes_of_cached env dtx h, hrun, observedFromCache, hb]
    | assignTxRaw raw =>
      obtain ⟨dtx2, hrun, h2⟩ := ih { dtx with TxRaw := raw } h hb hh
      exact ⟨dtx2, by simp [runOps, hrun, observedFromCache], h2⟩

/-- A life that starts with an empty cache and does not panic: all the values
returned come from one serialization. -/
theorem runOps_of_fresh (env : Env MD RM GM) (ops : List CacheOp) (dtx : DecodedTx RM GM)
    (obs : List Observed) (dtx2 : DecodedTx RM GM) (h : dtx.cachedHashed = false)
    (hrun : (runOps env ops dtx).result = .ok (obs, dtx2)) :
    ∃ bz : Bytes, obs = observedFromCache env bz ops := by
  induction ops generalizing dtx with
  | nil =>
    simp only [runOps, Except.ok.injEq, Prod.mk.injEq] at hrun
    exact ⟨[], by simp [observedFromCache, ← hrun.1]⟩
  | cons op ops ih =>
    cases op with
    | callHash =>
      cases hm : env.marshalTxRaw dtx.TxRaw with
      | error err => simp [runOps, Hash_of_fresh_panics env dtx err h hm] at hrun
      | ok bz =>
        obtain ⟨dtx3, hrest, -⟩ := runOps_of_cached env ops
          { dtx with cachedBytes := bz, cachedHash := env.sha256Sum256 bz, cachedHashed := true }
          bz rfl rfl rfl
        simp only [runOps, Hash_of_fresh env dtx bz h hm, hrest, Except.ok.injEq,
          Prod.mk.injEq] at hrun
        exact ⟨bz, by simp [observedFromCache, ← hrun.1]⟩
    | callBytes =>
      cases hm : env.marshalTxRaw dtx.TxRaw with
      | error err => simp [runOps, Bytes_of_fresh_panics env dtx err h hm] at hrun
      | ok bz =>
        obtain ⟨dtx3, hrest, -⟩ := runOps_of_cached env ops
          { dtx with cachedBytes := bz, cachedHash := env.sha256Sum256 bz, cachedHashed := true }
          bz rfl rfl rfl
        simp only [runOps, Bytes_of_fresh env dtx bz h hm, hrest, Except.ok.injEq,
          Prod.mk.injEq] at hrun
        exact ⟨bz, by simp [observedFromCache, ← hrun.1]⟩
    | assignTxRaw raw =>
      obtain ⟨bz, hbz⟩ := ih { dtx with TxRaw := raw } h (by simpa [runOps] using hrun)
      exact ⟨bz, by simp [observedFromCache, hbz]⟩

theorem mem_observedFromCache (env : Env MD RM GM) (bz : Bytes) (ops : List CacheOp)
    (o : Observed) (ho : o ∈ observedFromCache env bz ops) :
    o = Observed.hash (env.sha256Sum256 bz) ∨ o = Observed.bytes bz := by
  induction ops with
  | nil => simp [observedFromCache] at ho
  | cons op ops ih =>
    cases op with
    | callHash =>
      simp only [observedFromCache, List.mem_cons] at ho
      rcases ho with rfl | ho
      · exact Or.inl rfl
      · exact ih ho
    | callBytes =>
      simp only [observedFromCache, List.mem_cons] at ho
      rcases ho with rfl | ho
      · exact Or.inr rfl
      · exact ih ho
    | assignTxRaw raw => exact ih (by simpa [observedFromCache] using ho)

/-- A life does not panic when the serialization of the envelope cannot fail. -/
theorem runOps_returns (env : Env MD RM GM) (ops : List CacheOp) (dtx : DecodedTx RM GM)
    (hm : ∀ raw, ∃ bz, env.marshalTxRaw raw = .ok bz) :
    ∃ (obs : List Observed) (dtx2 : DecodedTx RM GM),
      (runOps env ops dtx).result = .ok (obs, dtx2) := by
  induction ops generalizing dtx with
  | nil => exact ⟨[], dtx, rfl⟩
  | cons op ops ih =>
    cases op with
    | callHash =>
      cases hc : dtx.cachedHashed with
      | true =>
        obtain ⟨obs, dtx2, hrun⟩ := ih dtx
        exact ⟨Observed.hash dtx.cachedHash :: obs, dtx2,
          by simp [runOps, Hash_of_cached env dtx hc, hrun]⟩
      | false =>
        obtain ⟨bz, hbz⟩ := hm dtx.TxRaw
        obtain ⟨obs, dtx2, hrun⟩ := ih
          { dtx with cachedBytes := bz, cachedHash := env.sha256Sum256 bz, cachedHashed := true }
        exact ⟨Observed.hash (env.sha256Sum256 bz) :: obs, dtx2,
          by simp [runOps, Hash_of_fresh env dtx bz hc hbz, hrun]⟩
    | callBytes =>
      cases hc : dtx.cachedHashed with
      | true =>
        obtain ⟨obs, dtx2, hrun⟩ := ih dtx
        exact ⟨Observed.bytes dtx.cachedBytes :: obs, dtx2,
          by simp [runOps, Bytes_of_cached env dtx hc, hrun]⟩
      | false =>
        obtain ⟨bz, hbz⟩ := hm dtx.TxRaw
        obtain ⟨obs, dtx2, hrun⟩ := ih
          { dtx with cachedBytes := bz, cachedHash := env.sha256Sum256 bz, cachedHashed := true }
        exact ⟨Observed.bytes bz :: obs, dtx2,
          by simp [runOps, Bytes_of_fresh env dtx bz hc hbz, hrun]⟩
    | assignTxRaw raw =>
      obtain ⟨obs, dtx2, hrun⟩ := ih { dtx with TxRaw := raw }
      exact ⟨obs, dtx2, by simpa [runOps] using hrun⟩

/-- C3: at every point of the life of a `DecodedTx` (a life starts with an
empty cache and is any sequence of calls of `Hash()` and `Bytes()` and of
assignments to `TxRaw`), every value returned by `Hash()` is the SHA-256 digest
of every value returned by `Bytes()`; and the calls do return as long as the
serialization of the envelope does not fail. -/
theorem Hash_is_digest_of_Bytes (env : Env MD RM GM) (dtx0 : DecodedTx RM GM)
    (ops : List CacheOp) (h0 : dtx0.cachedHashed = false) :
    ((∀ raw, ∃ bz, env.marshalTxRaw raw = .ok bz) →
      ∃ (obs : List Observed) (dtx : DecodedTx RM GM),
        (runOps env ops dtx0).result = .ok (obs, dtx)) ∧
    ∀ (obs : List Observed) (dtx : DecodedTx RM GM),
      (runOps env ops dtx0).result = .ok (obs, dtx) →
      ∀ (h : Hash32) (b : Bytes),
        Observed.hash h ∈ obs → Observed.bytes b ∈ obs → h = env.sha256Sum256 b := by
  refine ⟨fun hm => runOps_returns env ops dtx0 hm, ?_⟩
  intro obs dtx hrun h b hh hb
  obtain ⟨bz, hobs⟩ := runOps_of_fresh env ops dtx0 obs dtx h0 hrun
  subst hobs
  have h1 := mem_observedFromCache env bz ops _ hh
  have h2 := mem_observedFromCache env bz ops _ hb
  simp only [Observed.hash.injEq, Observed.bytes.injEq, reduceCtorEq, or_false, false_or]
    at h1 h2
  rw [h1, h2]

/-- C3, on the small world: `Bytes()`, then an assignment of nil to `TxRaw`,
then `Hash()`. -/
theorem Hash_is_digest_of_Bytes_witness :
    toyDtx.cachedHashed = false ∧
    (runOps toyEnv [.callBytes, .assignTxRaw none, .callHash] toyDtx).result =
      .ok ([Observed.bytes [0x12, 0x23], Observed.hash (toySum256 [0x12, 0x23])],
           { toyDtxCached with TxRaw := none }) ∧
    toySum256 [0x12, 0x23] = toyEnv.sha256Sum256 [0x12, 0x23] :=
  ⟨rfl, rfl,
    (Hash_is_digest_of_Bytes toyEnv toyDtx [.callBytes, .assignTxRaw none, .callHash] rfl).2
      [Observed.bytes [0x12, 0x23], Observed.hash (toySum256 [0x12, 0x23])]
      { toyDtxCached with TxRaw := none } rfl (toySum256 [0x12, 0x23]) [0x12, 0x23]
      (List.mem_cons_of_mem _ (List.mem_cons_self _ _)) (List.mem_cons_self _ _)⟩

/-- C4: the first call of `Hash()` or `Bytes()` on a `DecodedTx` with an empty
cache serializes `TxRaw` once, hashes the bytes once and stores both; every
later call of `Hash()` or `Bytes()` returns the stored values and calls neither
the serialization nor the hash again, also when `TxRaw` has been assigned in
between. -/
theorem cache_filled_once (env : Env MD RM GM) (dtx0 : DecodedTx RM GM) (bz : Bytes)
    (first : CacheOp) (later : List CacheOp)
    (h0 : dtx0.cachedHashed = false) (hm : env.marshalTxRaw dtx0.TxRaw = .ok bz)
    (hfirst : first = .callHash ∨ first = .callBytes) :
    ∃ dtx1 dtx2 : DecodedTx RM GM,
      runOps env [first] dtx0 =
        ⟨[Call.protoMarshal dtx0.TxRaw, Call.sha256Sum256 bz],
          .ok (observedFromCache env bz [first], dtx1)⟩ ∧
      dtx1.cachedHashed = true ∧ dtx1.cachedBytes = bz ∧
      dtx1.cachedHash = env.sha256Sum256 bz ∧
      runOps env later dtx1 = ⟨[], .ok (observedFromCache env bz later, dtx2)⟩ ∧
      dtx2.cachedHashed = true ∧ dtx2.cachedBytes = bz ∧
      dtx2.cachedHash = env.sha256Sum256 bz := by
  obtain ⟨dtx2, hrun, hc⟩ := runOps_of_cached env later
    { dtx0 with cachedBytes := bz, cachedHash := env.sha256Sum256 bz, cachedHashed := true }
    bz rfl rfl rfl
  refine ⟨_, dtx2, ?_, rfl, rfl, rfl, hrun, hc⟩
  rcases hfirst with rfl | rfl
  · simp [runOps, Hash_of_fresh env dtx0 bz h0 hm, observedFromCache]
  · simp [runOps, Bytes_of_fresh env dtx0 bz h0 hm, observedFromCache]

/-- C4, on the small world: `Hash()` first, then an assignment of nil to
`TxRaw`, `Bytes()` and `Hash()`. -/
theorem cache_filled_once_witness :
    toyDtx.cachedHashed = false ∧
    toyEnv.marshalTxRaw toyDtx.TxRaw = .ok [0x12, 0x23] ∧
    ∃ dtx1 dtx2 : DecodedTx AnyMsg AnyMsg,
      runOps toyEnv [.callHash] toyDtx =
        ⟨[Call.protoMarshal toyDtx.TxRaw, Call.sha256Sum256 [0x12, 0x23]],
          .ok (observedFromCache toyEnv [0x12, 0x23] [.callHash], dtx1)⟩ ∧
      dtx1.cachedHashed = true ∧ dtx1.cachedBytes = [0x12, 0x23] ∧
      dtx1.cachedHash = toyEnv.sha256Sum256 [0x12, 0x23] ∧
      runOps toyEnv [.assignTxRaw none, .callBytes, .callHash] dtx1 =
        ⟨[], .ok (observedFromCache toyEnv [0x12, 0x23]
                    [.assignTxRaw none, .callBytes, .callHash], dtx2)⟩ ∧
      dtx2.cachedHashed = true ∧ dtx2.cachedBytes = [0x12, 0x23] ∧
      dtx2.cachedHash = toyEnv.sha256Sum256 [0x12, 0x23] :=
  ⟨rfl, rfl,
    cache_filled_once toyEnv toyDtx [0x12, 0x23] .callHash
      [.assignTxRaw none, .callBytes, .callHash] rfl rfl (Or.inl rfl)⟩

/-! ## Claims about `Decode` as a whole -/

theorem rejectNonADR027TxRaw_none (unmarshalTxRaw : Bytes → Except GoError TxRaw)
    (marshalTxRaw : Option TxRaw → Except GoError Bytes) (txBytes : Bytes)
    (h : rejectNonADR027TxRaw unmarshalTxRaw marshalTxRaw txBytes = none) :
    ∃ raw, unmarshalTxRaw txBytes = .ok raw ∧ marshalTxRaw (some raw) = .ok txBytes := by
  unfold rejectNonADR027TxRaw at h
  split at h
  · simp at h
  · rename_i raw hraw
    split at h
    · simp at h
    · rename_i bz hbz
      split at h
      · rename_i heq
        exact ⟨raw, hraw, by rw [hbz, heq]⟩
      · simp at h

theorem GoError.Is_self (e : GoError) : e.Is e = true := by
  cases e <;> simp [GoError.Is]

/-- Whenever `Decode` returns, exactly one of the two results is nil. -/
theorem Decode_returned_exclusive (env : Env MD RM GM) (d : Decoder MD RM GM)
    (txBytes : Bytes) (val : Option (DecodedTx RM GM)) (err : Option GoError)
    (h : (Decode env d txBytes).result = .returned val err) :
    (val ≠ none ∧ err = none) ∨ (val = none ∧ err ≠ none) := by
  cases val with
  | some dtx =>
    obtain ⟨_, _, _, _, _, -, -, -, -, -, -, -, -, herr, -⟩ :=
      Decode_returned_some env d txBytes dtx err h
    exact Or.inl ⟨by simp, herr⟩
  | none =>
    refine Or.inr ⟨rfl, ?_⟩
    unfold Decode at h
    simp only at h
    repeat' split at h
    all_goals first
      | (simp only [Outcome.returned.injEq] at h; rw [← h.2]; simp; done)
      | (simp at h; done)
      | skip
    rename_i val1 err1 hloop
    have := decodeMsgs_ret env d d.signingCtx.FileResolver _ _ val1 err1 hloop
    simp only [Outcome.returned.injEq] at h
    rw [← h.2]
    exact this.2

/-- The loop body panics when the descriptor found for the type identifier is
not a message descriptor. -/
theorem decodeMsg_panics (env : Env MD RM GM) (d : Decoder MD RM GM)
    (fileResolver : FileResolver MD) (vars : LoopVars RM GM) (anyMsg : AnyMsg) (name : String)
    (h : fileResolver.FindDescriptorByName (TrimPrefix anyMsg.TypeUrl) = .ok (.other name)) :
    ∃ reason, (decodeMsg env d fileResolver vars anyMsg).result = .panic reason := by
  simp [decodeMsg, h]

/-- C5: round trip, for the validator that the spec describes. Whenever
`Decode` succeeds on `txBytes` with result `dtx`, `dtx.Bytes()` returns, and
`Decode` succeeds on the bytes returned, with the same envelope, messages,
signer list and unknown-non-critical flag, and the same values of `Hash()` and
`Bytes()`. -/
theorem Decode_round_trip (env : Env MD RM GM) (d : Decoder MD RM GM) (txBytes : Bytes)
    (dtx : DecodedTx RM GM)
    (hcanon : env.rejectNonADR027TxRaw =
      rejectNonADR027TxRaw env.unmarshalTxRaw env.marshalTxRaw)
    (h : (Decode env d txBytes).result = .returned (some dtx) none) :
    ∃ (bz : Bytes) (dtx1 dtx2 : DecodedTx RM GM),
      (dtx.Bytes env).result = .ok (bz, dtx1) ∧
      (Decode env d bz).result = .returned (some dtx2) none ∧
      dtx2.Tx = dtx1.Tx ∧ dtx2.TxRaw = dtx1.TxRaw ∧
      dtx2.Messages = dtx1.Messages ∧ dtx2.ReflectMessages = dtx1.ReflectMessages ∧
      dtx2.Signers = dtx1.Signers ∧
      dtx2.TxBodyHasUnknownNonCriticals = dtx1.TxBodyHasUnknownNonCriticals ∧
      Except.map Prod.fst (dtx1.Hash env).result = .ok (env.sha256Sum256 bz) ∧
      Except.map Prod.fst (dtx2.Hash env).result = .ok (env.sha256Sum256 bz) ∧
      Except.map Prod.fst (dtx1.Bytes env).result = .ok bz ∧
      Except.map Prod.fst (dtx2.Bytes env).result = .ok bz := by
  obtain ⟨raw, flag, body, authInfo, vars, h1, -, h3, -, -, -, -, -, -, hdtx⟩ :=
    Decode_returned_some env d txBytes dtx none h
  rw [hcanon] at h1
  obtain ⟨raw1, hraw1, hmarshal⟩ := rejectNonADR027TxRaw_none _ _ _ h1
  have hraw : raw1 = raw := by
    rw [h3] at hraw1
    exact (Except.ok.inj hraw1).symm
  subst hraw
  have hfresh : dtx.cachedHashed = false := by rw [hdtx]
  have hm : env.marshalTxRaw dtx.TxRaw = .ok txBytes := by rw [hdtx]; exact hmarshal
  refine ⟨txBytes,
    { dtx with cachedBytes := txBytes, cachedHash := env.sha256Sum256 txBytes,
               cachedHashed := true }, dtx, ?_, h, ?_⟩
  · rw [Bytes_of_fresh env dtx txBytes hfresh hm]
  · refine ⟨rfl, rfl, rfl, rfl, rfl, rfl, ?_, ?_, ?_, ?_⟩
    · rw [Hash_of_cached env _ rfl]; rfl
    · rw [Hash_of_fresh env dtx txBytes hfresh hm]; rfl
    · rw [Bytes_of_cached env _ rfl]; rfl
    · rw [Bytes_of_fresh env dtx txBytes hfresh hm]; rfl

/-- C5, on the small world. -/
theorem Decode_round_trip_witness :
    toyEnv.rejectNonADR027TxRaw =
      rejectNonADR027TxRaw toyEnv.unmarshalTxRaw toyEnv.marshalTxRaw ∧
    (Decode toyEnv toyDecoder [0x12, 0x23]).result = .returned (some toyDtx) none ∧
    ∃ (bz : Bytes) (dtx1 dtx2 : DecodedTx AnyMsg AnyMsg),
      (toyDtx.Bytes toyEnv).result = .ok (bz, dtx1) ∧
      (Decode toyEnv toyDecoder bz).result = .returned (some dtx2) none ∧
      dtx2.Tx = dtx1.Tx ∧ dtx2.TxRaw = dtx1.TxRaw ∧
      dtx2.Messages = dtx1.Messages ∧ dtx2.ReflectMessages = dtx1.ReflectMessages ∧
      dtx2.Signers = dtx1.Signers ∧
      dtx2.TxBodyHasUnknownNonCriticals = dtx1.TxBodyHasUnknownNonCriticals ∧
      Except.map Prod.fst (dtx1.Hash toyEnv).result = .ok (toyEnv.sha256Sum256 bz) ∧
      Except.map Prod.fst (dtx2.Hash toyEnv).result = .ok (toyEnv.sha256Sum256 bz) ∧
      Except.map Prod.fst (dtx1.Bytes toyEnv).result = .ok bz ∧
      Except.map Prod.fst (dtx2.Bytes toyEnv).result = .ok bz :=
  ⟨rfl, rfl, Decode_round_trip toyEnv toyDecoder [0x12, 0x23] toyDtx rfl rfl⟩

/-! ## Lemmas about configurations that give the same answers -/

/-- A configuration gives the same answers as itself. -/
theorem SameAnswers_refl (env : Env MD RM GM) (d : Decoder MD RM GM) (txBytes : Bytes) :
    SameAnswers env env d d txBytes :=
  ⟨rfl, rfl, fun _ => ⟨rfl, fun _ => ⟨rfl, fun _ _ => ⟨rfl, fun _ _ => ⟨rfl, fun _ _ =>
    ⟨rfl, fun _ => ⟨rfl, fun _ _ _ _ => ⟨rfl, fun _ _ => ⟨rfl, fun _ _ => ⟨rfl, fun _ _ =>
      ⟨rfl, fun _ _ => rfl⟩⟩⟩⟩⟩⟩⟩⟩⟩⟩⟩

/-- C7: canonical uniqueness, for the validator that the spec describes. Of
two different byte strings that deserialize to the same outer envelope, `Decode`
accepts at most one. -/
theorem Decode_canonical_uniqueness (env : Env MD RM GM) (d : Decoder MD RM GM)
    (txBytes1 txBytes2 : Bytes) (raw : TxRaw)
    (hcanon : env.rejectNonADR027TxRaw =
      rejectNonADR027TxRaw env.unmarshalTxRaw env.marshalTxRaw)
    (hne : txBytes1 ≠ txBytes2)
    (hraw1 : env.unmarshalTxRaw txBytes1 = .ok raw)
    (hraw2 : env.unmarshalTxRaw txBytes2 = .ok raw) :
    ¬ ((∃ dtx1, (Decode env d txBytes1).result = .returned (some dtx1) none) ∧
       (∃ dtx2, (Decode env d txBytes2).result = .returned (some dtx2) none)) := by
  rintro ⟨⟨dtx1, h1⟩, ⟨dtx2, h2⟩⟩
  obtain ⟨_, _, _, _, _, hv1, -⟩ := Decode_returned_some env d txBytes1 dtx1 none h1
  obtain ⟨_, _, _, _, _, hv2, -⟩ := Decode_returned_some env d txBytes2 dtx2 none h2
  rw [hcanon] at hv1 hv2
  obtain ⟨r1, hr1, hm1⟩ := rejectNonADR027TxRaw_none _ _ _ hv1
  obtain ⟨r2, hr2, hm2⟩ := rejectNonADR027TxRaw_none _ _ _ hv2
  rw [hraw1] at hr1
  rw [hraw2] at hr2
  have e1 : raw = r1 := Except.ok.inj hr1
  have e2 : raw = r2 := Except.ok.inj hr2
  subst e1
  subst e2
  rw [hm1] at hm2
  exact hne (Except.ok.inj hm2)

/-- C7, on the small world: `[0x12]` and `[0x12, 0]` have the same envelope. -/
theorem Decode_canonical_uniqueness_witness :
    toyEnv.rejectNonADR027TxRaw =
      rejectNonADR027TxRaw toyEnv.unmarshalTxRaw toyEnv.marshalTxRaw ∧
    ([0x12] : Bytes) ≠ [0x12, 0] ∧
    toyEnv.unmarshalTxRaw [0x12] =
      .ok { BodyBytes := [0x12], AuthInfoBytes := [], Signatures := [] } ∧
    toyEnv.unmarshalTxRaw [0x12, 0] =
      .ok { BodyBytes := [0x12], AuthInfoBytes := [], Signatures := [] } ∧
    ¬ ((∃ dtx1, (Decode toyEnv toyDecoder [0x12]).result = .returned (some dtx1) none) ∧
       (∃ dtx2, (Decode toyEnv toyDecoder [0x12, 0]).result = .returned (some dtx2) none)) :=
  ⟨rfl, by decide, rfl, rfl,
    Decode_canonical_uniqueness toyEnv toyDecoder [0x12] [0x12, 0]
      { BodyBytes := [0x12], AuthInfoBytes := [], Signatures := [] } rfl (by decide) rfl rfl⟩

/-- C8: the canonical-encoding check is the first step of `Decode`. On every
input that the validator rejects, `Decode` returns no `DecodedTx` and the error
`ErrTxDecode` wrapped with the message of the validator, and the validator is
the only call made: no scan, no deserialization, no descriptor lookup, no
resolution, no signer extraction. -/
theorem Decode_rejects_non_canonical_first (env : Env MD RM GM) (d : Decoder MD RM GM)
    (txBytes : Bytes) (err : GoError)
    (h : env.rejectNonADR027TxRaw txBytes = some err) :
    Decode env d txBytes =
      ⟨[Call.rejectNonADR027TxRaw txBytes],
        .returned none (some (Wrap env.ErrTxDecode err.Error))⟩ ∧
    (Wrap env.ErrTxDecode err.Error).Is env.ErrTxDecode = true := by
  constructor
  · simp [Decode, h]
  · simp [Wrap, GoError.Is, GoError.Is_self]

/-- C8, on the small world: the input `[0x12, 0]` is not canonical. -/
theorem Decode_rejects_non_canonical_first_witness :
    toyEnv.rejectNonADR027TxRaw [0x12, 0] = some (GoError.new "txRaw must follow ADR-027") ∧
    Decode toyEnv toyDecoder [0x12, 0] =
      ⟨[Call.rejectNonADR027TxRaw [0x12, 0]],
        .returned none (some (Wrap toyEnv.ErrTxDecode
          (GoError.new "txRaw must follow ADR-027").Error))⟩ ∧
    (Wrap toyEnv.ErrTxDecode (GoError.new "txRaw must follow ADR-027").Error).Is
      toyEnv.ErrTxDecode = true :=
  ⟨rfl, Decode_rejects_non_canonical_first toyEnv toyDecoder [0x12, 0]
    (GoError.new "txRaw must follow ADR-027") rfl⟩

/-- C9: `Decode` does not return on every input. In the small world the
transaction `[0xEE]` passes the validator, the scans and the deserializations;
its only message has the type identifier `/E`, for which the file resolver finds
a descriptor that is not a message descriptor; the unchecked type assertion of
`Decode` then panics, so that neither a `DecodedTx` nor an error is returned. -/
theorem Decode_panics_on_non_message_descriptor :
    toyEnv.rejectNonADR027TxRaw [0xEE] = none ∧
    toyDecoder.signingCtx.FileResolver.FindDescriptorByName (TrimPrefix "/E")
      = .ok (Descriptor.other "E") ∧
    (Decode toyEnv toyDecoder [0xEE]).result =
      .panicked "interface conversion: not a protoreflect.MessageDescriptor" ∧
    ∀ (val : Option (DecodedTx AnyMsg AnyMsg)) (err : Option GoError),
      (Decode toyEnv toyDecoder [0xEE]).result ≠ .returned val err := by
  refine ⟨rfl, rfl, rfl, ?_⟩
  intro val err h
  have hp : (Decode toyEnv toyDecoder [0xEE]).result =
      .panicked "interface conversion: not a protoreflect.MessageDescriptor" := rfl
  rw [hp] at h
  cases h

/-! ## Claims about `NewDecoder` -/

/-- C10: `NewDecoder` returns an error, and then no `Decoder`, exactly when
one of the three options is nil; otherwise it returns a `Decoder` that holds the
three dependencies given, and no error. -/
theorem NewDecoder_requires_all (options : Options MD RM GM) :
    ((NewDecoder options).2 ≠ none ↔
      (options.SigningContext = none ∨ options.ProtoCodec = none ∨
        options.AnyResolver = none)) ∧
    ((NewDecoder options).2 ≠ none → (NewDecoder options).1 = none) ∧
    ∀ (signingCtx : SigningContext MD RM) (codec : gogoProtoCodec GM)
      (resolver : anyResolver GM),
      NewDecoder
          { SigningContext := some signingCtx, ProtoCodec := some codec,
            AnyResolver := some resolver : Options MD RM GM }
        = (some { signingCtx := signingCtx, codec := codec, resolver := resolver }, none) := by
  obtain ⟨s, c, r⟩ := options
  refine ⟨?_, ?_, fun _ _ _ => rfl⟩
  · cases s <;> cases c <;> cases r <;> simp [NewDecoder]
  · cases s <;> cases c <;> cases r <;> simp [NewDecoder]

/-! ## Lemmas about the scanner of the spec -/

/-- The flag given to the walk is only ever raised, and does not influence
the error. -/
theorem scanFields_flag (m : ScanModel MD) (resolver : FileResolver MD) (allow : Bool)
    (desc : MD) (nested : Bytes → MD → Bool × Option GoError) (recs : List FieldRecord)
    (flag : Bool) :
    scanFields m resolver allow desc nested recs flag =
      (flag || (scanFields m resolver allow desc nested recs false).1,
        (scanFields m resolver allow desc nested recs false).2) := by
  induction recs generalizing flag with
  | nil => simp [scanFields]
  | cons r rs ih =>
    unfold scanFields
    split
    · split
      · rw [ih true]; simp
      · simp
    · rw [ih flag]
    · split
      · simp
      · simp
      · rename_i md hres
        split
        · simp
        · rename_i child hchild
          rw [ih (flag || child), ih (false || child)]
          simp [Bool.or_assoc]

/-- A field number that is neither declared nor tolerated makes the walk fail. -/
theorem scanFields_rejects (m : ScanModel MD) (resolver : FileResolver MD) (allow : Bool)
    (desc : MD) (nested : Bytes → MD → Bool × Option GoError) (recs : List FieldRecord)
    (flag : Bool) (r : FieldRecord) (hr : r ∈ recs) (hund : m.field desc r.number = none)
    (hmode : allow = false ∨ m.nonCritical r.number = false) :
    ∃ err, (scanFields m resolver allow desc nested recs flag).2 = some err := by
  induction recs generalizing flag with
  | nil => simp at hr
  | cons r0 rs ih =>
    rcases List.mem_cons.1 hr with rfl | hin
    · unfold scanFields
      rw [hund]
      have hcond : (allow && m.nonCritical r.number) = false := by
        rcases hmode with h | h <;> simp [h]
      simp [hcond]
    · unfold scanFields
      split
      · split
        · exact ih true hin
        · exact ⟨_, rfl⟩
      · exact ih flag hin
      · split
        · exact ⟨_, rfl⟩
        · exact ⟨_, rfl⟩
        · split
          · exact ⟨_, rfl⟩
          · exact ih _ hin

/-- The scanner of the spec fails on bytes whose records contain a field number
that is neither declared nor tolerated. -/
theorem RejectUnknownFields_rejects (m : ScanModel MD) (resolver : FileResolver MD)
    (allow : Bool) (bz : Bytes) (desc : MD) (recs : List FieldRecord) (r : FieldRecord)
    (hrecs : m.records bz = .ok recs) (hr : r ∈ recs)
    (hund : m.field desc r.number = none)
    (hmode : allow = false ∨ m.nonCritical r.number = false) :
    ∃ err, (RejectUnknownFields m bz desc allow resolver).2 = some err := by
  unfold RejectUnknownFields
  cases hd : m.maxDepth with
  | zero => exact ⟨_, rfl⟩
  | succ depth =>
    simp only [scanAtDepth, hrecs]
    exact scanFields_rejects m resolver allow desc _ recs false r hr hund hmode

/-- Adding a tolerated field to records that the lenient walk accepts gives
records that it accepts, with the flag raised. -/
theorem scanFields_insert (m : ScanModel MD) (resolver : FileResolver MD)
    (desc : MD) (nested : Bytes → MD → Bool × Option GoError) (pre post : List FieldRecord)
    (flag : Bool) (r : FieldRecord) (hund : m.field desc r.number = none)
    (hsafe : m.nonCritical r.number = true)
    (hok : (scanFields m resolver true desc nested (pre ++ post) flag).2 = none) :
    scanFields m resolver true desc nested (pre ++ r :: post) flag = (true, none) := by
  induction pre generalizing flag with
  | nil =>
    simp only [List.nil_append] at hok ⊢
    unfold scanFields
    rw [hund]
    simp only [hsafe, Bool.and_self, if_true]
    rw [scanFields_flag] at hok ⊢
    simp only at hok
    simp [hok]
  | cons r0 pre ih =>
    simp only [List.cons_append] at hok ⊢
    unfold scanFields at hok ⊢
    split
    · rename_i h0
      rw [h0] at hok
      simp only at hok
      split
      · rename_i hc
        rw [if_pos hc] at hok
        exact ih true hok
      · rename_i hc
        rw [if_neg hc] at hok
        simp at hok
    · rename_i h0
      rw [h0] at hok
      exact ih flag hok
    · rename_i typeName h0
      rw [h0] at hok
      simp only at hok
      split
      · rename_i err hres
        rw [hres] at hok
        simp at hok
      · rename_i name hres
        rw [hres] at hok
        simp at hok
      · rename_i md hres
        rw [hres] at hok
        simp only at hok
        split
        · rename_i child err hchild
          rw [hchild] at hok
          simp at hok
        · rename_i child hchild
          rw [hchild] at hok
          exact ih _ hok

/-- Adding a tolerated field to bytes that the lenient scanner accepts gives
bytes that it accepts, with the flag raised. -/
theorem RejectUnknownFields_insert (m : ScanModel MD) (resolver : FileResolver MD)
    (desc : MD) (bz0 bz1 : Bytes) (pre post : List FieldRecord) (r : FieldRecord)
    (hrecs0 : m.records bz0 = .ok (pre ++ post))
    (hrecs1 : m.records bz1 = .ok (pre ++ r :: post))
    (hund : m.field desc r.number = none) (hsafe : m.nonCritical r.number = true)
    (hok : (RejectUnknownFields m bz0 desc true resolver).2 = none) :
    RejectUnknownFields m bz1 desc true resolver = (true, none) := by
  unfold RejectUnknownFields at hok ⊢
  cases hd : m.maxDepth with
  | zero =>
    rw [hd] at hok
    simp [scanAtDepth] at hok
  | succ depth =>
    rw [hd] at hok
    simp only [scanAtDepth, hrecs0] at hok
    simp only [scanAtDepth, hrecs1]
    exact scanFields_insert m resolver desc _ pre post false r hund hsafe hok

/-- Where the flag of the walk comes from. -/
theorem scanFields_flag_true (m : ScanModel MD) (resolver : FileResolver MD) (allow : Bool)
    (desc : MD) (nested : Bytes → MD → Bool × Option GoError) (recs : List FieldRecord)
    (flag : Bool)
    (h : (scanFields m resolver allow desc nested recs flag).1 = true) :
    flag = true ∨ (∃ r ∈ recs, m.field desc r.number = none) ∨
      ∃ r ∈ recs, ∃ (typeName : String) (md : MD),
        m.field desc r.number = some (.message typeName) ∧
        resolver.FindDescriptorByName typeName = .ok (.message md) ∧
        (nested r.value md).1 = true := by
  induction recs generalizing flag with
  | nil => exact Or.inl (by simpa [scanFields] using h)
  | cons r0 rs ih =>
    unfold scanFields at h
    split at h
    · rename_i h0
      exact Or.inr (Or.inl ⟨r0, List.mem_cons_self _ _, h0⟩)
    · rcases ih flag h with h1 | ⟨r, hr, h2⟩ | ⟨r, hr, h3⟩
      · exact Or.inl h1
      · exact Or.inr (Or.inl ⟨r, List.mem_cons_of_mem _ hr, h2⟩)
      · exact Or.inr (Or.inr ⟨r, List.mem_cons_of_mem _ hr, h3⟩)
    · rename_i typeName h0
      split at h
      · exact Or.inl h
      · exact Or.inl h
      · rename_i md hres
        have hchild : ∀ child, (flag || child) = true → flag = true ∨
            (nested r0.value md).1 = child → flag = true ∨ (nested r0.value md).1 = true := by
          intro child hc hn
          rcases hn with hn | hn
          · exact Or.inl hn
          · cases hf : flag with
            | true => exact Or.inl rfl
            | false =>
              rw [hf] at hc
              simp only [Bool.false_or] at hc
              exact Or.inr (hn.trans hc)
        split at h
        · rename_i child err hn
          rcases hchild child h (Or.inr (by rw [hn])) with h1 | h1
          · exact Or.inl h1
          · exact Or.inr (Or.inr ⟨r0, List.mem_cons_self _ _, typeName, md, h0, hres, h1⟩)
        · rename_i child hn
          rcases ih _ h with h1 | ⟨r, hr, h2⟩ | ⟨r, hr, h3⟩
          · rcases hchild child h1 (Or.inr (by rw [hn])) with h4 | h4
            · exact Or.inl h4
            · exact Or.inr (Or.inr ⟨r0, List.mem_cons_self _ _, typeName, md, h0, hres, h4⟩)
          · exact Or.inr (Or.inl ⟨r, List.mem_cons_of_mem _ hr, h2⟩)
          · exact Or.inr (Or.inr ⟨r, List.mem_cons_of_mem _ hr, h3⟩)

/-- The flag of the scanner is raised only when the scan meets a field number
that is not declared. -/
theorem scanAtDepth_flag_true (m : ScanModel MD) (resolver : FileResolver MD) (allow : Bool)
    (depth : Nat) (bz : Bytes) (desc : MD)
    (h : (scanAtDepth m resolver allow depth bz desc).1 = true) :
    MeetsUndeclared m resolver depth bz desc := by
  induction depth generalizing bz desc with
  | zero => simp [scanAtDepth] at h
  | succ depth ih =>
    unfold scanAtDepth at h
    split at h
    · simp at h
    · rename_i recs hrecs
      rcases scanFields_flag_true m resolver allow desc _ recs false h with
        h1 | ⟨r, hr, h2⟩ | ⟨r, hr, typeName, md, h3, h4, h5⟩
      · simp at h1
      · exact MeetsUndeclared.here depth bz desc recs r hrecs hr h2
      · exact MeetsUndeclared.nested depth bz desc recs r typeName md hrecs hr h3 h4
          (ih r.value md h5)

/-! ## Lemmas about the stages of `Decode` -/

theorem dynamicMsgOf_some (env : Env MD RM GM) (d : Decoder MD RM GM) (anyMsg : AnyMsg)
    (dynamicMsg : RM) (h : dynamicMsgOf env d anyMsg = some dynamicMsg) :
    ∃ msgDesc,
      d.signingCtx.FileResolver.FindDescriptorByName (TrimPrefix anyMsg.TypeUrl)
        = .ok (.message msgDesc) ∧
      env.anyUnmarshalTo anyMsg (env.newDynamicMessage msgDesc) = .ok dynamicMsg := by
  unfold dynamicMsgOf at h
  split at h
  · rename_i msgDesc hfind
    split at h
    · rename_i dyn hdyn
      simp only [Option.some.injEq] at h
      exact ⟨msgDesc, hfind, by rw [hdyn, h]⟩
    · simp at h
  · simp at h

theorem concreteMsgOf_some (d : Decoder MD RM GM) (anyMsg : AnyMsg) (msg : GM)
    (h : concreteMsgOf d anyMsg = some msg) :
    ∃ msg0,
      d.resolver.Resolve (TrimPrefix anyMsg.TypeUrl) = .ok msg0 ∧
      d.codec.Unmarshal anyMsg.Value msg0 = .ok msg := by
  unfold concreteMsgOf at h
  split at h
  · rename_i msg0 hres
    split at h
    · rename_i msg1 hmsg
      simp only [Option.some.injEq] at h
      exact ⟨msg0, hres, by rw [hmsg, h]⟩
    · simp at h
  · simp at h

theorem signersOfMsg_some (env : Env MD RM GM) (d : Decoder MD RM GM) (anyMsg : AnyMsg)
    (ss : List Bytes) (h : signersOfMsg env d anyMsg = some ss) :
    ∃ dynamicMsg,
      dynamicMsgOf env d anyMsg = some dynamicMsg ∧
      d.signingCtx.GetSigners dynamicMsg = .ok ss := by
  unfold signersOfMsg at h
  split at h
  · rename_i dyn hdyn
    split at h
    · rename_i ss1 hss
      simp only [Option.some.injEq] at h
      exact ⟨dyn, hdyn, by rw [hss, h]⟩
    · simp at h
  · simp at h

/-- The loop body when the descriptor lookup fails. -/
theorem decodeMsg_lookup_fails (env : Env MD RM GM) (d : Decoder MD RM GM)
    (fileResolver : FileResolver MD) (vars : LoopVars RM GM) (anyMsg : AnyMsg) (err : GoError)
    (h : fileResolver.FindDescriptorByName (TrimPrefix anyMsg.TypeUrl) = .error err) :
    decodeMsg env d fileResolver vars anyMsg =
      ⟨[Call.FindDescriptorByName (TrimPrefix anyMsg.TypeUrl)],
        .ret none (some (GoError.errorf
          ("protoFiles does not have descriptor " ++ anyMsg.TypeUrl ++ ": " ++ err.Error)
          err))⟩ := by
  simp [decodeMsg, h]

/-- The loop body when the concrete resolution fails. -/
theorem decodeMsg_resolve_fails (env : Env MD RM GM) (d : Decoder MD RM GM)
    (vars : LoopVars RM GM) (anyMsg : AnyMsg) (dynamicMsg : RM) (err : GoError)
    (hdyn : dynamicMsgOf env d anyMsg = some dynamicMsg)
    (h : d.resolver.Resolve (TrimPrefix anyMsg.TypeUrl) = .error err) :
    (decodeMsg env d d.signingCtx.FileResolver vars anyMsg).result = .ret none (some err) := by
  obtain ⟨msgDesc, hfind, hto⟩ := dynamicMsgOf_some env d anyMsg dynamicMsg hdyn
  simp [decodeMsg, hfind, hto, h]

/-- The loop body when the codec fails. -/
theorem decodeMsg_codec_fails (env : Env MD RM GM) (d : Decoder MD RM GM)
    (vars : LoopVars RM GM) (anyMsg : AnyMsg) (dynamicMsg : RM) (msg0 : GM) (err : GoError)
    (hdyn : dynamicMsgOf env d anyMsg = some dynamicMsg)
    (hres : d.resolver.Resolve (TrimPrefix anyMsg.TypeUrl) = .ok msg0)
    (h : d.codec.Unmarshal anyMsg.Value msg0 = .error err) :
    (decodeMsg env d d.signingCtx.FileResolver vars anyMsg).result = .ret none (some err) := by
  obtain ⟨msgDesc, hfind, hto⟩ := dynamicMsgOf_some env d anyMsg dynamicMsg hdyn
  simp [decodeMsg, hfind, hto, hres, h]

/-- The loop body when the signer extraction fails. -/
theorem decodeMsg_signers_fail (env : Env MD RM GM) (d : Decoder MD RM GM)
    (vars : LoopVars RM GM) (anyMsg : AnyMsg) (dynamicMsg : RM) (msg : GM) (err : GoError)
    (hdyn : dynamicMsgOf env d anyMsg = some dynamicMsg)
    (hmsg : concreteMsgOf d anyMsg = some msg)
    (h : d.signingCtx.GetSigners dynamicMsg = .error err) :
    (decodeMsg env d d.signingCtx.FileResolver vars anyMsg).result =
      .ret none (some (Wrap env.ErrTxDecode err.Error)) := by
  obtain ⟨msgDesc, hfind, hto⟩ := dynamicMsgOf_some env d anyMsg dynamicMsg hdyn
  obtain ⟨msg0, hres, hcodec⟩ := concreteMsgOf_some d anyMsg msg hmsg
  simp [decodeMsg, hfind, hto, hres, hcodec, h]

/-- The loop body on an entry that is decoded without failure. -/
theorem decodeMsg_of_decodes (env : Env MD RM GM) (d : Decoder MD RM GM)
    (vars : LoopVars RM GM) (anyMsg : AnyMsg) (h : msgDecodes env d anyMsg = true) :
    ∃ vars1, (decodeMsg env d d.signingCtx.FileResolver vars anyMsg).result = .next vars1 := by
  simp only [msgDecodes, Bool.and_eq_true, Option.isSome_iff_exists] at h
  obtain ⟨⟨⟨dyn, hdyn⟩, ⟨msg, hmsg⟩⟩, ⟨ss, hss⟩⟩ := h
  obtain ⟨msgDesc, hfind, hto⟩ := dynamicMsgOf_some env d anyMsg dyn hdyn
  obtain ⟨msg0, hres, hcodec⟩ := concreteMsgOf_some d anyMsg msg hmsg
  obtain ⟨dyn1, hdyn1, hget⟩ := signersOfMsg_some env d anyMsg ss hss
  rw [hdyn] at hdyn1
  simp only [Option.some.injEq] at hdyn1
  subst hdyn1
  exact ⟨{ signers := (appendSigners ss (vars.signers, vars.seenSigners)).1,
           reflectMsgs := goAppend vars.reflectMsgs dyn,
           msgs := goAppend vars.msgs msg,
           seenSigners := (appendSigners ss (vars.signers, vars.seenSigners)).2 },
    by simp [decodeMsg, hfind, hto, hres, hcodec, hget]⟩

/-- The loop over entries that are decoded without failure falls through, and
the loop over a longer list goes on from there. -/
theorem decodeMsgs_of_decodes (env : Env MD RM GM) (d : Decoder MD RM GM)
    (pre : List AnyMsg) (vars : LoopVars RM GM)
    (h : ∀ p ∈ pre, msgDecodes env d p = true) :
    ∃ vars1, (decodeMsgs env d d.signingCtx.FileResolver pre vars).result = .next vars1 ∧
      ∀ rest, (decodeMsgs env d d.signingCtx.FileResolver (pre ++ rest) vars).result =
        (decodeMsgs env d d.signingCtx.FileResolver rest vars1).result := by
  induction pre generalizing vars with
  | nil => exact ⟨vars, rfl, fun _ => rfl⟩
  | cons p pre ih =>
    obtain ⟨vars1, h1⟩ := decodeMsg_of_decodes env d vars p (h p (List.mem_cons_self _ _))
    obtain ⟨vars2, h2, h3⟩ := ih vars1 (fun q hq => h q (List.mem_cons_of_mem _ hq))
    refine ⟨vars2, ?_, ?_⟩
    · simp only [decodeMsgs, h1]
      exact h2
    · intro rest
      simp only [List.cons_append, decodeMsgs, h1]
      exact h3 rest

/-- The loop stops at the first entry whose body returns. -/
theorem decodeMsgs_cons_ret (env : Env MD RM GM) (d : Decoder MD RM GM)
    (fileResolver : FileResolver MD) (anyMsg : AnyMsg) (rest : List AnyMsg)
    (vars : LoopVars RM GM) (val : Option (DecodedTx RM GM)) (err : Option GoError)
    (h : (decodeMsg env d fileResolver vars anyMsg).result = .ret val err) :
    (decodeMsgs env d fileResolver (anyMsg :: rest) vars).result = .ret val err := by
  simp [decodeMsgs, h]

/-- The result of `Decode` once the envelope stages have passed. -/
theorem Decode_of_envelope (env : Env MD RM GM) (d : Decoder MD RM GM) (txBytes : Bytes)
    (raw : TxRaw) (flag : Bool) (body : TxBody) (authInfo : AuthInfo)
    (h : envelopeStages env d txBytes = some (raw, flag, body, authInfo)) :
    (Decode env d txBytes).result =
      match (decodeMsgs env d d.signingCtx.FileResolver body.Messages
          { signers := none, reflectMsgs := none, msgs := none, seenSigners := [] }).result with
      | .ret val err => .returned val err
      | .panic reason => .panicked reason
      | .next vars => .returned (some (newDecodedTx raw flag body authInfo vars)) none := by
  unfold envelopeStages at h
  split at h
  · simp at h
  · rename_i h1
    split at h
    · simp at h
    · rename_i h2
      split at h
      · simp at h
      · rename_i raw1 h3
        split at h
        · simp at h
        · rename_i flag1 h4
          split at h
          · simp at h
          · rename_i body1 h5
            split at h
            · simp at h
            · rename_i h6
              split at h
              · simp at h
              · rename_i authInfo1 h7
                simp only [Option.some.injEq, Prod.mk.injEq] at h
                obtain ⟨rfl, rfl, rfl, rfl⟩ := h
                simp only [Decode, h1, h2, h3, h4, h5, h6, h7]
                split <;> rename_i hloop <;> simp [hloop, newDecodedTx]

/-- A successful `Decode` passed the envelope stages and decoded every entry. -/
theorem Decode_success_stages (env : Env MD RM GM) (d : Decoder MD RM GM) (txBytes : Bytes)
    (dtx : DecodedTx RM GM) (err : Option GoError)
    (h : (Decode env d txBytes).result = .returned (some dtx) err) :
    ∃ raw flag body authInfo vars,
      envelopeStages env d txBytes = some (raw, flag, body, authInfo) ∧
      (decodeMsgs env d d.signingCtx.FileResolver body.Messages
        { signers := none, reflectMsgs := none, msgs := none, seenSigners := [] }).result
        = .next vars ∧
      dtx = newDecodedTx raw flag body authInfo vars := by
  obtain ⟨raw, flag, body, authInfo, vars, h1, h2, h3, h4, h5, h6, h7, hloop, -, hdtx⟩ :=
    Decode_returned_some env d txBytes dtx err h
  exact ⟨raw, flag, body, authInfo, vars,
    by simp [envelopeStages, h1, h2, h3, h4, h5, h6, h7], hloop, hdtx⟩

/-- `Decode` when the strict scan of the root rejects. -/
theorem Decode_root_scan_rejects (env : Env MD RM GM) (d : Decoder MD RM GM)
    (txBytes : Bytes) (err : GoError)
    (h1 : env.rejectNonADR027TxRaw txBytes = none)
    (h2 : env.RejectUnknownFieldsStrict txBytes env.TxRawDescriptor d.signingCtx.FileResolver
      = some err) :
    Decode env d txBytes =
      ⟨[Call.rejectNonADR027TxRaw txBytes, Call.RejectUnknownFieldsStrict txBytes],
        .returned none (some (Wrap env.ErrTxDecode err.Error))⟩ := by
  simp [Decode, h1, h2]

/-- `Decode` when the lenient scan of the body rejects. -/
theorem Decode_body_scan_rejects (env : Env MD RM GM) (d : Decoder MD RM GM)
    (txBytes : Bytes) (raw : TxRaw) (flag : Bool) (err : GoError)
    (h1 : env.rejectNonADR027TxRaw txBytes = none)
    (h2 : env.RejectUnknownFieldsStrict txBytes env.TxRawDescriptor d.signingCtx.FileResolver
      = none)
    (h3 : env.unmarshalTxRaw txBytes = .ok raw)
    (h4 : env.RejectUnknownFields raw.BodyBytes env.TxBodyDescriptor true
      d.signingCtx.FileResolver = (flag, some err)) :
    Decode env d txBytes =
      ⟨[Call.rejectNonADR027TxRaw txBytes, Call.RejectUnknownFieldsStrict txBytes,
        Call.protoUnmarshal txBytes, Call.RejectUnknownFields raw.BodyBytes true],
        .returned none (some (Wrap env.ErrTxDecode err.Error))⟩ := by
  simp [Decode, h1, h2, h3, h4]

/-- `Decode` when the strict scan of the auth info rejects. -/
theorem Decode_auth_scan_rejects (env : Env MD RM GM) (d : Decoder MD RM GM)
    (txBytes : Bytes) (raw : TxRaw) (flag : Bool) (body : TxBody) (err : GoError)
    (h1 : env.rejectNonADR027TxRaw txBytes = none)
    (h2 : env.RejectUnknownFieldsStrict txBytes env.TxRawDescriptor d.signingCtx.FileResolver
      = none)
    (h3 : env.unmarshalTxRaw txBytes = .ok raw)
    (h4 : env.RejectUnknownFields raw.BodyBytes env.TxBodyDescriptor true
      d.signingCtx.FileResolver = (flag, none))
    (h5 : env.unmarshalTxBody raw.BodyBytes = .ok body)
    (h6 : env.RejectUnknownFieldsStrict raw.AuthInfoBytes env.AuthInfoDescriptor
      d.signingCtx.FileResolver = some err) :
    Decode env d txBytes =
      ⟨[Call.rejectNonADR027TxRaw txBytes, Call.RejectUnknownFieldsStrict txBytes,
        Call.protoUnmarshal txBytes, Call.RejectUnknownFields raw.BodyBytes true,
        Call.protoUnmarshal raw.BodyBytes, Call.RejectUnknownFieldsStrict raw.AuthInfoBytes],
        .returned none (some (Wrap env.ErrTxDecode err.Error))⟩ := by
  simp [Decode, h1, h2, h3, h4, h5, h6]

/-- The calls of the loop body: a prefix of the six calls made for an entry. -/
theorem decodeMsg_calls (env : Env MD RM GM) (d : Decoder MD RM GM)
    (fileResolver : FileResolver MD) (vars : LoopVars RM GM) (anyMsg : AnyMsg) :
    (decodeMsg env d fileResolver vars anyMsg).calls <+:
      [Call.FindDescriptorByName (TrimPrefix anyMsg.TypeUrl), Call.NewMessageType,
       Call.UnmarshalTo anyMsg, Call.Resolve (TrimPrefix anyMsg.TypeUrl),
       Call.codecUnmarshal anyMsg.Value, Call.GetSigners] := by
  unfold decodeMsg
  simp only
  repeat' split
  all_goals simp [List.IsPrefix]

/-- The calls of the loop: for each of them there is an entry of the body for
which it is one of the six calls of the loop body. -/
theorem decodeMsgs_calls (env : Env MD RM GM) (d : Decoder MD RM GM)
    (fileResolver : FileResolver MD) (anyMsgs : List AnyMsg) (vars : LoopVars RM GM)
    (c : Call) (hc : c ∈ (decodeMsgs env d fileResolver anyMsgs vars).calls) :
    ∃ anyMsg ∈ anyMsgs,
      c ∈ [Call.FindDescriptorByName (TrimPrefix anyMsg.TypeUrl), Call.NewMessageType,
           Call.UnmarshalTo anyMsg, Call.Resolve (TrimPrefix anyMsg.TypeUrl),
           Call.codecUnmarshal anyMsg.Value, Call.GetSigners] := by
  induction anyMsgs generalizing vars with
  | nil => simp [decodeMsgs] at hc
  | cons anyMsg rest ih =>
    have hbody := decodeMsg_calls env d fileResolver vars anyMsg
    unfold decodeMsgs at hc
    simp only at hc
    split at hc
    · rename_i vars1 hstep
      rcases List.mem_append.1 hc with h | h
      · exact ⟨anyMsg, List.mem_cons_self _ _, hbody.subset h⟩
      · obtain ⟨m, hm, hmem⟩ := ih vars1 h
        exact ⟨m, List.mem_cons_of_mem _ hm, hmem⟩
    · exact ⟨anyMsg, List.mem_cons_self _ _, hbody.subset hc⟩
    · exact ⟨anyMsg, List.mem_cons_self _ _, hbody.subset hc⟩

/-- The calls of `Decode`: the seven calls of the envelope stages, then the
calls of the loop. -/
theorem Decode_calls (env : Env MD RM GM) (d : Decoder MD RM GM) (txBytes : Bytes)
    (c : Call) (hc : c ∈ (Decode env d txBytes).calls) :
    c = Call.rejectNonADR027TxRaw txBytes ∨ c = Call.RejectUnknownFieldsStrict txBytes ∨
    c = Call.protoUnmarshal txBytes ∨
    ∃ raw, env.unmarshalTxRaw txBytes = .ok raw ∧
      (c = Call.RejectUnknownFields raw.BodyBytes true ∨
       c = Call.protoUnmarshal raw.BodyBytes ∨
       c = Call.RejectUnknownFieldsStrict raw.AuthInfoBytes ∨
       c = Call.protoUnmarshal raw.AuthInfoBytes ∨
       ∃ body, env.unmarshalTxBody raw.BodyBytes = .ok body ∧
         ∃ anyMsg ∈ body.Messages,
           c ∈ [Call.FindDescriptorByName (TrimPrefix anyMsg.TypeUrl), Call.NewMessageType,
                Call.UnmarshalTo anyMsg, Call.Resolve (TrimPrefix anyMsg.TypeUrl),
                Call.codecUnmarshal anyMsg.Value, Call.GetSigners]) := by
  unfold Decode at hc
  simp only at hc
  split at hc
  · simp only [List.mem_singleton] at hc
    exact Or.inl hc
  · split at hc
    · simp only [List.cons_append, List.nil_append, List.mem_cons, List.mem_singleton,
        List.not_mem_nil, or_false] at hc
      tauto
    · split at hc
      · simp only [List.cons_append, List.nil_append, List.mem_cons, List.mem_singleton,
          List.not_mem_nil, or_false] at hc
        tauto
      · rename_i raw h3
        have hloop : ∀ body, env.unmarshalTxBody raw.BodyBytes = .ok body →
            ∀ vars, c ∈ (decodeMsgs env d d.signingCtx.FileResolver body.Messages vars).calls →
            ∃ raw, env.unmarshalTxRaw txBytes = .ok raw ∧
              (c = Call.RejectUnknownFields raw.BodyBytes true ∨
               c = Call.protoUnmarshal raw.BodyBytes ∨
               c = Call.RejectUnknownFieldsStrict raw.AuthInfoBytes ∨
               c = Call.protoUnmarshal raw.AuthInfoBytes ∨
               ∃ body, env.unmarshalTxBody raw.BodyBytes = .ok body ∧
                 ∃ anyMsg ∈ body.Messages,
                   c ∈ [Call.FindDescriptorByName (TrimPrefix anyMsg.TypeUrl),
                        Call.NewMessageType, Call.UnmarshalTo anyMsg,
                        Call.Resolve (TrimPrefix anyMsg.TypeUrl),
                        Call.codecUnmarshal anyMsg.Value, Call.GetSigners]) := by
          intro body hbody vars hmem
          exact ⟨raw, h3, Or.inr (Or.inr (Or.inr (Or.inr
            ⟨body, hbody, decodeMsgs_calls env d _ body.Messages vars c hmem⟩)))⟩
        have henv : (c = Call.rejectNonADR027TxRaw txBytes ∨
            c = Call.RejectUnknownFieldsStrict txBytes ∨ c = Call.protoUnmarshal txBytes ∨
            c = Call.RejectUnknownFields raw.BodyBytes true ∨
            c = Call.protoUnmarshal raw.BodyBytes ∨
            c = Call.RejectUnknownFieldsStrict raw.AuthInfoBytes ∨
            c = Call.protoUnmarshal raw.AuthInfoBytes) →
            c = Call.rejectNonADR027TxRaw txBytes ∨
            c = Call.RejectUnknownFieldsStrict txBytes ∨ c = Call.protoUnmarshal txBytes ∨
            ∃ raw, env.unmarshalTxRaw txBytes = .ok raw ∧
              (c = Call.RejectUnknownFields raw.BodyBytes true ∨
               c = Call.protoUnmarshal raw.BodyBytes ∨
               c = Call.RejectUnknownFieldsStrict raw.AuthInfoBytes ∨
               c = Call.protoUnmarshal raw.AuthInfoBytes ∨
               ∃ body, env.unmarshalTxBody raw.BodyBytes = .ok body ∧
                 ∃ anyMsg ∈ body.Messages,
                   c ∈ [Call.FindDescriptorByName (TrimPrefix anyMsg.TypeUrl),
                        Call.NewMessageType, Call.UnmarshalTo anyMsg,
                        Call.Resolve (TrimPrefix anyMsg.TypeUrl),
                        Call.codecUnmarshal anyMsg.Value, Call.GetSigners]) := by
          intro h
          rcases h with h | h | h | h | h | h | h
          · exact Or.inl h
          · exact Or.inr (Or.inl h)
          · exact Or.inr (Or.inr (Or.inl h))
          · exact Or.inr (Or.inr (Or.inr ⟨raw, h3, Or.inl h⟩))
          · exact Or.inr (Or.inr (Or.inr ⟨raw, h3, Or.inr (Or.inl h)⟩))
          · exact Or.inr (Or.inr (Or.inr ⟨raw, h3, Or.inr (Or.inr (Or.inl h))⟩))
          · exact Or.inr (Or.inr (Or.inr ⟨raw, h3, Or.inr (Or.inr (Or.inr (Or.inl h)))⟩))
        split at hc
        · simp only [List.cons_append, List.nil_append, List.mem_cons, List.mem_singleton,
            List.not_mem_nil, or_false] at hc
          exact henv (by tauto)
        · split at hc
          · simp only [List.cons_append, List.nil_append, List.mem_cons, List.mem_singleton,
              List.not_mem_nil, or_false] at hc
            exact henv (by tauto)
          · rename_i body h5
            split at hc
            · simp only [List.cons_append, List.nil_append, List.mem_cons,
                List.mem_singleton, List.not_mem_nil, or_false] at hc
              exact henv (by tauto)
            · split at hc
              · simp only [List.cons_append, List.nil_append, List.mem_cons,
                  List.mem_singleton, List.not_mem_nil, or_false] at hc
                exact henv (by tauto)
              · have hsplit : c ∈ [Call.rejectNonADR027TxRaw txBytes,
                    Call.RejectUnknownFieldsStrict txBytes, Call.protoUnmarshal txBytes,
                    Call.RejectUnknownFields raw.BodyBytes true,
                    Call.protoUnmarshal raw.BodyBytes,
                    Call.RejectUnknownFieldsStrict raw.AuthInfoBytes,
                    Call.protoUnmarshal raw.AuthInfoBytes] ∨
                    c ∈ (decodeMsgs env d d.signingCtx.FileResolver body.Messages
                      { signers := none, reflectMsgs := none, msgs := none,
                        seenSigners := [] }).calls := by
                  split at hc <;>
                    simpa only [List.cons_append, List.nil_append, List.mem_append,
                      List.mem_cons, List.mem_singleton, List.not_mem_nil, or_false,
                      or_assoc] using hc
                rcases hsplit with h | h
                · simp only [List.mem_cons, List.mem_singleton, List.not_mem_nil,
                    or_false] at h
                  exact henv h
                · exact Or.inr (Or.inr (Or.inr (hloop body h5 _ h)))

/-! ## Claims about the unknown-field policy -/

/-- C11: strict rejection in the auth info, for the scanner that the spec
describes. When the stages before it pass and the records of the raw auth-info
bytes contain a field number that the `AuthInfo` descriptor does not declare,
whatever the wire type of that record, `Decode` returns no `DecodedTx` and the
error `ErrTxDecode` wrapped with the message of the scanner, without
deserializing the auth info. -/
theorem Decode_rejects_undeclared_auth_info_field (m : ScanModel MD) (env : Env MD RM GM)
    (d : Decoder MD RM GM) (txBytes : Bytes) (raw : TxRaw) (flag : Bool) (body : TxBody)
    (recs : List FieldRecord) (r : FieldRecord)
    (hscan : env.RejectUnknownFieldsStrict = RejectUnknownFieldsStrict m)
    (h1 : env.rejectNonADR027TxRaw txBytes = none)
    (h2 : env.RejectUnknownFieldsStrict txBytes env.TxRawDescriptor d.signingCtx.FileResolver
      = none)
    (h3 : env.unmarshalTxRaw txBytes = .ok raw)
    (h4 : env.RejectUnknownFields raw.BodyBytes env.TxBodyDescriptor true
      d.signingCtx.FileResolver = (flag, none))
    (h5 : env.unmarshalTxBody raw.BodyBytes = .ok body)
    (hrecs : m.records raw.AuthInfoBytes = .ok recs) (hr : r ∈ recs)
    (hund : m.field env.AuthInfoDescriptor r.number = none) :
    ∃ err : GoError,
      Decode env d txBytes =
        ⟨[Call.rejectNonADR027TxRaw txBytes, Call.RejectUnknownFieldsStrict txBytes,
          Call.protoUnmarshal txBytes, Call.RejectUnknownFields raw.BodyBytes true,
          Call.protoUnmarshal raw.BodyBytes,
          Call.RejectUnknownFieldsStrict raw.AuthInfoBytes],
          .returned none (some (Wrap env.ErrTxDecode err.Error))⟩ ∧
      (Wrap env.ErrTxDecode err.Error).Is env.ErrTxDecode = true := by
  obtain ⟨err, herr⟩ := RejectUnknownFields_rejects m d.signingCtx.FileResolver false
    raw.AuthInfoBytes env.AuthInfoDescriptor recs r hrecs hr hund (Or.inl rfl)
  have h6 : env.RejectUnknownFieldsStrict raw.AuthInfoBytes env.AuthInfoDescriptor
      d.signingCtx.FileResolver = some err := by
    rw [hscan]
    exact herr
  exact ⟨err, Decode_auth_scan_rejects env d txBytes raw flag body err h1 h2 h3 h4 h5 h6,
    by simp [Wrap, GoError.Is, GoError.Is_self]⟩

/-- C11, on the second world: the auth info carries a record with the field
number 9 and the wire type 7. -/
theorem Decode_rejects_undeclared_auth_info_field_witness :
    wireEnv.RejectUnknownFieldsStrict = RejectUnknownFieldsStrict wireModel ∧
    wireModel.records (wireAuth ++ [9, 7, 0]) =
      .ok [{ number := 2, wireType := 2, value := wireEncode 2 [50] },
           { number := 9, wireType := 7, value := [] }] ∧
    wireModel.field wireEnv.AuthInfoDescriptor 9 = none ∧
    ∃ err : GoError,
      Decode wireEnv wireDecoder (wireTx wireBody (wireAuth ++ [9, 7, 0])) =
        ⟨[Call.rejectNonADR027TxRaw (wireTx wireBody (wireAuth ++ [9, 7, 0])),
          Call.RejectUnknownFieldsStrict (wireTx wireBody (wireAuth ++ [9, 7, 0])),
          Call.protoUnmarshal (wireTx wireBody (wireAuth ++ [9, 7, 0])),
          Call.RejectUnknownFields wireBody true,
          Call.protoUnmarshal wireBody,
          Call.RejectUnknownFieldsStrict (wireAuth ++ [9, 7, 0])],
          .returned none (some (Wrap wireEnv.ErrTxDecode err.Error))⟩ ∧
      (Wrap wireEnv.ErrTxDecode err.Error).Is wireEnv.ErrTxDecode = true :=
  ⟨rfl, rfl, rfl,
    Decode_rejects_undeclared_auth_info_field wireModel wireEnv wireDecoder
      (wireTx wireBody (wireAuth ++ [9, 7, 0]))
      { BodyBytes := wireBody, AuthInfoBytes := wireAuth ++ [9, 7, 0], Signatures := [] }
      false wireBodyMsgs
      [{ number := 2, wireType := 2, value := wireEncode 2 [50] },
       { number := 9, wireType := 7, value := [] }]
      { number := 9, wireType := 7, value := [] }
      rfl rfl rfl rfl rfl rfl rfl (List.mem_cons_of_mem _ (List.mem_cons_self _ _)) rfl⟩

/-- C12: zero tolerance at the root, for the scanner that the spec describes.
When the records of the input contain a field number that the `TxRaw`
descriptor does not declare, in the non-critical range or not, `Decode` returns
no `DecodedTx` and an error that wraps `ErrTxDecode`, and no deserialization
has been called. -/
theorem Decode_rejects_undeclared_root_field (m : ScanModel MD) (env : Env MD RM GM)
    (d : Decoder MD RM GM) (txBytes : Bytes) (recs : List FieldRecord) (r : FieldRecord)
    (hscan : env.RejectUnknownFieldsStrict = RejectUnknownFieldsStrict m)
    (hrecs : m.records txBytes = .ok recs) (hr : r ∈ recs)
    (hund : m.field env.TxRawDescriptor r.number = none) :
    ∃ err : GoError,
      (Decode env d txBytes).result =
        .returned none (some (Wrap env.ErrTxDecode err.Error)) ∧
      (Wrap env.ErrTxDecode err.Error).Is env.ErrTxDecode = true ∧
      ∀ bz, Call.protoUnmarshal bz ∉ (Decode env d txBytes).calls := by
  cases h1 : env.rejectNonADR027TxRaw txBytes with
  | some err =>
    refine ⟨err, ?_, by simp [Wrap, GoError.Is, GoError.Is_self], ?_⟩
    · simp [Decode, h1]
    · intro bz
      simp [Decode, h1]
  | none =>
    obtain ⟨err, herr⟩ := RejectUnknownFields_rejects m d.signingCtx.FileResolver false
      txBytes env.TxRawDescriptor recs r hrecs hr hund (Or.inl rfl)
    have h2 : env.RejectUnknownFieldsStrict txBytes env.TxRawDescriptor
        d.signingCtx.FileResolver = some err := by
      rw [hscan]
      exact herr
    have hdec := Decode_root_scan_rejects env d txBytes err h1 h2
    refine ⟨err, by rw [hdec], by simp [Wrap, GoError.Is, GoError.Is_self], ?_⟩
    intro bz
    rw [hdec]
    simp

/-- C12, on the second world with a validator that accepts every input: the
root carries a record with the field number 200, of the non-critical range. -/
theorem Decode_rejects_undeclared_root_field_witness :
    wireEnvLax.RejectUnknownFieldsStrict = RejectUnknownFieldsStrict wireModel ∧
    wireModel.records (wireTx wireBody wireAuth ++ wireEncode 200 [1]) =
      .ok [{ number := 1, wireType := 2, value := wireBody },
           { number := 2, wireType := 2, value := wireAuth },
           { number := 200, wireType := 2, value := [1] }] ∧
    wireModel.field wireEnvLax.TxRawDescriptor 200 = none ∧
    wireModel.nonCritical 200 = true ∧
    Decode wireEnvLax wireDecoder (wireTx wireBody wireAuth ++ wireEncode 200 [1]) =
      ⟨[Call.rejectNonADR027TxRaw (wireTx wireBody wireAuth ++ wireEncode 200 [1]),
        Call.RejectUnknownFieldsStrict (wireTx wireBody wireAuth ++ wireEncode 200 [1])],
        .returned none (some (Wrap wireEnvLax.ErrTxDecode "unknown field"))⟩ ∧
    ∃ err : GoError,
      (Decode wireEnvLax wireDecoder (wireTx wireBody wireAuth ++ wireEncode 200 [1])).result =
        .returned none (some (Wrap wireEnvLax.ErrTxDecode err.Error)) ∧
      (Wrap wireEnvLax.ErrTxDecode err.Error).Is wireEnvLax.ErrTxDecode = true ∧
      ∀ bz, Call.protoUnmarshal bz ∉
        (Decode wireEnvLax wireDecoder (wireTx wireBody wireAuth ++ wireEncode 200 [1])).calls :=
  ⟨rfl, rfl, rfl, rfl, rfl,
    Decode_rejects_undeclared_root_field wireModel wireEnvLax wireDecoder
      (wireTx wireBody wireAuth ++ wireEncode 200 [1])
      [{ number := 1, wireType := 2, value := wireBody },
       { number := 2, wireType := 2, value := wireAuth },
       { number := 200, wireType := 2, value := [1] }]
      { number := 200, wireType := 2, value := [1] }
      rfl rfl
      (List.mem_cons_of_mem _ (List.mem_cons_of_mem _ (List.mem_cons_self _ _))) rfl⟩

/-- C13: lenient tolerance in the body, for the scanner that the spec
describes. (1) When a body passes the scan, the body with one more record,
whose field number is not declared and lies in the non-critical range, passes
it too, and a transaction with this body whose other stages pass is decoded
with `TxBodyHasUnknownNonCriticals = true`. (2) When the records of the body
contain a field number that is not declared and lies outside the non-critical
range, `Decode` fails with `ErrTxDecode`. (3) When `Decode` succeeds on a body
whose scan meets no undeclared field number, the flag is false. -/
theorem Decode_body_lenient_tolerance (m : ScanModel MD) (env : Env MD RM GM)
    (d : Decoder MD RM GM)
    (hscan : env.RejectUnknownFields = RejectUnknownFields m) :
    (∀ (txBytes : Bytes) (raw : TxRaw) (body : TxBody) (authInfo : AuthInfo)
      (pre post : List FieldRecord) (r : FieldRecord) (bodyWithout : Bytes),
      env.rejectNonADR027TxRaw txBytes = none →
      env.RejectUnknownFieldsStrict txBytes env.TxRawDescriptor d.signingCtx.FileResolver
        = none →
      env.unmarshalTxRaw txBytes = .ok raw →
      m.records bodyWithout = .ok (pre ++ post) →
      (RejectUnknownFields m bodyWithout env.TxBodyDescriptor true
        d.signingCtx.FileResolver).2 = none →
      m.records raw.BodyBytes = .ok (pre ++ r :: post) →
      m.field env.TxBodyDescriptor r.number = none →
      m.nonCritical r.number = true →
      env.unmarshalTxBody raw.BodyBytes = .ok body →
      env.RejectUnknownFieldsStrict raw.AuthInfoBytes env.AuthInfoDescriptor
        d.signingCtx.FileResolver = none →
      env.unmarshalAuthInfo raw.AuthInfoBytes = .ok authInfo →
      (∀ anyMsg ∈ body.Messages, msgDecodes env d anyMsg = true) →
      ∃ dtx : DecodedTx RM GM,
        (Decode env d txBytes).result = .returned (some dtx) none ∧
        dtx.TxBodyHasUnknownNonCriticals = true) ∧
    (∀ (txBytes : Bytes) (raw : TxRaw) (recs : List FieldRecord) (r : FieldRecord),
      env.rejectNonADR027TxRaw txBytes = none →
      env.RejectUnknownFieldsStrict txBytes env.TxRawDescriptor d.signingCtx.FileResolver
        = none →
      env.unmarshalTxRaw txBytes = .ok raw →
      m.records raw.BodyBytes = .ok recs → r ∈ recs →
      m.field env.TxBodyDescriptor r.number = none →
      m.nonCritical r.number = false →
      ∃ err : GoError,
        (Decode env d txBytes).result =
          .returned none (some (Wrap env.ErrTxDecode err.Error)) ∧
        (Wrap env.ErrTxDecode err.Error).Is env.ErrTxDecode = true) ∧
    (∀ (txBytes : Bytes) (dtx : DecodedTx RM GM) (raw : TxRaw),
      (Decode env d txBytes).result = .returned (some dtx) none →
      env.unmarshalTxRaw txBytes = .ok raw →
      ¬ MeetsUndeclared m d.signingCtx.FileResolver m.maxDepth raw.BodyBytes
          env.TxBodyDescriptor →
      dtx.TxBodyHasUnknownNonCriticals = false) := by
  refine ⟨?_, ?_, ?_⟩
  · intro txBytes raw body authInfo pre post r bodyWithout h1 h2 h3 hrecs0 hok hrecs1 hund
      hsafe h5 h6 h7 hmsgs
    have h4 : env.RejectUnknownFields raw.BodyBytes env.TxBodyDescriptor true
        d.signingCtx.FileResolver = (true, none) := by
      rw [hscan]
      exact RejectUnknownFields_insert m d.signingCtx.FileResolver env.TxBodyDescriptor
        bodyWithout raw.BodyBytes pre post r hrecs0 hrecs1 hund hsafe hok
    have henv : envelopeStages env d txBytes = some (raw, true, body, authInfo) := by
      simp [envelopeStages, h1, h2, h3, h4, h5, h6, h7]
    obtain ⟨vars, hloop, -⟩ := decodeMsgs_of_decodes env d body.Messages
      { signers := none, reflectMsgs := none, msgs := none, seenSigners := [] } hmsgs
    refine ⟨newDecodedTx raw true body authInfo vars, ?_, rfl⟩
    rw [Decode_of_envelope env d txBytes raw true body authInfo henv, hloop]
  · intro txBytes raw recs r h1 h2 h3 hrecs hr hund hcrit
    obtain ⟨err, herr⟩ := RejectUnknownFields_rejects m d.signingCtx.FileResolver true
      raw.BodyBytes env.TxBodyDescriptor recs r hrecs hr hund (Or.inr hcrit)
    have h4 : env.RejectUnknownFields raw.BodyBytes env.TxBodyDescriptor true
        d.signingCtx.FileResolver =
        ((RejectUnknownFields m raw.BodyBytes env.TxBodyDescriptor true
          d.signingCtx.FileResolver).1, some err) := by
      rw [hscan, ← herr]
    refine ⟨err, ?_, by simp [Wrap, GoError.Is, GoError.Is_self]⟩
    rw [Decode_body_scan_rejects env d txBytes raw _ err h1 h2 h3 h4]
  · intro txBytes dtx raw hdec hraw hnone
    obtain ⟨raw1, flag, body, authInfo, vars, -, -, h3, h4, -, -, -, -, -, hdtx⟩ :=
      Decode_returned_some env d txBytes dtx none hdec
    rw [hraw] at h3
    have hraw1 : raw = raw1 := Except.ok.inj h3
    subst hraw1
    rw [hdtx]
    simp only
    cases hflag : flag with
    | false => rfl
    | true =>
      exfalso
      apply hnone
      apply scanAtDepth_flag_true m d.signingCtx.FileResolver true
      rw [hscan, hflag] at h4
      have : (RejectUnknownFields m raw.BodyBytes env.TxBodyDescriptor true
          d.signingCtx.FileResolver).1 = true := by rw [h4]
      exact this

/-- The scan of the body `wireBody` of the second world meets no undeclared
field number. -/
theorem wireBody_meets_no_undeclared :
    ¬ MeetsUndeclared wireModel wireFileResolver 8 wireBody "TxBody" := by
  have hbody : wireModel.records wireBody =
      .ok [{ number := 1, wireType := 2, value := wireMsgM }] := rfl
  have hany : wireModel.records wireMsgM =
      .ok [{ number := 1, wireType := 2, value := [0x2F, 0x4D] },
           { number := 2, wireType := 2, value := wireEncode 1 [0xA1] }] := rfl
  intro h
  cases h with
  | here depth bz desc recs r hrecs hr hund =>
    rw [hbody] at hrecs
    have hrecs1 := Except.ok.inj hrecs
    subst hrecs1
    simp only [List.mem_singleton] at hr
    subst hr
    exact absurd hund (by decide)
  | nested depth bz desc recs r typeName md hrecs hr hkind hfind hnested =>
    rw [hbody] at hrecs
    have hrecs1 := Except.ok.inj hrecs
    subst hrecs1
    simp only [List.mem_singleton] at hr
    subst hr
    have hname : typeName = "Any" := by
      have h0 : wireModel.field "TxBody" 1 = some (.message "Any") := rfl
      simp only at hkind
      rw [h0] at hkind
      simp only [Option.some.injEq, FieldKind.message.injEq] at hkind
      exact hkind.symm
    subst hname
    have hmd : md = "Any" := by
      have h0 : wireFileResolver.FindDescriptorByName "Any" = .ok (.message "Any") := rfl
      rw [h0] at hfind
      simp only [Except.ok.injEq, Descriptor.message.injEq] at hfind
      exact hfind.symm
    subst hmd
    simp only at hnested
    cases hnested with
    | here depth bz desc recs r hrecs hr hund =>
      rw [hany] at hrecs
      have hrecs1 := Except.ok.inj hrecs
      subst hrecs1
      simp only [List.mem_cons, List.mem_singleton, List.not_mem_nil, or_false] at hr
      rcases hr with rfl | rfl
      · exact absurd hund (by decide)
      · exact absurd hund (by decide)
    | nested depth bz desc recs r typeName md hrecs hr hkind hfind hnested =>
      rw [hany] at hrecs
      have hrecs1 := Except.ok.inj hrecs
      subst hrecs1
      simp only [List.mem_cons, List.mem_singleton, List.not_mem_nil, or_false] at hr
      rcases hr with rfl | rfl
      · have h0 : wireModel.field "Any" 1 = some .scalar := rfl
        simp only at hkind
        rw [h0] at hkind
        simp at hkind
      · have h0 : wireModel.field "Any" 2 = some .scalar := rfl
        simp only at hkind
        rw [h0] at hkind
        simp at hkind

/-- C13, on the second world: the body with the added field 200 is decoded
with the flag raised, the body with the added field 9 is rejected, and the
body without an added field is decoded with the flag down. -/
theorem Decode_body_lenient_tolerance_witness :
    wireEnv.RejectUnknownFields = RejectUnknownFields wireModel ∧
    (∃ dtx : DecodedTx AnyMsg AnyMsg,
      (Decode wireEnv wireDecoder (wireTx (wireBody ++ wireEncode 200 [0]) wireAuth)).result
        = .returned (some dtx) none ∧
      dtx.TxBodyHasUnknownNonCriticals = true) ∧
    (∃ err : GoError,
      (Decode wireEnv wireDecoder (wireTx (wireBody ++ wireEncode 9 [0]) wireAuth)).result =
        .returned none (some (Wrap wireEnv.ErrTxDecode err.Error)) ∧
      (Wrap wireEnv.ErrTxDecode err.Error).Is wireEnv.ErrTxDecode = true) ∧
    wireDtx.TxBodyHasUnknownNonCriticals = false :=
  ⟨rfl,
    (Decode_body_lenient_tolerance wireModel wireEnv wireDecoder rfl).1
      (wireTx (wireBody ++ wireEncode 200 [0]) wireAuth)
      { BodyBytes := wireBody ++ wireEncode 200 [0], AuthInfoBytes := wireAuth,
        Signatures := [] }
      wireBodyMsgs wireAuthInfo
      [{ number := 1, wireType := 2, value := wireMsgM }] []
      { number := 200, wireType := 2, value := [0] } wireBody
      rfl rfl rfl rfl rfl rfl rfl rfl rfl rfl rfl
      (fun anyMsg h => by
        have h1 : anyMsg = { TypeUrl := "/M", Value := wireEncode 1 [0xA1] } :=
          List.mem_singleton.1 h
        rw [h1]
        rfl),
    (Decode_body_lenient_tolerance wireModel wireEnv wireDecoder rfl).2.1
      (wireTx (wireBody ++ wireEncode 9 [0]) wireAuth)
      { BodyBytes := wireBody ++ wireEncode 9 [0], AuthInfoBytes := wireAuth,
        Signatures := [] }
      [{ number := 1, wireType := 2, value := wireMsgM },
       { number := 9, wireType := 2, value := [0] }]
      { number := 9, wireType := 2, value := [0] }
      rfl rfl rfl rfl (List.mem_cons_of_mem _ (List.mem_cons_self _ _)) rfl rfl,
    (Decode_body_lenient_tolerance wireModel wireEnv wireDecoder rfl).2.2
      (wireTx wireBody wireAuth) _
      { BodyBytes := wireBody, AuthInfoBytes := wireAuth, Signatures := [] }
      rfl rfl wireBody_meets_no_undeclared⟩

/-! ## Lemmas about acceptance -/

theorem isSome_of_map_eq_map_some {α β : Type} (f : α → Option β) (l : List α) (l1 : List β)
    (h : l.map f = l1.map some) (a : α) (ha : a ∈ l) : (f a).isSome = true := by
  induction l generalizing l1 with
  | nil => simp at ha
  | cons x xs ih =>
    cases l1 with
    | nil => simp at h
    | cons y ys =>
      simp only [List.map_cons, List.cons.injEq] at h
      rcases List.mem_cons.1 ha with rfl | hin
      · rw [h.1]; rfl
      · exact ih ys h.2 hin

/-- `Decode` accepts a transaction exactly when the envelope stages pass and
every entry of the body is decoded without failure. -/
theorem Decode_accepts_iff (env : Env MD RM GM) (d : Decoder MD RM GM) (txBytes : Bytes) :
    (∃ dtx, (Decode env d txBytes).result = .returned (some dtx) none) ↔
    ∃ raw flag body authInfo,
      envelopeStages env d txBytes = some (raw, flag, body, authInfo) ∧
      ∀ anyMsg ∈ body.Messages, msgDecodes env d anyMsg = true := by
  constructor
  · rintro ⟨dtx, hdec⟩
    obtain ⟨raw, flag, body, authInfo, vars, henv, hloop, -⟩ :=
      Decode_success_stages env d txBytes dtx none hdec
    obtain ⟨dyns, gms, sss, h1, h2, h3, -⟩ := decodeMsgs_next env d body.Messages _ vars hloop
    refine ⟨raw, flag, body, authInfo, henv, ?_⟩
    intro anyMsg hmem
    simp only [msgDecodes, Bool.and_eq_true]
    exact ⟨⟨isSome_of_map_eq_map_some _ _ _ h1 anyMsg hmem,
      isSome_of_map_eq_map_some _ _ _ h2 anyMsg hmem⟩,
      isSome_of_map_eq_map_some _ _ _ h3 anyMsg hmem⟩
  · rintro ⟨raw, flag, body, authInfo, henv, hmsgs⟩
    obtain ⟨vars, hloop, -⟩ := decodeMsgs_of_decodes env d body.Messages
      { signers := none, reflectMsgs := none, msgs := none, seenSigners := [] } hmsgs
    refine ⟨newDecodedTx raw flag body authInfo vars, ?_⟩
    rw [Decode_of_envelope env d txBytes raw flag body authInfo henv, hloop]

/-- An entry of the body of an accepted transaction is decoded without failure. -/
theorem Decode_accepted_entry_decodes (env : Env MD RM GM) (d : Decoder MD RM GM)
    (txBytes : Bytes) (dtx : DecodedTx RM GM) (raw : TxRaw) (flag : Bool) (body : TxBody)
    (authInfo : AuthInfo) (anyMsg : AnyMsg)
    (hdec : (Decode env d txBytes).result = .returned (some dtx) none)
    (henv : envelopeStages env d txBytes = some (raw, flag, body, authInfo))
    (hmem : anyMsg ∈ body.Messages) :
    msgDecodes env d anyMsg = true := by
  obtain ⟨raw1, flag1, body1, authInfo1, henv1, hmsgs⟩ :=
    (Decode_accepts_iff env d txBytes).1 ⟨dtx, hdec⟩
  rw [henv] at henv1
  simp only [Option.some.injEq, Prod.mk.injEq] at henv1
  obtain ⟨-, -, hbody, -⟩ := henv1
  subst hbody
  exact hmsgs anyMsg hmem

/-! ## Claims about the entries of the body -/

/-- C14, as the code has it: `Decode` asks for three scans only, the strict
scan of the input, the lenient scan of the body bytes and the strict scan of
the auth-info bytes, and none of a message payload; it accepts a transaction
exactly when the envelope stages pass and, for every entry of the body, the
descriptor lookup, `UnmarshalTo`, the resolver, the codec and the signing
context succeed. -/
theorem Decode_scans_and_acceptance (env : Env MD RM GM) (d : Decoder MD RM GM)
    (txBytes : Bytes) :
    (∀ bz, Call.RejectUnknownFieldsStrict bz ∈ (Decode env d txBytes).calls →
      bz = txBytes ∨ ∃ raw, env.unmarshalTxRaw txBytes = .ok raw ∧ bz = raw.AuthInfoBytes) ∧
    (∀ bz allow, Call.RejectUnknownFields bz allow ∈ (Decode env d txBytes).calls →
      allow = true ∧ ∃ raw, env.unmarshalTxRaw txBytes = .ok raw ∧ bz = raw.BodyBytes) ∧
    ((∃ dtx, (Decode env d txBytes).result = .returned (some dtx) none) ↔
      ∃ raw flag body authInfo,
        envelopeStages env d txBytes = some (raw, flag, body, authInfo) ∧
        ∀ anyMsg ∈ body.Messages,
          (dynamicMsgOf env d anyMsg).isSome = true ∧ (concreteMsgOf d anyMsg).isSome = true ∧
            (signersOfMsg env d anyMsg).isSome = true) := by
  refine ⟨?_, ?_, ?_⟩
  · intro bz hmem
    rcases Decode_calls env d txBytes _ hmem with h | h | h | ⟨raw, hraw, h⟩
    · simp at h
    · simp only [Call.RejectUnknownFieldsStrict.injEq] at h
      exact Or.inl h
    · simp at h
    · rcases h with h | h | h | h | ⟨body, -, anyMsg, -, h⟩
      · simp at h
      · simp at h
      · simp only [Call.RejectUnknownFieldsStrict.injEq] at h
        exact Or.inr ⟨raw, hraw, h⟩
      · simp at h
      · simp at h
  · intro bz allow hmem
    rcases Decode_calls env d txBytes _ hmem with h | h | h | ⟨raw, hraw, h⟩
    · simp at h
    · simp at h
    · simp at h
    · rcases h with h | h | h | h | ⟨body, -, anyMsg, -, h⟩
      · simp only [Call.RejectUnknownFields.injEq] at h
        exact ⟨h.2, raw, hraw, h.1⟩
      · simp at h
      · simp at h
      · simp at h
      · simp at h
  · rw [Decode_accepts_iff]
    simp only [msgDecodes, Bool.and_eq_true, and_assoc]

/-- C14 fails as stated: in the second world the payload of the only message,
of type `M`, carries the field number 200, which the descriptor of `M` does not
declare, and `Decode` accepts the transaction. -/
theorem Decode_accepts_undeclared_payload_field :
    wireModel.records (wireEncode 1 [0xA1] ++ wireEncode 200 [7]) =
      .ok [{ number := 1, wireType := 2, value := [0xA1] },
           { number := 200, wireType := 2, value := [7] }] ∧
    wireFileResolver.FindDescriptorByName (TrimPrefix "/M") = .ok (.message "M") ∧
    wireModel.field "M" 200 = none ∧
    (Decode wireEnv wireDecoder
      (wireTx (wireEncode 1 (wireAny "/M" (wireEncode 1 [0xA1] ++ wireEncode 200 [7])))
        wireAuth)).result =
      .returned (some (newDecodedTx
        { BodyBytes := wireEncode 1 (wireAny "/M" (wireEncode 1 [0xA1] ++ wireEncode 200 [7])),
          AuthInfoBytes := wireAuth, Signatures := [] }
        false
        { Messages := [{ TypeUrl := "/M", Value := wireEncode 1 [0xA1] ++ wireEncode 200 [7] }],
          Memo := "", TimeoutHeight := 0, ExtensionOptions := [] }
        wireAuthInfo
        { signers := some [[0xA1]],
          reflectMsgs := some [{ TypeUrl := "M",
                                 Value := wireEncode 1 [0xA1] ++ wireEncode 200 [7] }],
          msgs := some [{ TypeUrl := "M", Value := wireEncode 1 [0xA1] ++ wireEncode 200 [7] }],
          seenSigners := [[0xA1]] })) none :=
  ⟨rfl, rfl, rfl, rfl⟩

/-- C15, as the code has it: when the envelope stages pass and the descriptor
lookup fails for an entry of the body, `Decode` returns no `DecodedTx`; when
moreover the entries before it are decoded without failure, the error returned
is the descriptor-not-found error, which names the type identifier of the
entry and wraps the error of the registry. -/
theorem Decode_missing_descriptor (env : Env MD RM GM) (d : Decoder MD RM GM)
    (txBytes : Bytes) (raw : TxRaw) (flag : Bool) (body : TxBody) (authInfo : AuthInfo)
    (anyMsg : AnyMsg) (err : GoError)
    (henv : envelopeStages env d txBytes = some (raw, flag, body, authInfo))
    (hmem : anyMsg ∈ body.Messages)
    (hfind : d.signingCtx.FileResolver.FindDescriptorByName (TrimPrefix anyMsg.TypeUrl)
      = .error err) :
    (∀ dtx, (Decode env d txBytes).result ≠ .returned (some dtx) none) ∧
    ∀ pre post, body.Messages = pre ++ anyMsg :: post →
      (∀ p ∈ pre, msgDecodes env d p = true) →
      (Decode env d txBytes).result =
        .returned none (some (GoError.errorf
          ("protoFiles does not have descriptor " ++ anyMsg.TypeUrl ++ ": " ++ err.Error)
          err)) ∧
      (GoError.errorf
          ("protoFiles does not have descriptor " ++ anyMsg.TypeUrl ++ ": " ++ err.Error)
          err).Is err = true := by
  constructor
  · intro dtx hdec
    have h := Decode_accepted_entry_decodes env d txBytes dtx raw flag body authInfo anyMsg
      hdec henv hmem
    simp only [msgDecodes, Bool.and_eq_true, Option.isSome_iff_exists] at h
    obtain ⟨⟨⟨dyn, hdyn⟩, -⟩, -⟩ := h
    obtain ⟨msgDesc, hfind1, -⟩ := dynamicMsgOf_some env d anyMsg dyn hdyn
    rw [hfind] at hfind1
    simp at hfind1
  · intro pre post hsplit hpre
    obtain ⟨vars1, -, hrest⟩ := decodeMsgs_of_decodes env d pre
      { signers := none, reflectMsgs := none, msgs := none, seenSigners := [] } hpre
    refine ⟨?_, by simp [GoError.Is, GoError.Is_self]⟩
    rw [Decode_of_envelope env d txBytes raw flag body authInfo henv, hsplit, hrest,
      decodeMsgs_cons_ret env d _ anyMsg post vars1 none _
        (by rw [decodeMsg_lookup_fails env d _ vars1 anyMsg err hfind])]

/-- C15, on the second world: a message of type `M`, then a message of the
unknown type `X`. -/
theorem Decode_missing_descriptor_witness :
    envelopeStages wireEnv wireDecoder (wireTx (wireEncode 1 wireMsgM ++ wireEncode 1 wireMsgX)
        wireAuth) =
      some (wireRawOf (wireEncode 1 wireMsgM ++ wireEncode 1 wireMsgX), false,
        wireBodyOf [{ TypeUrl := "/M", Value := wireEncode 1 [0xA1] },
                    { TypeUrl := "/X", Value := [] }], wireAuthInfo) ∧
    wireDecoder.signingCtx.FileResolver.FindDescriptorByName (TrimPrefix "/X")
      = .error (GoError.new "not found") ∧
    (Decode wireEnv wireDecoder (wireTx (wireEncode 1 wireMsgM ++ wireEncode 1 wireMsgX)
        wireAuth)).result =
      .returned none (some (GoError.errorf
        "protoFiles does not have descriptor /X: not found" (GoError.new "not found"))) ∧
    (GoError.errorf "protoFiles does not have descriptor /X: not found"
      (GoError.new "not found")).Is (GoError.new "not found") = true :=
  ⟨rfl, rfl,
    (Decode_missing_descriptor wireEnv wireDecoder
      (wireTx (wireEncode 1 wireMsgM ++ wireEncode 1 wireMsgX) wireAuth)
      (wireRawOf (wireEncode 1 wireMsgM ++ wireEncode 1 wireMsgX)) false
      (wireBodyOf [{ TypeUrl := "/M", Value := wireEncode 1 [0xA1] },
                   { TypeUrl := "/X", Value := [] }]) wireAuthInfo
      { TypeUrl := "/X", Value := [] } (GoError.new "not found") rfl
      (List.mem_cons_of_mem _ (List.mem_cons_self _ _)) rfl).2
      [{ TypeUrl := "/M", Value := wireEncode 1 [0xA1] }] [] rfl
      (fun p h => by
        have h1 : p = { TypeUrl := "/M", Value := wireEncode 1 [0xA1] } :=
          List.mem_singleton.1 h
        rw [h1]
        rfl)⟩

/-- C15 fails as stated: in the second world the transaction passes the
envelope stages and its second entry has the type `X`, which has no descriptor,
but its first entry, of type `R`, is not resolved to a concrete type, and the
error that `Decode` returns is the one of the resolver, not a
descriptor-not-found error naming `/X`. -/
theorem Decode_missing_descriptor_not_reported :
    envelopeStages wireEnv wireDecoder (wireTx (wireEncode 1 wireMsgR ++ wireEncode 1 wireMsgX)
        wireAuth) =
      some (wireRawOf (wireEncode 1 wireMsgR ++ wireEncode 1 wireMsgX), false,
        wireBodyOf [{ TypeUrl := "/R", Value := wireEncode 1 [0xA1] },
                    { TypeUrl := "/X", Value := [] }], wireAuthInfo) ∧
    wireDecoder.signingCtx.FileResolver.FindDescriptorByName (TrimPrefix "/X")
      = .error (GoError.new "not found") ∧
    (Decode wireEnv wireDecoder (wireTx (wireEncode 1 wireMsgR ++ wireEncode 1 wireMsgX)
        wireAuth)).result =
      .returned none (some (GoError.new "unable to resolve type URL")) ∧
    GoError.new "unable to resolve type URL" ≠
      GoError.errorf "protoFiles does not have descriptor /X: not found"
        (GoError.new "not found") :=
  ⟨rfl, rfl, rfl, by decide⟩

/-- C16, as the code has it: the name that `Decode` looks up in the file
resolver and gives to the concrete resolver for an entry of the body is
`TrimPrefix` of the type identifier of the entry, which is the identifier
without its first character when that is `/`, and the identifier itself
otherwise. -/
theorem lookup_name_is_TrimPrefix (env : Env MD RM GM) (d : Decoder MD RM GM)
    (txBytes : Bytes) :
    (∀ name, (Call.FindDescriptorByName name ∈ (Decode env d txBytes).calls ∨
        Call.Resolve name ∈ (Decode env d txBytes).calls) →
      ∃ raw body anyMsg, env.unmarshalTxRaw txBytes = .ok raw ∧
        env.unmarshalTxBody raw.BodyBytes = .ok body ∧ anyMsg ∈ body.Messages ∧
        name = TrimPrefix anyMsg.TypeUrl) ∧
    (∀ (fileResolver : FileResolver MD) (vars : LoopVars RM GM) (anyMsg : AnyMsg),
      (decodeMsg env d fileResolver vars anyMsg).calls.head? =
        some (Call.FindDescriptorByName (TrimPrefix anyMsg.TypeUrl))) ∧
    (∀ (typeUrl : String) (rest : List Char), typeUrl.data = '/' :: rest →
      TrimPrefix typeUrl = String.mk rest) ∧
    (∀ typeUrl : String, typeUrl.data.head? ≠ some '/' → TrimPrefix typeUrl = typeUrl) := by
  refine ⟨?_, ?_, ?_, ?_⟩
  · intro name hname
    have key : ∀ c, (c = Call.FindDescriptorByName name ∨ c = Call.Resolve name) →
        c ∈ (Decode env d txBytes).calls →
        ∃ raw body anyMsg, env.unmarshalTxRaw txBytes = .ok raw ∧
          env.unmarshalTxBody raw.BodyBytes = .ok body ∧ anyMsg ∈ body.Messages ∧
          name = TrimPrefix anyMsg.TypeUrl := by
      intro c hc hmem
      rcases Decode_calls env d txBytes c hmem with h | h | h | ⟨raw, hraw, h⟩
      · rcases hc with rfl | rfl <;> simp at h
      · rcases hc with rfl | rfl <;> simp at h
      · rcases hc with rfl | rfl <;> simp at h
      · rcases h with h | h | h | h | ⟨body, hbody, anyMsg, hin, h⟩
        · rcases hc with rfl | rfl <;> simp at h
        · rcases hc with rfl | rfl <;> simp at h
        · rcases hc with rfl | rfl <;> simp at h
        · rcases hc with rfl | rfl <;> simp at h
        · refine ⟨raw, body, anyMsg, hraw, hbody, hin, ?_⟩
          rcases hc with rfl | rfl <;> simpa using h
    rcases hname with h | h
    · exact key _ (Or.inl rfl) h
    · exact key _ (Or.inr rfl) h
  · intro fileResolver vars anyMsg
    unfold decodeMsg
    simp only
    repeat' split
    all_goals rfl
  · intro typeUrl rest h
    simp [TrimPrefix, h]
  · intro typeUrl h
    unfold TrimPrefix
    split
    · rename_i rest hdata
      rw [hdata] at h
      simp at h
    · rfl

/-- C16 fails as stated: in the second world the only entry has the type
identifier `type.googleapis.com/M`, whose bare schema name is `M`, a registered
message type; the name that `Decode` looks up is the whole identifier, and the
lookup fails. -/
theorem lookup_name_keeps_path :
    bareSchemaName "type.googleapis.com/M" = "M" ∧
    wireFileResolver.FindDescriptorByName "M" = .ok (.message "M") ∧
    TrimPrefix "type.googleapis.com/M" = "type.googleapis.com/M" ∧
    Decode wireEnv wireDecoder
        (wireTx (wireEncode 1 (wireAny "type.googleapis.com/M" (wireEncode 1 [0xA1])))
          wireAuth) =
      ⟨[Call.rejectNonADR027TxRaw
          (wireTx (wireEncode 1 (wireAny "type.googleapis.com/M" (wireEncode 1 [0xA1])))
            wireAuth),
        Call.RejectUnknownFieldsStrict
          (wireTx (wireEncode 1 (wireAny "type.googleapis.com/M" (wireEncode 1 [0xA1])))
            wireAuth),
        Call.protoUnmarshal
          (wireTx (wireEncode 1 (wireAny "type.googleapis.com/M" (wireEncode 1 [0xA1])))
            wireAuth),
        Call.RejectUnknownFields
          (wireEncode 1 (wireAny "type.googleapis.com/M" (wireEncode 1 [0xA1]))) true,
        Call.protoUnmarshal
          (wireEncode 1 (wireAny "type.googleapis.com/M" (wireEncode 1 [0xA1]))),
        Call.RejectUnknownFieldsStrict wireAuth,
        Call.protoUnmarshal wireAuth,
        Call.FindDescriptorByName "type.googleapis.com/M"],
        .returned none (some (GoError.errorf
          "protoFiles does not have descriptor type.googleapis.com/M: not found"
          (GoError.new "not found")))⟩ :=
  ⟨by decide, rfl, rfl, rfl⟩

/-- C17, as the code has it: when the envelope stages pass and the signing
context returns an error for the dynamic message of an entry of the body,
`Decode` returns no `DecodedTx`; when moreover the entries before it are
decoded without failure and the concrete resolution of the entry, which
`Decode` does before the signer extraction, succeeds, the error returned is
`ErrTxDecode` wrapped with the message of the extraction error. -/
theorem Decode_signer_extraction_fails (env : Env MD RM GM) (d : Decoder MD RM GM)
    (txBytes : Bytes) (raw : TxRaw) (flag : Bool) (body : TxBody) (authInfo : AuthInfo)
    (anyMsg : AnyMsg) (dynamicMsg : RM) (err : GoError)
    (henv : envelopeStages env d txBytes = some (raw, flag, body, authInfo))
    (hmem : anyMsg ∈ body.Messages)
    (hdyn : dynamicMsgOf env d anyMsg = some dynamicMsg)
    (hget : d.signingCtx.GetSigners dynamicMsg = .error err) :
    (∀ dtx, (Decode env d txBytes).result ≠ .returned (some dtx) none) ∧
    ∀ pre post msg, body.Messages = pre ++ anyMsg :: post →
      (∀ p ∈ pre, msgDecodes env d p = true) →
      concreteMsgOf d anyMsg = some msg →
      (Decode env d txBytes).result =
        .returned none (some (Wrap env.ErrTxDecode err.Error)) ∧
      (Wrap env.ErrTxDecode err.Error).Is env.ErrTxDecode = true := by
  constructor
  · intro dtx hdec
    have h := Decode_accepted_entry_decodes env d txBytes dtx raw flag body authInfo anyMsg
      hdec henv hmem
    simp only [msgDecodes, Bool.and_eq_true, Option.isSome_iff_exists] at h
    obtain ⟨-, ⟨ss, hss⟩⟩ := h
    obtain ⟨dyn1, hdyn1, hget1⟩ := signersOfMsg_some env d anyMsg ss hss
    rw [hdyn] at hdyn1
    simp only [Option.some.injEq] at hdyn1
    subst hdyn1
    rw [hget] at hget1
    simp at hget1
  · intro pre post msg hsplit hpre hmsg
    obtain ⟨vars1, -, hrest⟩ := decodeMsgs_of_decodes env d pre
      { signers := none, reflectMsgs := none, msgs := none, seenSigners := [] } hpre
    refine ⟨?_, by simp [Wrap, GoError.Is, GoError.Is_self]⟩
    rw [Decode_of_envelope env d txBytes raw flag body authInfo henv, hsplit, hrest,
      decodeMsgs_cons_ret env d _ anyMsg post vars1 none _
        (decodeMsg_signers_fail env d vars1 anyMsg dynamicMsg msg err hdyn hmsg hget)]

/-- C17, on the second world: a message of type `M`, then a message of type
`S`, which has no signer rule. -/
theorem Decode_signer_extraction_fails_witness :
    envelopeStages wireEnv wireDecoder (wireTx (wireEncode 1 wireMsgM ++ wireEncode 1 wireMsgS)
        wireAuth) =
      some (wireRawOf (wireEncode 1 wireMsgM ++ wireEncode 1 wireMsgS), false,
        wireBodyOf [{ TypeUrl := "/M", Value := wireEncode 1 [0xA1] },
                    { TypeUrl := "/S", Value := wireEncode 1 [0xA1] }], wireAuthInfo) ∧
    dynamicMsgOf wireEnv wireDecoder { TypeUrl := "/S", Value := wireEncode 1 [0xA1] } =
      some { TypeUrl := "S", Value := wireEncode 1 [0xA1] } ∧
    wireDecoder.signingCtx.GetSigners { TypeUrl := "S", Value := wireEncode 1 [0xA1] } =
      .error (GoError.new "no signer rule") ∧
    (Decode wireEnv wireDecoder (wireTx (wireEncode 1 wireMsgM ++ wireEncode 1 wireMsgS)
        wireAuth)).result =
      .returned none (some (Wrap wireEnv.ErrTxDecode (GoError.new "no signer rule").Error)) ∧
    (Wrap wireEnv.ErrTxDecode (GoError.new "no signer rule").Error).Is wireEnv.ErrTxDecode
      = true :=
  ⟨rfl, rfl, rfl,
    (Decode_signer_extraction_fails wireEnv wireDecoder
      (wireTx (wireEncode 1 wireMsgM ++ wireEncode 1 wireMsgS) wireAuth)
      (wireRawOf (wireEncode 1 wireMsgM ++ wireEncode 1 wireMsgS)) false
      (wireBodyOf [{ TypeUrl := "/M", Value := wireEncode 1 [0xA1] },
                   { TypeUrl := "/S", Value := wireEncode 1 [0xA1] }]) wireAuthInfo
      { TypeUrl := "/S", Value := wireEncode 1 [0xA1] }
      { TypeUrl := "S", Value := wireEncode 1 [0xA1] } (GoError.new "no signer rule") rfl
      (List.mem_cons_of_mem _ (List.mem_cons_self _ _)) rfl rfl).2
      [{ TypeUrl := "/M", Value := wireEncode 1 [0xA1] }] []
      { TypeUrl := "S", Value := wireEncode 1 [0xA1] } rfl
      (fun p h => by
        have h1 : p = { TypeUrl := "/M", Value := wireEncode 1 [0xA1] } :=
          List.mem_singleton.1 h
        rw [h1]
        rfl)
      rfl⟩

/-- C17 fails as stated: in the second world the only entry has the type `R`,
for which the signing context has no rule and which the resolver does not
resolve; `Decode` resolves before it extracts the signers, and the error that it
returns is the one of the resolver, which does not wrap `ErrTxDecode`. -/
theorem Decode_signer_error_not_reported :
    dynamicMsgOf wireEnv wireDecoder { TypeUrl := "/R", Value := wireEncode 1 [0xA1] } =
      some { TypeUrl := "R", Value := wireEncode 1 [0xA1] } ∧
    wireDecoder.signingCtx.GetSigners { TypeUrl := "R", Value := wireEncode 1 [0xA1] } =
      .error (GoError.new "no signer rule") ∧
    (Decode wireEnv wireDecoder (wireTx (wireEncode 1 wireMsgR) wireAuth)).result =
      .returned none (some (GoError.new "unable to resolve type URL")) ∧
    (GoError.new "unable to resolve type URL").Is wireEnv.ErrTxDecode = false ∧
    GoError.new "unable to resolve type URL" ≠
      Wrap wireEnv.ErrTxDecode (GoError.new "no signer rule").Error :=
  ⟨rfl, rfl, rfl, rfl, by decide⟩

theorem concreteMsgOf_none_of_fails (d : Decoder MD RM GM) (anyMsg : AnyMsg) (err : GoError)
    (h : d.resolver.Resolve (TrimPrefix anyMsg.TypeUrl) = .error err ∨
      ∃ msg0, d.resolver.Resolve (TrimPrefix anyMsg.TypeUrl) = .ok msg0 ∧
        d.codec.Unmarshal anyMsg.Value msg0 = .error err) :
    concreteMsgOf d anyMsg = none := by
  rcases h with h | ⟨msg0, h1, h2⟩
  · simp [concreteMsgOf, h]
  · simp [concreteMsgOf, h1, h2]

/-- The concrete messages of an accepted transaction, entry by entry. -/
theorem Decode_messages (env : Env MD RM GM) (d : Decoder MD RM GM) (txBytes : Bytes)
    (dtx : DecodedTx RM GM) (h : (Decode env d txBytes).result = .returned (some dtx) none) :
    ∃ (raw : TxRaw) (body : TxBody),
      env.unmarshalTxRaw txBytes = .ok raw ∧
      env.unmarshalTxBody raw.BodyBytes = .ok body ∧
      body.Messages.map (concreteMsgOf d) = (Slice.toList dtx.Messages).map some := by
  obtain ⟨raw, flag, body, authInfo, vars, -, -, h3, -, h5, -, -, hloop, -, hdtx⟩ :=
    Decode_returned_some env d txBytes dtx none h
  obtain ⟨dyns, gms, sss, -, h2, -, -, hmsgs, -⟩ :=
    decodeMsgs_next env d body.Messages _ vars hloop
  refine ⟨raw, body, h3, h5, ?_⟩
  rw [hdtx]
  simp only
  rw [hmsgs, goAppendAll_toList, h2]
  simp [Slice.toList]

/-- C18, as the code has it. (1) When the envelope stages pass and, for an
entry of the body, the resolver does not resolve the type identifier or the
codec does not decode the payload into the prototype, `Decode` returns no
`DecodedTx`; when moreover the entries before it are decoded without failure
and the dynamic message of the entry is built, the error returned is the error
of the resolver or of the codec, unchanged. (2) When `Decode` succeeds,
`Messages` has one entry for each entry of the body, and the entry at index `i`
is the prototype resolved for the type identifier at index `i`, filled by the
codec from the payload at index `i`. -/
theorem Decode_concrete_resolution (env : Env MD RM GM) (d : Decoder MD RM GM)
    (txBytes : Bytes) :
    (∀ (raw : TxRaw) (flag : Bool) (body : TxBody) (authInfo : AuthInfo) (anyMsg : AnyMsg)
      (err : GoError),
      envelopeStages env d txBytes = some (raw, flag, body, authInfo) →
      anyMsg ∈ body.Messages →
      (d.resolver.Resolve (TrimPrefix anyMsg.TypeUrl) = .error err ∨
        ∃ msg0, d.resolver.Resolve (TrimPrefix anyMsg.TypeUrl) = .ok msg0 ∧
          d.codec.Unmarshal anyMsg.Value msg0 = .error err) →
      (∀ dtx, (Decode env d txBytes).result ≠ .returned (some dtx) none) ∧
      ∀ pre post dynamicMsg, body.Messages = pre ++ anyMsg :: post →
        (∀ p ∈ pre, msgDecodes env d p = true) →
        dynamicMsgOf env d anyMsg = some dynamicMsg →
        (Decode env d txBytes).result = .returned none (some err)) ∧
    (∀ dtx : DecodedTx RM GM, (Decode env d txBytes).result = .returned (some dtx) none →
      ∃ (raw : TxRaw) (body : TxBody),
        env.unmarshalTxRaw txBytes = .ok raw ∧
        env.unmarshalTxBody raw.BodyBytes = .ok body ∧
        (Slice.toList dtx.Messages).length = body.Messages.length ∧
        ∀ (i : Nat) (hi : i < body.Messages.length)
          (hj : i < (Slice.toList dtx.Messages).length),
          ∃ msg0,
            d.resolver.Resolve (TrimPrefix (body.Messages.get ⟨i, hi⟩).TypeUrl) = .ok msg0 ∧
            d.codec.Unmarshal (body.Messages.get ⟨i, hi⟩).Value msg0 =
              .ok ((Slice.toList dtx.Messages).get ⟨i, hj⟩)) := by
  constructor
  · intro raw flag body authInfo anyMsg err henv hmem hfail
    constructor
    · intro dtx hdec
      have h := Decode_accepted_entry_decodes env d txBytes dtx raw flag body authInfo anyMsg
        hdec henv hmem
      simp only [msgDecodes, Bool.and_eq_true] at h
      rw [concreteMsgOf_none_of_fails d anyMsg err hfail] at h
      simp at h
    · intro pre post dynamicMsg hsplit hpre hdyn
      obtain ⟨vars1, -, hrest⟩ := decodeMsgs_of_decodes env d pre
        { signers := none, reflectMsgs := none, msgs := none, seenSigners := [] } hpre
      rw [Decode_of_envelope env d txBytes raw flag body authInfo henv, hsplit, hrest]
      rcases hfail with h | ⟨msg0, h1, h2⟩
      · rw [decodeMsgs_cons_ret env d _ anyMsg post vars1 none _
          (decodeMsg_resolve_fails env d vars1 anyMsg dynamicMsg err hdyn h)]
      · rw [decodeMsgs_cons_ret env d _ anyMsg post vars1 none _
          (decodeMsg_codec_fails env d vars1 anyMsg dynamicMsg msg0 err hdyn h1 h2)]
  · intro dtx hdec
    obtain ⟨raw, body, hraw, hbody, hmap⟩ := Decode_messages env d txBytes dtx hdec
    have hlen : (Slice.toList dtx.Messages).length = body.Messages.length := by
      have := congrArg List.length hmap
      simpa using this.symm
    refine ⟨raw, body, hraw, hbody, hlen, ?_⟩
    intro i hi hj
    have hget : concreteMsgOf d (body.Messages.get ⟨i, hi⟩) =
        some ((Slice.toList dtx.Messages).get ⟨i, hj⟩) := by
      have h1 : (body.Messages.map (concreteMsgOf d))[i]? =
          ((Slice.toList dtx.Messages).map some)[i]? := by rw [hmap]
      simp only [List.getElem?_map, List.getElem?_eq_getElem hi,
        List.getElem?_eq_getElem hj, Option.map_some'] at h1
      simpa using h1
    exact concreteMsgOf_some d _ _ hget

/-- C18, on the second world: a transaction whose second message, of type `R`,
is not resolved, and a transaction whose message is resolved. -/
theorem Decode_concrete_resolution_witness :
    (Decode wireEnv wireDecoder (wireTx (wireEncode 1 wireMsgM ++ wireEncode 1 wireMsgR)
        wireAuth)).result =
      .returned none (some (GoError.new "unable to resolve type URL")) ∧
    ∃ (raw : TxRaw) (body : TxBody),
      wireEnv.unmarshalTxRaw (wireTx wireBody wireAuth) = .ok raw ∧
      wireEnv.unmarshalTxBody raw.BodyBytes = .ok body ∧
      (Slice.toList wireDtx.Messages).length = body.Messages.length ∧
      ∀ (i : Nat) (hi : i < body.Messages.length)
        (hj : i < (Slice.toList wireDtx.Messages).length),
        ∃ msg0,
          wireDecoder.resolver.Resolve (TrimPrefix (body.Messages.get ⟨i, hi⟩).TypeUrl)
            = .ok msg0 ∧
          wireDecoder.codec.Unmarshal (body.Messages.get ⟨i, hi⟩).Value msg0 =
            .ok ((Slice.toList wireDtx.Messages).get ⟨i, hj⟩) :=
  ⟨((Decode_concrete_resolution wireEnv wireDecoder
      (wireTx (wireEncode 1 wireMsgM ++ wireEncode 1 wireMsgR) wireAuth)).1
      (wireRawOf (wireEncode 1 wireMsgM ++ wireEncode 1 wireMsgR)) false
      (wireBodyOf [{ TypeUrl := "/M", Value := wireEncode 1 [0xA1] },
                   { TypeUrl := "/R", Value := wireEncode 1 [0xA1] }]) wireAuthInfo
      { TypeUrl := "/R", Value := wireEncode 1 [0xA1] }
      (GoError.new "unable to resolve type URL") rfl
      (List.mem_cons_of_mem _ (List.mem_cons_self _ _)) (Or.inl rfl)).2
      [{ TypeUrl := "/M", Value := wireEncode 1 [0xA1] }] []
      { TypeUrl := "R", Value := wireEncode 1 [0xA1] } rfl
      (fun p h => by
        have h1 : p = { TypeUrl := "/M", Value := wireEncode 1 [0xA1] } :=
          List.mem_singleton.1 h
        rw [h1]
        rfl)
      rfl,
    (Decode_concrete_resolution wireEnv wireDecoder (wireTx wireBody wireAuth)).2 _ rfl⟩

/-- C18 fails as stated: in the second world the only entry has the type `X`,
which the resolver does not resolve; the descriptor lookup, which `Decode` does
first, fails too, and the error that `Decode` returns is the
descriptor-not-found error, not the error of the resolver. -/
theorem Decode_resolver_error_not_reported :
    wireDecoder.resolver.Resolve (TrimPrefix "/X") =
      .error (GoError.new "unable to resolve type URL") ∧
    (Decode wireEnv wireDecoder (wireTx (wireEncode 1 wireMsgX) wireAuth)).result =
      .returned none (some (GoError.errorf
        "protoFiles does not have descriptor /X: not found" (GoError.new "not found"))) ∧
    GoError.errorf "protoFiles does not have descriptor /X: not found"
        (GoError.new "not found") ≠ GoError.new "unable to resolve type URL" :=
  ⟨rfl, rfl, by decide⟩

/-! ## Claims about the signatures and the gas limit -/

/-- C19, as the code has it: whenever `Decode` succeeds, the signatures of the
decoded `Tx` are the signature list of the outer envelope, the same number in
the same order; `Decode` does not compare them with the signer list. -/
theorem Decode_signatures_copied (env : Env MD RM GM) (d : Decoder MD RM GM)
    (txBytes : Bytes) (dtx : DecodedTx RM GM)
    (h : (Decode env d txBytes).result = .returned (some dtx) none) :
    ∃ (raw : TxRaw) (tx : Tx),
      env.unmarshalTxRaw txBytes = .ok raw ∧ dtx.TxRaw = some raw ∧ dtx.Tx = some tx ∧
      tx.Signatures = raw.Signatures := by
  obtain ⟨raw, flag, body, authInfo, vars, -, -, h3, -, -, -, -, -, -, hdtx⟩ :=
    Decode_returned_some env d txBytes dtx none h
  exact ⟨raw, _, h3, by rw [hdtx], by rw [hdtx], rfl⟩

/-- C19, on the second world: a transaction with two signatures. -/
theorem Decode_signatures_copied_witness :
    (Decode wireEnv wireDecoder
      (wireTx wireBody wireAuth ++ wireEncode 3 [1] ++ wireEncode 3 [2])).result =
      .returned (some wireDtxSigned) none ∧
    ∃ (raw : TxRaw) (tx : Tx),
      wireEnv.unmarshalTxRaw (wireTx wireBody wireAuth ++ wireEncode 3 [1] ++ wireEncode 3 [2])
        = .ok raw ∧
      wireDtxSigned.TxRaw = some raw ∧
      wireDtxSigned.Tx = some tx ∧
      tx.Signatures = raw.Signatures :=
  ⟨rfl, Decode_signatures_copied wireEnv wireDecoder
    (wireTx wireBody wireAuth ++ wireEncode 3 [1] ++ wireEncode 3 [2]) _ rfl⟩

/-- C19 fails as stated: in the second world `Decode` accepts a transaction
whose envelope has two signatures and whose signer list has one entry. -/
theorem Decode_accepts_more_signatures_than_signers :
    ∃ (dtx : DecodedTx AnyMsg AnyMsg) (raw : TxRaw),
      (Decode wireEnv wireDecoder
        (wireTx wireBody wireAuth ++ wireEncode 3 [1] ++ wireEncode 3 [2])).result =
        .returned (some dtx) none ∧
      dtx.TxRaw = some raw ∧
      raw.Signatures = [[1], [2]] ∧
      Slice.toList dtx.Signers = [[0xA1]] ∧
      raw.Signatures.length ≠ (Slice.toList dtx.Signers).length :=
  ⟨wireDtxSigned,
    { BodyBytes := wireBody, AuthInfoBytes := wireAuth, Signatures := [[1], [2]] },
    rfl, rfl, rfl, rfl, by decide⟩

/-- C20: `GetGasLimit` is total. On every receiver, nil included, it returns
an error, and then the gas limit 0, exactly when the receiver, its `Tx`, the
`AuthInfo` of its `Tx` or the `Fee` of that `AuthInfo` is nil; otherwise it
returns the `GasLimit` of the fee and no error. For a decoded transaction whose
auth info carries a fee it returns the gas limit of that fee. -/
theorem GetGasLimit_total (dtx : Option (DecodedTx RM GM)) :
    ((DecodedTx.GetGasLimit dtx).2 ≠ none ↔
      (dtx = none ∨ (∃ d, dtx = some d ∧ d.Tx = none) ∨
        (∃ d tx, dtx = some d ∧ d.Tx = some tx ∧ tx.AuthInfo = none) ∨
        (∃ d tx authInfo, dtx = some d ∧ d.Tx = some tx ∧ tx.AuthInfo = some authInfo ∧
          authInfo.Fee = none))) ∧
    ((DecodedTx.GetGasLimit dtx).2 ≠ none → (DecodedTx.GetGasLimit dtx).1 = 0) ∧
    (∀ d tx authInfo fee, dtx = some d → d.Tx = some tx → tx.AuthInfo = some authInfo →
      authInfo.Fee = some fee → DecodedTx.GetGasLimit dtx = (fee.GasLimit, none)) ∧
    (∀ (env : Env MD RM GM) (dec : Decoder MD RM GM) (txBytes : Bytes) (d : DecodedTx RM GM)
      (raw : TxRaw) (flag : Bool) (body : TxBody) (authInfo : AuthInfo) (fee : Fee),
      dtx = some d → (Decode env dec txBytes).result = .returned (some d) none →
      envelopeStages env dec txBytes = some (raw, flag, body, authInfo) →
      authInfo.Fee = some fee → DecodedTx.GetGasLimit dtx = (fee.GasLimit, none)) := by
  have hfee : ∀ d tx authInfo fee, dtx = some d → d.Tx = some tx →
      tx.AuthInfo = some authInfo → authInfo.Fee = some fee →
      DecodedTx.GetGasLimit dtx = (fee.GasLimit, none) := by
    intro d tx authInfo fee h1 h2 h3 h4
    simp [DecodedTx.GetGasLimit, h1, h2, h3, h4]
  refine ⟨?_, ?_, hfee, ?_⟩
  · cases dtx with
    | none => simp [DecodedTx.GetGasLimit]
    | some d =>
      cases h1 : d.Tx with
      | none => simp [DecodedTx.GetGasLimit, h1]
      | some tx =>
        cases h2 : tx.AuthInfo with
        | none => simp [DecodedTx.GetGasLimit, h1, h2]
        | some authInfo =>
          cases h3 : authInfo.Fee with
          | none => simp [DecodedTx.GetGasLimit, h1, h2, h3]
          | some fee => simp [DecodedTx.GetGasLimit, h1, h2, h3]
  · cases dtx with
    | none => simp [DecodedTx.GetGasLimit]
    | some d =>
      cases h1 : d.Tx with
      | none => simp [DecodedTx.GetGasLimit, h1]
      | some tx =>
        cases h2 : tx.AuthInfo with
        | none => simp [DecodedTx.GetGasLimit, h1, h2]
        | some authInfo =>
          cases h3 : authInfo.Fee with
          | none => simp [DecodedTx.GetGasLimit, h1, h2, h3]
          | some fee => simp [DecodedTx.GetGasLimit, h1, h2, h3]
  · intro env dec txBytes d raw flag body authInfo fee h1 hdec henv hfeeSome
    obtain ⟨raw1, flag1, body1, authInfo1, vars, henv1, -, hd⟩ :=
      Decode_success_stages env dec txBytes d none hdec
    rw [henv] at henv1
    simp only [Option.some.injEq, Prod.mk.injEq] at henv1
    obtain ⟨rfl, rfl, rfl, rfl⟩ := henv1
    exact hfee d _ authInfo fee h1 (by rw [hd]; rfl) rfl hfeeSome

/-- C20, on the two worlds: a nil receiver, a decoded transaction without a
fee and a decoded transaction whose fee has the gas limit 50. -/
theorem GetGasLimit_total_witness :
    DecodedTx.GetGasLimit (none : Option (DecodedTx AnyMsg AnyMsg)) =
      (0, some (GoError.new
        "gas limit not available or one or more required fields are nil")) ∧
    DecodedTx.GetGasLimit (some toyDtx) =
      (0, some (GoError.new
        "gas limit not available or one or more required fields are nil")) ∧
    (Decode wireEnv wireDecoder (wireTx wireBody wireAuth)).result =
      .returned (some wireDtx) none ∧
    DecodedTx.GetGasLimit (some wireDtx) = (50, none) :=
  ⟨rfl, rfl, rfl,
    (@GetGasLimit_total String AnyMsg AnyMsg (some wireDtx)).2.2.2 wireEnv wireDecoder (wireTx wireBody wireAuth) _
      (wireRawOf wireBody) false wireBodyMsgs wireAuthInfo { GasLimit := 50, Payer := "" }
      rfl rfl rfl rfl⟩


/-! ## Claims about `GetMessages` and `GetSenders` -/

/-- C21: `GetMessages` and `GetSenders` are total, also on a nil receiver.
`GetMessages` returns an error, and then a nil list, exactly when the receiver
or its `Messages` field is nil; otherwise it returns `Messages` unchanged and
no error. `GetSenders` returns an error, and then a nil list, exactly when the
receiver or its `Signers` field is nil; otherwise it returns `Signers`
unchanged and no error. -/
theorem GetMessages_GetSenders_total (dtx : Option (DecodedTx RM GM)) :
    (((DecodedTx.GetMessages dtx).2 ≠ none ↔
        (dtx = none ∨ ∃ d, dtx = some d ∧ d.Messages = none)) ∧
      ((DecodedTx.GetMessages dtx).2 ≠ none →
        DecodedTx.GetMessages dtx =
          (none, some (GoError.new "messages not available or are nil"))) ∧
      (∀ d, dtx = some d → d.Messages ≠ none →
        DecodedTx.GetMessages dtx = (d.Messages, none))) ∧
    (((DecodedTx.GetSenders dtx).2 ≠ none ↔
        (dtx = none ∨ ∃ d, dtx = some d ∧ d.Signers = none)) ∧
      ((DecodedTx.GetSenders dtx).2 ≠ none →
        DecodedTx.GetSenders dtx =
          (none, some (GoError.new "senders not available or are nil"))) ∧
      (∀ d, dtx = some d → d.Signers ≠ none →
        DecodedTx.GetSenders dtx = (d.Signers, none))) := by
  cases dtx with
  | none => simp [DecodedTx.GetMessages, DecodedTx.GetSenders]
  | some d =>
    refine ⟨?_, ?_⟩
    · cases h : d.Messages with
      | none => simp [DecodedTx.GetMessages, h]
      | some msgs =>
        refine ⟨by simp [DecodedTx.GetMessages, h], by simp [DecodedTx.GetMessages, h], ?_⟩
        intro d1 hd _
        cases hd
        simp [DecodedTx.GetMessages, h]
    · cases h : d.Signers with
      | none => simp [DecodedTx.GetSenders, h]
      | some signers =>
        refine ⟨by simp [DecodedTx.GetSenders, h], by simp [DecodedTx.GetSenders, h], ?_⟩
        intro d1 hd _
        cases hd
        simp [DecodedTx.GetSenders, h]

/-- The accessors on the two worlds: a nil receiver, a decoded transaction
without messages and a decoded transaction with a message and a signer. -/
theorem GetMessages_GetSenders_eval :
    DecodedTx.GetMessages (none : Option (DecodedTx AnyMsg AnyMsg)) =
      (none, some (GoError.new "messages not available or are nil")) ∧
    DecodedTx.GetSenders (none : Option (DecodedTx AnyMsg AnyMsg)) =
      (none, some (GoError.new "senders not available or are nil")) ∧
    DecodedTx.GetMessages (some wireDtxEmpty) =
      (none, some (GoError.new "messages not available or are nil")) ∧
    DecodedTx.GetMessages (some wireDtx) = (wireDtx.Messages, none) ∧
    DecodedTx.GetSenders (some wireDtx) = (some [[0xA1]], none) :=
  ⟨rfl, rfl, rfl, rfl, rfl⟩

/-! ## Claims about the errors of the envelope stages -/

/-- When the validator and the strict scan of the root accept the bytes and
the deserialization of the outer envelope fails, `Decode` returns the error of
the deserialization as it is (line 95). -/
theorem Decode_outer_unmarshal_fails (env : Env MD RM GM) (d : Decoder MD RM GM)
    (txBytes : Bytes) (err : GoError)
    (h1 : env.rejectNonADR027TxRaw txBytes = none)
    (h2 : env.RejectUnknownFieldsStrict txBytes env.TxRawDescriptor d.signingCtx.FileResolver
      = none)
    (h3 : env.unmarshalTxRaw txBytes = .error err) :
    (Decode env d txBytes).result = .returned none (some err) := by
  simp [Decode, h1, h2, h3]

/-- When the stages before it pass and the deserialization of the body bytes
fails, `Decode` returns the tx-decode error wrapped with the message of the
cause (line 108). -/
theorem Decode_body_unmarshal_fails (env : Env MD RM GM) (d : Decoder MD RM GM)
    (txBytes : Bytes) (raw : TxRaw) (flag : Bool) (err : GoError)
    (h1 : env.rejectNonADR027TxRaw txBytes = none)
    (h2 : env.RejectUnknownFieldsStrict txBytes env.TxRawDescriptor d.signingCtx.FileResolver
      = none)
    (h3 : env.unmarshalTxRaw txBytes = .ok raw)
    (h4 : env.RejectUnknownFields raw.BodyBytes env.TxBodyDescriptor true
      d.signingCtx.FileResolver = (flag, none))
    (h5 : env.unmarshalTxBody raw.BodyBytes = .error err) :
    (Decode env d txBytes).result =
      .returned none (some (Wrap env.ErrTxDecode err.Error)) := by
  simp [Decode, h1, h2, h3, h4, h5]

/-- When the stages before it pass and the deserialization of the auth-info
bytes fails, `Decode` returns the tx-decode error wrapped with the message of
the cause (line 121). -/
theorem Decode_auth_unmarshal_fails (env : Env MD RM GM) (d : Decoder MD RM GM)
    (txBytes : Bytes) (raw : TxRaw) (flag : Bool) (body : TxBody) (err : GoError)
    (h1 : env.rejectNonADR027TxRaw txBytes = none)
    (h2 : env.RejectUnknownFieldsStrict txBytes env.TxRawDescriptor d.signingCtx.FileResolver
      = none)
    (h3 : env.unmarshalTxRaw txBytes = .ok raw)
    (h4 : env.RejectUnknownFields raw.BodyBytes env.TxBodyDescriptor true
      d.signingCtx.FileResolver = (flag, none))
    (h5 : env.unmarshalTxBody raw.BodyBytes = .ok body)
    (h6 : env.RejectUnknownFieldsStrict raw.AuthInfoBytes env.AuthInfoDescriptor
      d.signingCtx.FileResolver = none)
    (h7 : env.unmarshalAuthInfo raw.AuthInfoBytes = .error err) :
    (Decode env d txBytes).result =
      .returned none (some (Wrap env.ErrTxDecode err.Error)) := by
  simp [Decode, h1, h2, h3, h4, h5, h6, h7]

/-- An error wrapped by `errorsmod.Wrap` is recognised by `errors.Is` as its
cause. -/
theorem Wrap_Is (err : GoError) (description : String) :
    (Wrap err description).Is err = true := by
  simp [Wrap, GoError.Is, GoError.Is_self]

/-- With the validator of the spec, the branch of line 95 is not reached: bytes
that the deserialization of the outer envelope refuses are refused by the
validator before, and that error is wrapped. -/
theorem Decode_outer_unmarshal_fails_of_canonical (env : Env MD RM GM)
    (d : Decoder MD RM GM) (txBytes : Bytes) (err : GoError)
    (hcanon : env.rejectNonADR027TxRaw =
      rejectNonADR027TxRaw env.unmarshalTxRaw env.marshalTxRaw)
    (h3 : env.unmarshalTxRaw txBytes = .error err) :
    (Decode env d txBytes).result =
      .returned none (some (Wrap env.ErrTxDecode err.Error)) := by
  have h1 : env.rejectNonADR027TxRaw txBytes = some err := by
    rw [hcanon]
    simp [rejectNonADR027TxRaw, h3]
  simp [Decode, h1]

/-- Whatever the stages before it do, `Decode` returns no `DecodedTx` and the
tx-decode error, wrapped, when the body bytes of the envelope do not
deserialize. -/
theorem Decode_body_unmarshal_fails_wrapped (env : Env MD RM GM) (d : Decoder MD RM GM)
    (txBytes : Bytes) (raw : TxRaw) (err : GoError)
    (h3 : env.unmarshalTxRaw txBytes = .ok raw)
    (h5 : env.unmarshalTxBody raw.BodyBytes = .error err) :
    ∃ description : String,
      (Decode env d txBytes).result =
        .returned none (some (Wrap env.ErrTxDecode description)) := by
  unfold Decode
  simp only [h3, h5]
  split
  · exact ⟨_, rfl⟩
  · split
    · exact ⟨_, rfl⟩
    · split
      · exact ⟨_, rfl⟩
      · exact ⟨_, rfl⟩

/-- Whatever the stages before it do, `Decode` returns no `DecodedTx` and the
tx-decode error, wrapped, when the auth-info bytes of the envelope do not
deserialize. -/
theorem Decode_auth_unmarshal_fails_wrapped (env : Env MD RM GM) (d : Decoder MD RM GM)
    (txBytes : Bytes) (raw : TxRaw) (err : GoError)
    (h3 : env.unmarshalTxRaw txBytes = .ok raw)
    (h7 : env.unmarshalAuthInfo raw.AuthInfoBytes = .error err) :
    ∃ description : String,
      (Decode env d txBytes).result =
        .returned none (some (Wrap env.ErrTxDecode description)) := by
  unfold Decode
  simp only [h3, h7]
  split
  · exact ⟨_, rfl⟩
  · split
    · exact ⟨_, rfl⟩
    · split
      · exact ⟨_, rfl⟩
      · split
        · exact ⟨_, rfl⟩
        · split
          · exact ⟨_, rfl⟩
          · exact ⟨_, rfl⟩

/-- C22, for the validator that the spec describes: every failure of a
deserialization of the envelope stages is wrapped. Whenever the bytes of the
outer envelope, the body bytes or the auth-info bytes do not deserialize,
`Decode` returns no `DecodedTx` and an error that wraps the tx-decode error, so
that `errors.Is` recognises it; the description that it is wrapped with is the
message of the failed deserialization, for the outer envelope always, and for
the body and the auth info whenever the stages before the deserialization
have passed. -/
theorem Decode_envelope_failures_wrapped (env : Env MD RM GM) (d : Decoder MD RM GM)
    (txBytes : Bytes)
    (hcanon : env.rejectNonADR027TxRaw =
      rejectNonADR027TxRaw env.unmarshalTxRaw env.marshalTxRaw) :
    (∀ err : GoError, env.unmarshalTxRaw txBytes = .error err →
      (Decode env d txBytes).result =
        .returned none (some (Wrap env.ErrTxDecode err.Error))) ∧
    (∀ (raw : TxRaw) (err : GoError), env.unmarshalTxRaw txBytes = .ok raw →
      env.unmarshalTxBody raw.BodyBytes = .error err →
      (∃ description : String, (Decode env d txBytes).result =
        .returned none (some (Wrap env.ErrTxDecode description))) ∧
      (∀ flag : Bool, env.rejectNonADR027TxRaw txBytes = none →
        env.RejectUnknownFieldsStrict txBytes env.TxRawDescriptor d.signingCtx.FileResolver
          = none →
        env.RejectUnknownFields raw.BodyBytes env.TxBodyDescriptor true
          d.signingCtx.FileResolver = (flag, none) →
        (Decode env d txBytes).result =
          .returned none (some (Wrap env.ErrTxDecode err.Error)))) ∧
    (∀ (raw : TxRaw) (err : GoError), env.unmarshalTxRaw txBytes = .ok raw →
      env.unmarshalAuthInfo raw.AuthInfoBytes = .error err →
      (∃ description : String, (Decode env d txBytes).result =
        .returned none (some (Wrap env.ErrTxDecode description))) ∧
      (∀ (flag : Bool) (body : TxBody), env.rejectNonADR027TxRaw txBytes = none →
        env.RejectUnknownFieldsStrict txBytes env.TxRawDescriptor d.signingCtx.FileResolver
          = none →
        env.RejectUnknownFields raw.BodyBytes env.TxBodyDescriptor true
          d.signingCtx.FileResolver = (flag, none) →
        env.unmarshalTxBody raw.BodyBytes = .ok body →
        env.RejectUnknownFieldsStrict raw.AuthInfoBytes env.AuthInfoDescriptor
          d.signingCtx.FileResolver = none →
        (Decode env d txBytes).result =
          .returned none (some (Wrap env.ErrTxDecode err.Error)))) ∧
    ∀ description : String,
      (Wrap env.ErrTxDecode description).Is env.ErrTxDecode = true := by
  refine ⟨?_, ?_, ?_, fun description => Wrap_Is _ _⟩
  · intro err h3
    exact Decode_outer_unmarshal_fails_of_canonical env d txBytes err hcanon h3
  · intro raw err h3 h5
    exact ⟨Decode_body_unmarshal_fails_wrapped env d txBytes raw err h3 h5,
      fun flag h1 h2 h4 => Decode_body_unmarshal_fails env d txBytes raw flag err h1 h2 h3 h4 h5⟩
  · intro raw err h3 h7
    exact ⟨Decode_auth_unmarshal_fails_wrapped env d txBytes raw err h3 h7,
      fun flag body h1 h2 h4 h5 h6 =>
        Decode_auth_unmarshal_fails env d txBytes raw flag body err h1 h2 h3 h4 h5 h6 h7⟩

/-- C22, on the second world with deserializations that refuse a string that
is not UTF-8: an envelope whose record is cut short, a body whose memo is not
UTF-8 and an auth info whose payer is not UTF-8. -/
theorem Decode_envelope_failures_wrapped_witness :
    wireEnvUtf8.rejectNonADR027TxRaw =
      rejectNonADR027TxRaw wireEnvUtf8.unmarshalTxRaw wireEnvUtf8.marshalTxRaw ∧
    (wireEnvUtf8.unmarshalTxRaw [1, 2, 5] = .error (GoError.new "truncated") ∧
      (Decode wireEnvUtf8 wireDecoder [1, 2, 5]).result =
        .returned none (some (Wrap wireEnvUtf8.ErrTxDecode "truncated"))) ∧
    (wireEnvUtf8.unmarshalTxBody (wireEncode 2 [0xFF]) =
        .error (GoError.new "proto: field TxBody.memo contains invalid UTF-8") ∧
      (Decode wireEnvUtf8 wireDecoder (wireTx (wireEncode 2 [0xFF]) wireAuth)).result =
        .returned none (some (Wrap wireEnvUtf8.ErrTxDecode
          "proto: field TxBody.memo contains invalid UTF-8"))) ∧
    (wireEnvUtf8.unmarshalAuthInfo (wireEncode 2 (wireEncode 3 [0xFF])) =
        .error (GoError.new "proto: field Fee.payer contains invalid UTF-8") ∧
      (Decode wireEnvUtf8 wireDecoder
          (wireTx wireBody (wireEncode 2 (wireEncode 3 [0xFF])))).result =
        .returned none (some (Wrap wireEnvUtf8.ErrTxDecode
          "proto: field Fee.payer contains invalid UTF-8"))) ∧
    (Wrap wireEnvUtf8.ErrTxDecode "truncated").Is wireEnvUtf8.ErrTxDecode = true :=
  ⟨rfl,
    ⟨rfl, (Decode_envelope_failures_wrapped wireEnvUtf8 wireDecoder [1, 2, 5] rfl).1
      (GoError.new "truncated") rfl⟩,
    ⟨rfl, ((Decode_envelope_failures_wrapped wireEnvUtf8 wireDecoder
        (wireTx (wireEncode 2 [0xFF]) wireAuth) rfl).2.1
      { BodyBytes := wireEncode 2 [0xFF], AuthInfoBytes := wireAuth, Signatures := [] }
      (GoError.new "proto: field TxBody.memo contains invalid UTF-8") rfl rfl).2
      false rfl rfl rfl⟩,
    ⟨rfl, ((Decode_envelope_failures_wrapped wireEnvUtf8 wireDecoder
        (wireTx wireBody (wireEncode 2 (wireEncode 3 [0xFF]))) rfl).2.2.1
      { BodyBytes := wireBody, AuthInfoBytes := wireEncode 2 (wireEncode 3 [0xFF]),
        Signatures := [] }
      (GoError.new "proto: field Fee.payer contains invalid UTF-8") rfl rfl).2
      false wireBodyMsgs rfl rfl rfl rfl rfl⟩,
    (Decode_envelope_failures_wrapped wireEnvUtf8 wireDecoder [1, 2, 5] rfl).2.2.2 "truncated"⟩

/-! ## Claims about the result of a successful `Decode` -/

/-- The lists of a successful `Decode`, in terms of the entries of the body. -/
theorem Decode_lists (env : Env MD RM GM) (d : Decoder MD RM GM) (txBytes : Bytes)
    (dtx : DecodedTx RM GM) (h : (Decode env d txBytes).result = .returned (some dtx) none) :
    ∃ (raw : TxRaw) (body : TxBody) (authInfo : AuthInfo) (dyns : List RM) (gms : List GM)
      (sss : List (List Bytes)),
      env.unmarshalTxRaw txBytes = .ok raw ∧
      env.unmarshalTxBody raw.BodyBytes = .ok body ∧
      env.unmarshalAuthInfo raw.AuthInfoBytes = .ok authInfo ∧
      body.Messages.map (dynamicMsgOf env d) = dyns.map some ∧
      body.Messages.map (concreteMsgOf d) = gms.map some ∧
      body.Messages.map (signersOfMsg env d) = sss.map some ∧
      dtx.ReflectMessages = goAppendAll none dyns ∧
      dtx.Messages = goAppendAll none gms ∧
      dtx.Signers = (appendSigners sss.flatten (none, [])).1 ∧
      dtx.TxRaw = some raw ∧
      dtx.Tx = some { Body := some body, AuthInfo := some authInfo,
                      Signatures := raw.Signatures } := by
  obtain ⟨raw, flag, body, authInfo, vars, -, -, h3, -, h5, -, h7, hloop, -, hdtx⟩ :=
    Decode_returned_some env d txBytes dtx none h
  obtain ⟨dyns, gms, sss, h1, h2, hs, hr, hm, hsig⟩ :=
    decodeMsgs_next env d body.Messages _ vars hloop
  refine ⟨raw, body, authInfo, dyns, gms, sss, h3, h5, h7, h1, h2, hs, ?_, ?_, ?_, ?_, ?_⟩
  · rw [hdtx]; exact hr
  · rw [hdtx]; exact hm
  · rw [hdtx]
    simp only at hsig
    rw [← hsig]
  · rw [hdtx]
  · rw [hdtx]

/-- C27: when `Decode` accepts a transaction whose body has no message, or
whose messages all have an empty signer list, the `Signers` list of the
returned `DecodedTx` is nil and `GetSenders` returns an error; when the body has
no message, `Messages` is nil too and `GetMessages` returns an error, although
`Decode` returned no error. -/
theorem Decode_nil_lists (env : Env MD RM GM) (d : Decoder MD RM GM) (txBytes : Bytes)
    (dtx : DecodedTx RM GM) (raw : TxRaw) (body : TxBody)
    (h : (Decode env d txBytes).result = .returned (some dtx) none)
    (hraw : env.unmarshalTxRaw txBytes = .ok raw)
    (hbody : env.unmarshalTxBody raw.BodyBytes = .ok body)
    (hno : body.Messages = [] ∨
      ∃ sss : List (List Bytes),
        body.Messages.map (signersOfMsg env d) = sss.map some ∧ sss.flatten = []) :
    dtx.Signers = none ∧
    DecodedTx.GetSenders (some dtx) =
      (none, some (GoError.new "senders not available or are nil")) ∧
    (body.Messages = [] →
      dtx.Messages = none ∧
      DecodedTx.GetMessages (some dtx) =
        (none, some (GoError.new "messages not available or are nil"))) := by
  obtain ⟨raw1, body1, authInfo, dyns, gms, sss, h1, h2, -, -, hg, hs, -, hm, hsig, -, -⟩ :=
    Decode_lists env d txBytes dtx h
  rw [hraw] at h1
  cases h1
  rw [hbody] at h2
  cases h2
  have hsigners : dtx.Signers = none := by
    rcases hno with hnil | ⟨sss1, hs1, hflat⟩
    · rw [hnil] at hs
      have : sss = [] := by
        cases sss with
        | nil => rfl
        | cons a l => simp at hs
      rw [hsig, this]
      rfl
    · rw [hs] at hs1
      have : sss = sss1 := (List.map_injective_iff.2 (Option.some_injective _)) hs1
      rw [hsig, this, hflat]
      rfl
  refine ⟨hsigners, by simp [DecodedTx.GetSenders, hsigners], ?_⟩
  intro hnil
  rw [hnil] at hg
  have hgms : gms = [] := by
    cases gms with
    | nil => rfl
    | cons a l => simp at hg
  have hmsgs : dtx.Messages = none := by
    rw [hm, hgms]
    rfl
  exact ⟨hmsgs, by simp [DecodedTx.GetMessages, hmsgs]⟩

/-- C27, on the second world: a transaction without a body, and a transaction
whose only message has no signer. -/
theorem Decode_nil_lists_witness :
    ((Decode wireEnv wireDecoder (wireEncode 2 wireAuth)).result =
        .returned (some wireDtxEmpty) none ∧
      wireDtxEmpty.Signers = none ∧
      DecodedTx.GetSenders (some wireDtxEmpty) =
        (none, some (GoError.new "senders not available or are nil")) ∧
      ((wireBodyOf []).Messages = [] →
        wireDtxEmpty.Messages = none ∧
        DecodedTx.GetMessages (some wireDtxEmpty) =
          (none, some (GoError.new "messages not available or are nil")))) ∧
    ((Decode wireEnv wireDecoder (wireTx (wireEncode 1 (wireAny "/M" [])) wireAuth)).result =
        .returned (some wireDtxNoSigner) none ∧
      wireDtxNoSigner.Signers = none ∧
      DecodedTx.GetSenders (some wireDtxNoSigner) =
        (none, some (GoError.new "senders not available or are nil")) ∧
      DecodedTx.GetMessages (some wireDtxNoSigner) =
        (some [{ TypeUrl := "M", Value := [] }], none)) :=
  ⟨⟨rfl, Decode_nil_lists wireEnv wireDecoder (wireEncode 2 wireAuth) wireDtxEmpty
      { BodyBytes := [], AuthInfoBytes := wireAuth, Signatures := [] } (wireBodyOf [])
      rfl rfl rfl (Or.inl rfl)⟩,
    ⟨rfl,
      (Decode_nil_lists wireEnv wireDecoder (wireTx (wireEncode 1 (wireAny "/M" [])) wireAuth)
        wireDtxNoSigner (wireRawOf (wireEncode 1 (wireAny "/M" [])))
        (wireBodyOf [{ TypeUrl := "/M", Value := [] }]) rfl rfl rfl
        (Or.inr ⟨[[]], rfl, rfl⟩)).1,
      rfl, rfl⟩⟩


/-- The entry at an index of a list of options that is a list of values. -/
theorem getElem?_of_map_eq_map_some {α β : Type} (f : α → Option β) (l : List α)
    (l1 : List β) (h : l.map f = l1.map some) (i : Nat) (a : α) (ha : l[i]? = some a) :
    l1[i]? = f a := by
  have h1 : (l.map f)[i]? = (l1.map some)[i]? := by rw [h]
  simp only [List.getElem?_map, ha, Option.map_some'] at h1
  cases hb : l1[i]? with
  | none => simp [hb] at h1
  | some b =>
    simp only [hb, Option.map_some', Option.some.injEq] at h1
    rw [h1]

/-- C28: whenever `Decode` succeeds, `Messages` and `ReflectMessages` have
one entry for each entry of the body; at every index, the entry of `Messages`
is the concrete message and the entry of `ReflectMessages` is the dynamic
message that `Decode` builds from the entry of the body at the same index; the
signatures of `Tx` are the signatures of `TxRaw`; and the body and the auth
info of `Tx` are the deserializations of the body bytes and of the auth-info
bytes of `TxRaw`. -/
theorem Decode_result_structure (env : Env MD RM GM) (d : Decoder MD RM GM)
    (txBytes : Bytes) (dtx : DecodedTx RM GM)
    (h : (Decode env d txBytes).result = .returned (some dtx) none) :
    ∃ (raw : TxRaw) (tx : Tx) (body : TxBody) (authInfo : AuthInfo),
      dtx.TxRaw = some raw ∧ dtx.Tx = some tx ∧
      env.unmarshalTxBody raw.BodyBytes = .ok body ∧ tx.Body = some body ∧
      env.unmarshalAuthInfo raw.AuthInfoBytes = .ok authInfo ∧ tx.AuthInfo = some authInfo ∧
      tx.Signatures = raw.Signatures ∧
      (Slice.toList dtx.Messages).length = body.Messages.length ∧
      (Slice.toList dtx.ReflectMessages).length = body.Messages.length ∧
      ∀ (i : Nat) (anyMsg : AnyMsg), body.Messages[i]? = some anyMsg →
        (Slice.toList dtx.Messages)[i]? = concreteMsgOf d anyMsg ∧
        (Slice.toList dtx.ReflectMessages)[i]? = dynamicMsgOf env d anyMsg := by
  obtain ⟨raw, body, authInfo, dyns, gms, sss, -, h2, h3, hd, hg, -, hr, hm, -, hraw, htx⟩ :=
    Decode_lists env d txBytes dtx h
  have hml : Slice.toList dtx.Messages = gms := by
    rw [hm, goAppendAll_toList]
    simp [Slice.toList]
  have hrl : Slice.toList dtx.ReflectMessages = dyns := by
    rw [hr, goAppendAll_toList]
    simp [Slice.toList]
  refine ⟨raw, _, body, authInfo, hraw, htx, h2, rfl, h3, rfl, rfl, ?_, ?_, ?_⟩
  · rw [hml]
    have := congrArg List.length hg
    simpa using this.symm
  · rw [hrl]
    have := congrArg List.length hd
    simpa using this.symm
  · intro i anyMsg hi
    rw [hml, hrl]
    exact ⟨getElem?_of_map_eq_map_some _ _ _ hg i anyMsg hi,
      getElem?_of_map_eq_map_some _ _ _ hd i anyMsg hi⟩

/-- C28, on the second world: the transaction with the one message `M`. -/
theorem Decode_result_structure_witness :
    (Decode wireEnv wireDecoder (wireTx wireBody wireAuth)).result =
      .returned (some wireDtx) none ∧
    wireDtx.Messages = some [{ TypeUrl := "M", Value := wireEncode 1 [0xA1] }] ∧
    wireBodyMsgs.Messages = [{ TypeUrl := "/M", Value := wireEncode 1 [0xA1] }] ∧
    concreteMsgOf wireDecoder { TypeUrl := "/M", Value := wireEncode 1 [0xA1] } =
      some { TypeUrl := "M", Value := wireEncode 1 [0xA1] } ∧
    ∃ (raw : TxRaw) (tx : Tx) (body : TxBody) (authInfo : AuthInfo),
      wireDtx.TxRaw = some raw ∧ wireDtx.Tx = some tx ∧
      wireEnv.unmarshalTxBody raw.BodyBytes = .ok body ∧ tx.Body = some body ∧
      wireEnv.unmarshalAuthInfo raw.AuthInfoBytes = .ok authInfo ∧
      tx.AuthInfo = some authInfo ∧
      tx.Signatures = raw.Signatures ∧
      (Slice.toList wireDtx.Messages).length = body.Messages.length ∧
      (Slice.toList wireDtx.ReflectMessages).length = body.Messages.length ∧
      ∀ (i : Nat) (anyMsg : AnyMsg), body.Messages[i]? = some anyMsg →
        (Slice.toList wireDtx.Messages)[i]? = concreteMsgOf wireDecoder anyMsg ∧
        (Slice.toList wireDtx.ReflectMessages)[i]? = dynamicMsgOf wireEnv wireDecoder anyMsg :=
  ⟨rfl, rfl, rfl, rfl,
    Decode_result_structure wireEnv wireDecoder (wireTx wireBody wireAuth) wireDtx rfl⟩

/-! ## Claims about the panic of `computeHashAndBytes` -/

/-- A life of calls of `Hash()` and `Bytes()` on a `DecodedTx` whose `TxRaw` is
not nil does not panic when the serialization of an envelope that is not nil
cannot fail. -/
theorem runOps_returns_of_some (env : Env MD RM GM) (ops : List CacheOp)
    (dtx : DecodedTx RM GM) (raw : TxRaw) (hraw : dtx.TxRaw = some raw)
    (hops : ∀ op ∈ ops, op = CacheOp.callHash ∨ op = CacheOp.callBytes)
    (hm : ∀ raw : TxRaw, ∃ bz, env.marshalTxRaw (some raw) = .ok bz) :
    ∃ (obs : List Observed) (dtx2 : DecodedTx RM GM),
      (runOps env ops dtx).result = .ok (obs, dtx2) := by
  induction ops generalizing dtx with
  | nil => exact ⟨[], dtx, rfl⟩
  | cons op ops ih =>
    have hops1 : ∀ op ∈ ops, op = CacheOp.callHash ∨ op = CacheOp.callBytes :=
      fun op1 h1 => hops op1 (List.mem_cons_of_mem _ h1)
    rcases hops op (List.mem_cons_self _ _) with rfl | rfl
    · cases hc : dtx.cachedHashed with
      | true =>
        obtain ⟨obs, dtx2, hrun⟩ := ih dtx hraw hops1
        exact ⟨Observed.hash dtx.cachedHash :: obs, dtx2,
          by simp [runOps, Hash_of_cached env dtx hc, hrun]⟩
      | false =>
        obtain ⟨bz, hbz⟩ := hm raw
        rw [← hraw] at hbz
        obtain ⟨obs, dtx2, hrun⟩ := ih
          { dtx with cachedBytes := bz, cachedHash := env.sha256Sum256 bz, cachedHashed := true }
          hraw hops1
        exact ⟨Observed.hash (env.sha256Sum256 bz) :: obs, dtx2,
          by simp [runOps, Hash_of_fresh env dtx bz hc hbz, hrun]⟩
    · cases hc : dtx.cachedHashed with
      | true =>
        obtain ⟨obs, dtx2, hrun⟩ := ih dtx hraw hops1
        exact ⟨Observed.bytes dtx.cachedBytes :: obs, dtx2,
          by simp [runOps, Bytes_of_cached env dtx hc, hrun]⟩
      | false =>
        obtain ⟨bz, hbz⟩ := hm raw
        rw [← hraw] at hbz
        obtain ⟨obs, dtx2, hrun⟩ := ih
          { dtx with cachedBytes := bz, cachedHash := env.sha256Sum256 bz, cachedHashed := true }
          hraw hops1
        exact ⟨Observed.bytes bz :: obs, dtx2,
          by simp [runOps, Bytes_of_fresh env dtx bz hc hbz, hrun]⟩

/-- C29: for every `DecodedTx` returned by a successful `Decode`, `TxRaw` is
not nil; and when the serialization of an envelope that is not nil cannot fail,
as is the case for an envelope made of byte fields only, `Hash()` and `Bytes()`
return on it, and so does every sequence of calls of `Hash()` and `Bytes()`:
none of them panics. -/
theorem Decode_Hash_Bytes_no_panic (env : Env MD RM GM) (d : Decoder MD RM GM)
    (txBytes : Bytes) (dtx : DecodedTx RM GM)
    (h : (Decode env d txBytes).result = .returned (some dtx) none)
    (hm : ∀ raw : TxRaw, ∃ bz, env.marshalTxRaw (some raw) = .ok bz) :
    (∃ raw : TxRaw, env.unmarshalTxRaw txBytes = .ok raw ∧ dtx.TxRaw = some raw) ∧
    (∃ (hash : Hash32) (dtx1 : DecodedTx RM GM), (dtx.Hash env).result = .ok (hash, dtx1)) ∧
    (∃ (bz : Bytes) (dtx1 : DecodedTx RM GM), (dtx.Bytes env).result = .ok (bz, dtx1)) ∧
    ∀ ops : List CacheOp, (∀ op ∈ ops, op = CacheOp.callHash ∨ op = CacheOp.callBytes) →
      ∃ (obs : List Observed) (dtx2 : DecodedTx RM GM),
        (runOps env ops dtx).result = .ok (obs, dtx2) := by
  obtain ⟨raw, flag, body, authInfo, vars, -, -, h3, -, -, -, -, -, -, hdtx⟩ :=
    Decode_returned_some env d txBytes dtx none h
  have hraw : dtx.TxRaw = some raw := by rw [hdtx]
  have hfresh : dtx.cachedHashed = false := by rw [hdtx]
  obtain ⟨bz, hbz⟩ := hm raw
  rw [← hraw] at hbz
  refine ⟨⟨raw, h3, hraw⟩, ?_, ?_, ?_⟩
  · rw [Hash_of_fresh env dtx bz hfresh hbz]
    exact ⟨_, _, rfl⟩
  · rw [Bytes_of_fresh env dtx bz hfresh hbz]
    exact ⟨_, _, rfl⟩
  · intro ops hops
    exact runOps_returns_of_some env ops dtx raw hraw hops hm

/-- C29, on the second world: `Hash()`, `Bytes()` and `Hash()` again on the
result of decoding the transaction with the one message `M`. -/
theorem Decode_Hash_Bytes_no_panic_witness :
    (Decode wireEnv wireDecoder (wireTx wireBody wireAuth)).result =
      .returned (some wireDtx) none ∧
    (∀ raw : TxRaw, ∃ bz, wireEnv.marshalTxRaw (some raw) = .ok bz) ∧
    (wireDtx.Bytes wireEnv).result.toOption.map Prod.fst = some (wireTx wireBody wireAuth) ∧
    ∃ (obs : List Observed) (dtx2 : DecodedTx AnyMsg AnyMsg),
      (runOps wireEnv [.callHash, .callBytes, .callHash] wireDtx).result = .ok (obs, dtx2) :=
  ⟨rfl, fun _ => ⟨_, rfl⟩, rfl,
    (Decode_Hash_Bytes_no_panic wireEnv wireDecoder (wireTx wireBody wireAuth) wireDtx rfl
      (fun _ => ⟨_, rfl⟩)).2.2.2 [.callHash, .callBytes, .callHash] (by simp)⟩

end Lemmas

end TxDecode

/-! # Claims about the upgrade keeper -/

namespace UpgradeKeeper

open TxDecode (GoError)

/-- The downgrade check has at most the effect of setting the flag. -/
theorem verifyDowngrade_effects (k : Keeper) (found : Bool) (plan : Plan) :
    (verifyDowngrade k found plan).1 =
      if k.DowngradeVerified then [] else [Effect.SetDowngradeVerified true] := by
  unfold verifyDowngrade
  cases k.DowngradeVerified <;> simp
  split
  · split
    · rfl
    · split
      · split <;> rfl
      · rfl
  · rfl

/-- The downgrade check lets `PreBlocker` go on when it passes. -/
theorem verifyDowngrade_passes (k : Keeper) (found : Bool) (plan : Plan)
    (hcheck : downgradeCheckPasses k = true) :
    (verifyDowngrade k found plan).2 = none := by
  unfold verifyDowngrade
  unfold downgradeCheckPasses at hcheck
  cases hv : k.DowngradeVerified
  · simp only [hv, Bool.false_or, Bool.and_eq_true, Bool.or_eq_true, beq_iff_eq] at hcheck
    obtain ⟨herr, hlast⟩ := hcheck
    simp only [Bool.not_false, if_true]
    split
    · rcases hl : k.GetLastCompletedUpgrade with ⟨name, height, err⟩
      rw [hl] at herr hlast
      simp only at herr hlast
      cases err with
      | some e => simp at herr
      | none =>
        simp only
        rcases hlast with hname | hhandler
        · simp [hname]
        · simp [hhandler]
    · rfl
  · simp

/-- The downgrade check is not run on a plan that is due at a height that is
not to be skipped. -/
theorem verifyDowngrade_ready (k : Keeper) (plan : Plan)
    (hdue : k.ShouldExecute plan k.blockHeight = true)
    (hnoskip : k.IsSkipHeight k.blockHeight = false) :
    (verifyDowngrade k true plan).2 = none := by
  unfold verifyDowngrade
  cases k.DowngradeVerified <;> simp [hdue, hnoskip]

/-- The effects of the downgrade check: the flag is set when it was not. -/
theorem verifyDowngrade_eq (k : Keeper) (found : Bool) (plan : Plan)
    (h : (verifyDowngrade k found plan).2 = none) :
    verifyDowngrade k found plan =
      (if k.DowngradeVerified then [] else [Effect.SetDowngradeVerified true], none) := by
  rw [← verifyDowngrade_effects k found plan, ← h]

/-- What `PreBlocker` does with a plan that is due at a height to be skipped,
after the downgrade check. -/
theorem PreBlocker_of_skip (k : Keeper)
    (hfound : k.GetUpgradePlan.2 = none)
    (hdue : k.ShouldExecute k.GetUpgradePlan.1 k.blockHeight = true)
    (hskip : k.IsSkipHeight k.blockHeight = true)
    (hcheck : (verifyDowngrade k true k.GetUpgradePlan.1).2 = none) :
    PreBlocker k =
      ⟨(if k.DowngradeVerified then [] else [Effect.SetDowngradeVerified true]) ++
          [Effect.logInfo ("UPGRADE \"" ++ k.GetUpgradePlan.1.Name ++ "\" SKIPPED at " ++
              toString k.GetUpgradePlan.1.Height ++ ": " ++ k.GetUpgradePlan.1.Info),
            Effect.ClearUpgradePlan],
        .returned k.ClearUpgradePlan⟩ := by
  have hv := verifyDowngrade_eq k true k.GetUpgradePlan.1 hcheck
  unfold PreBlocker
  simp only [hfound, Option.isNone_none, hv, hdue, hskip]
  cases k.ClearUpgradePlan <;> simp

/-- What `PreBlocker` does with a plan that is due at a height that is not to
be skipped. -/
theorem PreBlocker_of_ready (k : Keeper)
    (hfound : k.GetUpgradePlan.2 = none)
    (hdue : k.ShouldExecute k.GetUpgradePlan.1 k.blockHeight = true)
    (hnoskip : k.IsSkipHeight k.blockHeight = false) :
    PreBlocker k =
      if k.HasHandler k.GetUpgradePlan.1.Name then
        ⟨(if k.DowngradeVerified then [] else [Effect.SetDowngradeVerified true]) ++
            [Effect.logInfo ("applying upgrade \"" ++ k.GetUpgradePlan.1.Name ++ "\" at " ++
                k.DueAt k.GetUpgradePlan.1),
              Effect.ApplyUpgrade k.GetUpgradePlan.1],
          .returned (k.ApplyUpgrade k.GetUpgradePlan.1)⟩
      else
        match k.DumpUpgradeInfoToDisk k.blockHeight k.GetUpgradePlan.1 with
        | some err =>
          ⟨(if k.DowngradeVerified then [] else [Effect.SetDowngradeVerified true]) ++
              [Effect.DumpUpgradeInfoToDisk k.blockHeight k.GetUpgradePlan.1],
            .returned (some (GoError.errorf
              ("unable to write upgrade info to filesystem: " ++ err.Error) err))⟩
        | none =>
          ⟨(if k.DowngradeVerified then [] else [Effect.SetDowngradeVerified true]) ++
              [Effect.DumpUpgradeInfoToDisk k.blockHeight k.GetUpgradePlan.1,
                Effect.logError (BuildUpgradeNeededMsg k.DueAt k.GetUpgradePlan.1)],
            .returned (some (GoError.new (BuildUpgradeNeededMsg k.DueAt k.GetUpgradePlan.1)))⟩ := by
  have hv := verifyDowngrade_eq k true k.GetUpgradePlan.1
    (verifyDowngrade_ready k k.GetUpgradePlan.1 hdue hnoskip)
  unfold PreBlocker
  simp only [hfound, Option.isNone_none, hv, hdue, hnoskip]
  cases hh : k.HasHandler k.GetUpgradePlan.1.Name
  · cases k.DumpUpgradeInfoToDisk k.blockHeight k.GetUpgradePlan.1 <;> simp
  · cases k.ApplyUpgrade k.GetUpgradePlan.1 <;> simp

/-- What `PreBlocker` does with a plan that is not due, after the downgrade
check. -/
theorem PreBlocker_of_not_due (k : Keeper)
    (hfound : k.GetUpgradePlan.2 = none)
    (hdue : k.ShouldExecute k.GetUpgradePlan.1 k.blockHeight = false)
    (hcheck : (verifyDowngrade k true k.GetUpgradePlan.1).2 = none) :
    PreBlocker k =
      if k.HasHandler k.GetUpgradePlan.1.Name then
        ⟨(if k.DowngradeVerified then [] else [Effect.SetDowngradeVerified true]) ++
            [Effect.logError ("BINARY UPDATED BEFORE TRIGGER! UPGRADE \"" ++
              k.GetUpgradePlan.1.Name ++
              "\" - in binary but not executed on chain. Downgrade your binary")],
          .returned (some (GoError.new ("BINARY UPDATED BEFORE TRIGGER! UPGRADE \"" ++
              k.GetUpgradePlan.1.Name ++
              "\" - in binary but not executed on chain. Downgrade your binary")))⟩
      else
        ⟨if k.DowngradeVerified then [] else [Effect.SetDowngradeVerified true],
          .returned none⟩ := by
  have hv := verifyDowngrade_eq k true k.GetUpgradePlan.1 hcheck
  unfold PreBlocker
  simp only [hfound, Option.isNone_none, hv, hdue]
  cases hh : k.HasHandler k.GetUpgradePlan.1.Name <;> simp

/-- What `PreBlocker` does when no plan is scheduled, after the downgrade
check. -/
theorem PreBlocker_of_no_plan (k : Keeper) (e : GoError)
    (hnone : k.GetUpgradePlan.2 = some e)
    (his : e.Is k.ErrNoUpgradePlanFound = true)
    (hcheck : (verifyDowngrade k false k.GetUpgradePlan.1).2 = none) :
    PreBlocker k =
      ⟨if k.DowngradeVerified then [] else [Effect.SetDowngradeVerified true],
        .returned none⟩ := by
  have hv := verifyDowngrade_eq k false k.GetUpgradePlan.1 hcheck
  unfold PreBlocker
  simp [hnone, his, hv]

/-- What `PreBlocker` does when the downgrade check returns from it. -/
theorem PreBlocker_of_check_returns (k : Keeper) (r : Result)
    (hfound : k.GetUpgradePlan.2 = none)
    (hcheck : (verifyDowngrade k true k.GetUpgradePlan.1).2 = some r) :
    PreBlocker k =
      ⟨if k.DowngradeVerified then [] else [Effect.SetDowngradeVerified true], r⟩ := by
  have hv : verifyDowngrade k true k.GetUpgradePlan.1 =
      (if k.DowngradeVerified then [] else [Effect.SetDowngradeVerified true], some r) := by
    rw [← verifyDowngrade_effects k true k.GetUpgradePlan.1, ← hcheck]
  unfold PreBlocker
  simp only [hfound, Option.isNone_none, hv]
  simp

/-- C23 fails as stated: the plan `v2` is scheduled at the height 100 and the
current height 50 is a height to skip; `PreBlocker` returns nil and has no
effect, so that the plan is not cleared. -/
theorem PreBlocker_skip_height_plan_not_due :
    (toyKeeper 50 false).GetUpgradePlan = (toyPlan, none) ∧
    (toyKeeper 50 false).IsSkipHeight (toyKeeper 50 false).blockHeight = true ∧
    (toyKeeper 50 false).ShouldExecute toyPlan 50 = false ∧
    (PreBlocker (toyKeeper 50 false)).result = .returned none ∧
    (PreBlocker (toyKeeper 50 false)).effects = [] ∧
    Effect.ClearUpgradePlan ∉ (PreBlocker (toyKeeper 50 false)).effects :=
  ⟨rfl, rfl, rfl, rfl, rfl, by decide⟩

/-- A plan that is due at a height to skip is not cleared either when the
downgrade check fails: the binary has no handler for the last completed
upgrade `v1`, and `PreBlocker` returns the error of the check. -/
theorem PreBlocker_skip_height_check_fails :
    (toyKeeperDowngraded 100).GetUpgradePlan = (toyPlan, none) ∧
    (toyKeeperDowngraded 100).IsSkipHeight 100 = true ∧
    (toyKeeperDowngraded 100).ShouldExecute toyPlan 100 = true ∧
    (PreBlocker (toyKeeperDowngraded 100)).result =
      .returned (some (GoError.new
        "wrong app version 0, upgrade handler is missing for v1 upgrade plan")) ∧
    (PreBlocker (toyKeeperDowngraded 100)).effects = [Effect.SetDowngradeVerified true] :=
  ⟨rfl, rfl, rfl, rfl, rfl⟩

/-- C23, as the code has it: when a plan is scheduled and the current height
is a height to skip, `PreBlocker` clears the plan, and returns the result of
`ClearUpgradePlan`, if the plan is due at the current height and the downgrade
check passes; it leaves the plan in place if the plan is not due; and in no
case does it apply the upgrade. -/
theorem PreBlocker_skip_height (k : Keeper)
    (hfound : k.GetUpgradePlan.2 = none)
    (hskip : k.IsSkipHeight k.blockHeight = true) :
    (k.ShouldExecute k.GetUpgradePlan.1 k.blockHeight = true →
      downgradeCheckPasses k = true →
      (PreBlocker k).result = .returned k.ClearUpgradePlan ∧
      Effect.ClearUpgradePlan ∈ (PreBlocker k).effects) ∧
    (k.ShouldExecute k.GetUpgradePlan.1 k.blockHeight = false →
      Effect.ClearUpgradePlan ∉ (PreBlocker k).effects) ∧
    (∀ p, Effect.ApplyUpgrade p ∉ (PreBlocker k).effects) := by
  refine ⟨?_, ?_, ?_⟩
  · intro hdue hcheck
    rw [PreBlocker_of_skip k hfound hdue hskip
      (verifyDowngrade_passes k true k.GetUpgradePlan.1 hcheck)]
    simp
  · intro hdue
    cases hc : (verifyDowngrade k true k.GetUpgradePlan.1).2 with
    | none =>
      rw [PreBlocker_of_not_due k hfound hdue hc]
      cases k.HasHandler k.GetUpgradePlan.1.Name <;> cases k.DowngradeVerified <;> simp
    | some r =>
      rw [PreBlocker_of_check_returns k r hfound hc]
      cases k.DowngradeVerified <;> simp
  · intro p
    cases hc : (verifyDowngrade k true k.GetUpgradePlan.1).2 with
    | none =>
      cases hdue : k.ShouldExecute k.GetUpgradePlan.1 k.blockHeight
      · rw [PreBlocker_of_not_due k hfound hdue hc]
        cases k.HasHandler k.GetUpgradePlan.1.Name <;> cases k.DowngradeVerified <;> simp
      · rw [PreBlocker_of_skip k hfound hdue hskip hc]
        cases k.DowngradeVerified <;> simp
    | some r =>
      rw [PreBlocker_of_check_returns k r hfound hc]
      cases k.DowngradeVerified <;> simp

/-- C23, as the code has it, on a keeper at the first block after a start of
the binary: the plan `v2` is due at the height 100, which is a height to skip. -/
theorem PreBlocker_skip_height_witness :
    (toyKeeperFresh 100 true).GetUpgradePlan.2 = none ∧
    (toyKeeperFresh 100 true).IsSkipHeight (toyKeeperFresh 100 true).blockHeight = true ∧
    (toyKeeperFresh 100 true).ShouldExecute toyPlan 100 = true ∧
    downgradeCheckPasses (toyKeeperFresh 100 true) = true ∧
    (PreBlocker (toyKeeperFresh 100 true)).effects =
      [Effect.SetDowngradeVerified true, Effect.logInfo "UPGRADE \"v2\" SKIPPED at 100: notes",
        Effect.ClearUpgradePlan] ∧
    (PreBlocker (toyKeeperFresh 100 true)).result = .returned none ∧
    Effect.ClearUpgradePlan ∈ (PreBlocker (toyKeeperFresh 100 true)).effects ∧
    ∀ p, Effect.ApplyUpgrade p ∉ (PreBlocker (toyKeeperFresh 100 true)).effects :=
  ⟨rfl, rfl, rfl, rfl, rfl,
    ((PreBlocker_skip_height (toyKeeperFresh 100 true) rfl rfl).1 rfl rfl).1,
    ((PreBlocker_skip_height (toyKeeperFresh 100 true) rfl rfl).1 rfl rfl).2,
    (PreBlocker_skip_height (toyKeeperFresh 100 true) rfl rfl).2.2⟩

/-- C24 fails as stated: the plan `v2` is due at the height 101, which is not
a height to skip, the binary has no handler for it and the disk cannot be
written; the error that `PreBlocker` returns wraps the error of the write, and
its message is not the message of `BuildUpgradeNeededMsg`. -/
theorem PreBlocker_disk_write_fails :
    (toyKeeperDiskFull 101).GetUpgradePlan = (toyPlan, none) ∧
    (toyKeeperDiskFull 101).ShouldExecute toyPlan 101 = true ∧
    (toyKeeperDiskFull 101).IsSkipHeight 101 = false ∧
    (toyKeeperDiskFull 101).HasHandler toyPlan.Name = false ∧
    (PreBlocker (toyKeeperDiskFull 101)).result =
      .returned (some (GoError.errorf
        "unable to write upgrade info to filesystem: no space left on device"
        (GoError.new "no space left on device"))) ∧
    BuildUpgradeNeededMsg (toyKeeperDiskFull 101).DueAt toyPlan =
      "UPGRADE \"v2\" NEEDED at height: 100: notes" ∧
    (GoError.errorf "unable to write upgrade info to filesystem: no space left on device"
        (GoError.new "no space left on device")).Error ≠
      BuildUpgradeNeededMsg (toyKeeperDiskFull 101).DueAt toyPlan :=
  ⟨rfl, rfl, rfl, rfl, rfl, rfl, by decide⟩

/-- C24, as the code has it: when a plan is found, is due at the current
height and the height is not a height to skip, `PreBlocker` applies the upgrade
and returns the result of `ApplyUpgrade` if the binary has a handler for the
name of the plan; otherwise it calls `DumpUpgradeInfoToDisk`, never applies the
upgrade and returns an error that is not nil: the error whose message is
`BuildUpgradeNeededMsg(plan)`, that is `UPGRADE "<name>" NEEDED at <dueAt>:
<info>`, when the write succeeds, and the error of the write, wrapped, when the
write fails. -/
theorem PreBlocker_ready_plan (k : Keeper)
    (hfound : k.GetUpgradePlan.2 = none)
    (hdue : k.ShouldExecute k.GetUpgradePlan.1 k.blockHeight = true)
    (hnoskip : k.IsSkipHeight k.blockHeight = false) :
    (k.HasHandler k.GetUpgradePlan.1.Name = true →
      (PreBlocker k).result = .returned (k.ApplyUpgrade k.GetUpgradePlan.1) ∧
      Effect.ApplyUpgrade k.GetUpgradePlan.1 ∈ (PreBlocker k).effects) ∧
    (k.HasHandler k.GetUpgradePlan.1.Name = false →
      Effect.DumpUpgradeInfoToDisk k.blockHeight k.GetUpgradePlan.1 ∈ (PreBlocker k).effects ∧
      (∀ p, Effect.ApplyUpgrade p ∉ (PreBlocker k).effects) ∧
      (∃ err : GoError, (PreBlocker k).result = .returned (some err)) ∧
      (k.DumpUpgradeInfoToDisk k.blockHeight k.GetUpgradePlan.1 = none →
        (PreBlocker k).result =
          .returned (some (GoError.new (BuildUpgradeNeededMsg k.DueAt k.GetUpgradePlan.1)))) ∧
      (∀ e : GoError, k.DumpUpgradeInfoToDisk k.blockHeight k.GetUpgradePlan.1 = some e →
        (PreBlocker k).result =
          .returned (some (GoError.errorf
            ("unable to write upgrade info to filesystem: " ++ e.Error) e)))) ∧
    BuildUpgradeNeededMsg k.DueAt k.GetUpgradePlan.1 =
      "UPGRADE \"" ++ k.GetUpgradePlan.1.Name ++ "\" NEEDED at " ++
        k.DueAt k.GetUpgradePlan.1 ++ ": " ++ k.GetUpgradePlan.1.Info := by
  have hp := PreBlocker_of_ready k hfound hdue hnoskip
  refine ⟨?_, ?_, rfl⟩
  · intro hh
    rw [hp]
    simp [hh]
  · intro hh
    rw [hp]
    simp only [hh, Bool.false_eq_true, if_false]
    cases hd : k.DumpUpgradeInfoToDisk k.blockHeight k.GetUpgradePlan.1 with
    | none => cases k.DowngradeVerified <;> simp
    | some e => cases k.DowngradeVerified <;> simp

/-- C24, as the code has it, at the height 101: with a handler for `v2` the
upgrade is applied; without one the upgrade info is written and the error has
the message of `BuildUpgradeNeededMsg`. -/
theorem PreBlocker_ready_plan_witness :
    ((toyKeeper 101 true).GetUpgradePlan.2 = none ∧
      (toyKeeper 101 true).ShouldExecute toyPlan 101 = true ∧
      (toyKeeper 101 true).IsSkipHeight 101 = false ∧
      (toyKeeper 101 true).HasHandler toyPlan.Name = true ∧
      (PreBlocker (toyKeeper 101 true)).effects =
        [Effect.logInfo "applying upgrade \"v2\" at height: 100", Effect.ApplyUpgrade toyPlan] ∧
      (PreBlocker (toyKeeper 101 true)).result = .returned none ∧
      Effect.ApplyUpgrade toyPlan ∈ (PreBlocker (toyKeeper 101 true)).effects) ∧
    ((toyKeeper 101 false).HasHandler toyPlan.Name = false ∧
      (PreBlocker (toyKeeper 101 false)).effects =
        [Effect.DumpUpgradeInfoToDisk 101 toyPlan,
          Effect.logError "UPGRADE \"v2\" NEEDED at height: 100: notes"] ∧
      (PreBlocker (toyKeeper 101 false)).result =
        .returned (some (GoError.new "UPGRADE \"v2\" NEEDED at height: 100: notes")) ∧
      ∀ p, Effect.ApplyUpgrade p ∉ (PreBlocker (toyKeeper 101 false)).effects) :=
  ⟨⟨rfl, rfl, rfl, rfl, rfl,
      ((PreBlocker_ready_plan (toyKeeper 101 true) rfl rfl rfl).1 rfl).1,
      ((PreBlocker_ready_plan (toyKeeper 101 true) rfl rfl rfl).1 rfl).2⟩,
    ⟨rfl, rfl,
      ((PreBlocker_ready_plan (toyKeeper 101 false) rfl rfl rfl).2.1 rfl).2.2.2.1 rfl,
      ((PreBlocker_ready_plan (toyKeeper 101 false) rfl rfl rfl).2.1 rfl).2.1⟩⟩

/-- C25: when the downgrade check passes, and a plan is found that is not due
at the current height, `PreBlocker` returns an error that is not nil if and
only if the binary has a handler for the name of the plan, and neither applies
nor clears the plan; when no plan is found, `PreBlocker` returns nil. -/
theorem PreBlocker_plan_not_ready (k : Keeper) (hcheck : downgradeCheckPasses k = true) :
    (k.GetUpgradePlan.2 = none →
      k.ShouldExecute k.GetUpgradePlan.1 k.blockHeight = false →
      ((∃ err : GoError, (PreBlocker k).result = .returned (some err)) ↔
        k.HasHandler k.GetUpgradePlan.1.Name = true) ∧
      (k.HasHandler k.GetUpgradePlan.1.Name = false → (PreBlocker k).result = .returned none) ∧
      (∀ p, Effect.ApplyUpgrade p ∉ (PreBlocker k).effects) ∧
      Effect.ClearUpgradePlan ∉ (PreBlocker k).effects) ∧
    (∀ e : GoError, k.GetUpgradePlan.2 = some e → e.Is k.ErrNoUpgradePlanFound = true →
      (PreBlocker k).result = .returned none ∧
      (∀ p, Effect.ApplyUpgrade p ∉ (PreBlocker k).effects) ∧
      Effect.ClearUpgradePlan ∉ (PreBlocker k).effects) := by
  refine ⟨?_, ?_⟩
  · intro hfound hdue
    rw [PreBlocker_of_not_due k hfound hdue
      (verifyDowngrade_passes k true k.GetUpgradePlan.1 hcheck)]
    cases hh : k.HasHandler k.GetUpgradePlan.1.Name <;> cases k.DowngradeVerified <;> simp
  · intro e hnone his
    rw [PreBlocker_of_no_plan k e hnone his
      (verifyDowngrade_passes k false k.GetUpgradePlan.1 hcheck)]
    cases k.DowngradeVerified <;> simp

/-- C25, at the height 50 of a keeper at the first block after a start of the
binary, where the plan `v2` is not due: with a handler for `v2` the error of a
binary updated too early, without one nil; and nil when no plan is scheduled. -/
theorem PreBlocker_plan_not_ready_witness :
    (downgradeCheckPasses (toyKeeperFresh 50 true) = true ∧
      (toyKeeperFresh 50 true).ShouldExecute toyPlan 50 = false ∧
      (toyKeeperFresh 50 true).HasHandler toyPlan.Name = true ∧
      (PreBlocker (toyKeeperFresh 50 true)).result =
        .returned (some (GoError.new ("BINARY UPDATED BEFORE TRIGGER! UPGRADE \"v2\"" ++
          " - in binary but not executed on chain. Downgrade your binary"))) ∧
      ((∃ err : GoError, (PreBlocker (toyKeeperFresh 50 true)).result = .returned (some err)) ↔
        (toyKeeperFresh 50 true).HasHandler toyPlan.Name = true)) ∧
    (downgradeCheckPasses (toyKeeperFresh 50 false) = true ∧
      (toyKeeperFresh 50 false).HasHandler toyPlan.Name = false ∧
      (PreBlocker (toyKeeperFresh 50 false)).effects = [Effect.SetDowngradeVerified true] ∧
      (PreBlocker (toyKeeperFresh 50 false)).result = .returned none) ∧
    (downgradeCheckPasses (toyKeeperNoPlan 50) = true ∧
      (toyKeeperNoPlan 50).GetUpgradePlan.2 = some (GoError.new "upgrade plan not found") ∧
      (PreBlocker (toyKeeperNoPlan 50)).result = .returned none) :=
  ⟨⟨rfl, rfl, rfl, rfl,
      ((PreBlocker_plan_not_ready (toyKeeperFresh 50 true) rfl).1 rfl rfl).1⟩,
    ⟨rfl, rfl, rfl,
      ((PreBlocker_plan_not_ready (toyKeeperFresh 50 false) rfl).1 rfl rfl).2.1 rfl⟩,
    ⟨rfl, rfl,
      ((PreBlocker_plan_not_ready (toyKeeperNoPlan 50) rfl).2
        (GoError.new "upgrade plan not found") rfl rfl).1⟩⟩

end UpgradeKeeper

/-! # Claims about the transient store -/

namespace TransientStore

open TxDecode (Bytes)

/-- C26: `Commit` cleans up the store. For every store and every sequence of
writes to it, provided that a database made by `NewMemDB` has no key: after
`Commit` every `Get` returns nothing and every `Has` is false, `Commit` returns
the zero `CommitID`, and `LastCommitID` is the zero `CommitID` before and
after. -/
theorem Commit_cleans_up {DB : Type} (db : Database DB)
    (hempty : ∀ key, db.Get db.NewMemDB key = none ∧ db.Has db.NewMemDB key = false)
    (ts0 : Store DB) (ws : List Write) :
    (∀ key, Store.Get db (Store.Commit db (applyWrites db ws ts0)).1 key = none ∧
      Store.Has db (Store.Commit db (applyWrites db ws ts0)).1 key = false) ∧
    (Store.Commit db (applyWrites db ws ts0)).1 = NewStore db ∧
    (Store.Commit db (applyWrites db ws ts0)).2 = CommitID.zero ∧
    Store.LastCommitID (applyWrites db ws ts0) = CommitID.zero ∧
    Store.LastCommitID (Store.Commit db (applyWrites db ws ts0)).1 = CommitID.zero ∧
    CommitID.zero = { Version := 0, Hash := [] } :=
  ⟨fun key => hempty key, rfl, rfl, rfl, rfl, rfl⟩

/-- C26, on a database that is a list of pairs: two keys are set and one of
them is deleted; the other is in the store before `Commit` and not after. -/
theorem Commit_cleans_up_witness :
    (∀ key, toyDatabase.Get toyDatabase.NewMemDB key = none ∧
      toyDatabase.Has toyDatabase.NewMemDB key = false) ∧
    Store.Get toyDatabase
      (applyWrites toyDatabase [.set [1] [2], .set [3] [4], .delete [1]] (NewStore toyDatabase))
      [3] = some [4] ∧
    Store.Has toyDatabase
      (applyWrites toyDatabase [.set [1] [2], .set [3] [4], .delete [1]] (NewStore toyDatabase))
      [3] = true ∧
    (∀ key, Store.Get toyDatabase (Store.Commit toyDatabase
        (applyWrites toyDatabase [.set [1] [2], .set [3] [4], .delete [1]]
          (NewStore toyDatabase))).1 key = none ∧
      Store.Has toyDatabase (Store.Commit toyDatabase
        (applyWrites toyDatabase [.set [1] [2], .set [3] [4], .delete [1]]
          (NewStore toyDatabase))).1 key = false) ∧
    (Store.Commit toyDatabase
      (applyWrites toyDatabase [.set [1] [2], .set [3] [4], .delete [1]]
        (NewStore toyDatabase))).2 = CommitID.zero :=
  ⟨fun _ => ⟨rfl, rfl⟩, by decide, by decide,
    (Commit_cleans_up toyDatabase (fun _ => ⟨rfl, rfl⟩) (NewStore toyDatabase)
      [.set [1] [2], .set [3] [4], .delete [1]]).1,
    (Commit_cleans_up toyDatabase (fun _ => ⟨rfl, rfl⟩) (NewStore toyDatabase)
      [.set [1] [2], .set [3] [4], .delete [1]]).2.2.1⟩

end TransientStore

/-! # Claims about the simulation configuration -/

namespace Simulation

/-- C30: for every configuration `c`, every field of `c.Clone()` is the field
of `c`, except `FuzzSeed` and `T`, which are nil; so `Clone` is idempotent, and
`c.Clone()` is `c` exactly when `FuzzSeed` and `T` of `c` are nil. -/
theorem Clone_frame {TB : Type} (c : Config TB) :
    (c.Clone.GenesisFile = c.GenesisFile ∧ c.Clone.ParamsFile = c.ParamsFile ∧
      c.Clone.ExportParamsPath = c.ExportParamsPath ∧
      c.Clone.ExportParamsHeight = c.ExportParamsHeight ∧
      c.Clone.ExportStatePath = c.ExportStatePath ∧
      c.Clone.ExportStatsPath = c.ExportStatsPath ∧
      c.Clone.Seed = c.Seed ∧ c.Clone.InitialBlockHeight = c.InitialBlockHeight ∧
      c.Clone.GenesisTime = c.GenesisTime ∧ c.Clone.NumBlocks = c.NumBlocks ∧
      c.Clone.BlockSize = c.BlockSize ∧ c.Clone.ChainID = c.ChainID ∧
      c.Clone.LeanLog = c.LeanLog ∧ c.Clone.Commit = c.Commit ∧
      c.Clone.DBBackend = c.DBBackend ∧ c.Clone.BlockMaxGas = c.BlockMaxGas) ∧
    c.Clone.FuzzSeed = none ∧ c.Clone.T = none ∧
    c.Clone.Clone = c.Clone ∧
    (c.Clone = c ↔ c.FuzzSeed = none ∧ c.T = none) := by
  refine ⟨⟨rfl, rfl, rfl, rfl, rfl, rfl, rfl, rfl, rfl, rfl, rfl, rfl, rfl, rfl, rfl, rfl⟩,
    rfl, rfl, rfl, ?_⟩
  constructor
  · intro h
    exact ⟨by rw [← h]; rfl, by rw [← h]; rfl⟩
  · rintro ⟨h1, h2⟩
    cases c
    simp only at h1 h2
    subst h1 h2
    rfl

/-- The clone of a configuration with a fuzz seed and a test handle: the two
are dropped, and the clone is not the configuration. -/
theorem Clone_frame_eval :
    toyConfig.Clone = { toyConfig with FuzzSeed := none, T := none } ∧
    toyConfig.Clone.Seed = 42 ∧ toyConfig.Clone.FuzzSeed = none ∧
    toyConfig.FuzzSeed = some [1, 2, 3] ∧ toyConfig.Clone ≠ toyConfig := by
  refine ⟨rfl, rfl, rfl, rfl, ?_⟩
  intro h
  have := congrArg Config.T h
  simp [Config.Clone, toyConfig] at this

end Simulation
